import Mathlib

/-!
# The synchronized player (`8-3/player.c`)

A shallow embedding of the packet queue, the frame queue, the clocks, the
audio callback, the video decoder, the refresh timer, the display rectangle
and the reader of the player, and the properties of them that follow from the
code. The packet queue of the earlier player (`8-2/simpleplayer2.c`,
namespace `SimplePlayer2`) and the copy loop of the cut utility (`5-6/cut.c`,
namespace `Cut`) follow the definitions of the player.

Conventions of the embedding:

* C `int`, `unsigned int` and `int64_t` values are mathematical integers
  (`Int`); the counters of the queues are exact, i.e. the development describes
  runs in which no counter leaves the range of its C type. The counter `size`
  of the packet queue, which C updates through `size_t` and converts back to
  `int`, is given a second time with that conversion (`Wrapping`), together
  with the relation between the two.
* A C `double` is NaN, an infinity or an exact rational (`CDouble`): the
  rounding of finite results is not modelled.
* A mutex-protected operation is one atomic step on the queue state; the
  mutex and the condition variable themselves are not part of the state.
* A call that would sit in `SDL_CondWait` in the state it is given has no
  result (`none`): it completes only from a state in which its wait loop ends.
* A conversion or subtraction whose behaviour C leaves undefined (a `double`
  outside the range of `int`, the `int64_t` difference in
  `calculate_display_rect` when it overflows) has no result either, and
  neither has a call in which an assertion of the media library aborts the
  process (`av_fast_malloc`).
* Outcomes that depend on the allocator (a `NULL` from `av_packet_alloc`, a
  FIFO that cannot grow) are explicit Boolean arguments.
* The decoder and the resampler of the media library are arbitrary functions
  (`AudioLib`); the wall clock and what a thread observes of the others (the
  `quit` flag, the packets read) are arguments.
-/

namespace Player

/-! ## Library values used by the queues -/

/-- The libavutil constant `AV_NOPTS_VALUE`, `INT64_MIN`. -/
def AV_NOPTS_VALUE : Int := -9223372036854775808

/-- The value of `AVERROR(ENOMEM)`. -/
def AVERROR_ENOMEM : Int := -12

/-- The fields of an `AVPacket` the player and its queues touch: the payload
bytes, their count, the duration, the timestamps, the stream tag, the flags
and the byte position. -/
structure AVPacket where
  data : List Nat
  size : Int
  duration : Int
  pts : Int
  dts : Int
  stream_index : Int
  flags : Int
  pos : Int
deriving DecidableEq

/-- A packet with the library defaults: what `av_packet_alloc` returns and what
`av_packet_unref` and the source side of `av_packet_move_ref` leave behind. -/
def AVPacket.blank : AVPacket :=
  { data := [], size := 0, duration := 0, pts := AV_NOPTS_VALUE, dts := AV_NOPTS_VALUE,
    stream_index := 0, flags := 0, pos := -1 }

/-- The library call `av_packet_unref(pkt)`: the payload is released and the
packet is reset to the defaults. -/
def av_packet_unref (_pkt : AVPacket) : AVPacket := AVPacket.blank

/-- The library call `av_packet_move_ref(dst, src)`: `dst` receives every field
of `src` and `src` is reset. The result is `(dst, src)` after the call. -/
def av_packet_move_ref (_dst src : AVPacket) : AVPacket × AVPacket := (src, AVPacket.blank)

/-- The library call `av_fifo_write(f, &x, 1)` on a FIFO created with
`AV_FIFO_FLAG_AUTO_GROW`: one element is appended at the tail, unless the FIFO
is full and cannot grow (`grow_ok = false`), which is an error that leaves the
FIFO as it was. -/
def av_fifo_write {α : Type} (f : List α) (x : α) (grow_ok : Bool) : Int × List α :=
  if grow_ok then (0, f ++ [x]) else (AVERROR_ENOMEM, f)

/-- The library call `av_fifo_read(f, &x, 1)`: the oldest element is removed and
handed out; on an empty FIFO the call fails (`none`, a negative return). -/
def av_fifo_read {α : Type} (f : List α) : Option (α × List α) :=
  match f with
  | [] => none
  | x :: rest => some (x, rest)

/-! ## PacketQueue -/

/-- The size of `MyAVPacketList`, a struct of one pointer (LP64). -/
def sizeof_MyAVPacketList : Int := 8

/-- The `PacketQueue` of the player: the FIFO of held packets and the three
counters. -/
structure PacketQueue where
  pkt_list : List AVPacket
  nb_packets : Int
  size : Int
  duration : Int
deriving DecidableEq

/-- The function `packet_queue_init`: the queue is zeroed, then the FIFO, the
mutex and the condition variable are created; each creation may fail. The
result is the return code and the queue. -/
def packet_queue_init (fifo_ok mutex_ok cond_ok : Bool) : Int × PacketQueue :=
  let q : PacketQueue := { pkt_list := [], nb_packets := 0, size := 0, duration := 0 }
  if !fifo_ok then (AVERROR_ENOMEM, q)
  else if !mutex_ok then (AVERROR_ENOMEM, q)
  else if !cond_ok then (AVERROR_ENOMEM, q)
  else (0, q)

/-- The function `packet_queue_put_private`. -/
def packet_queue_put_private (q : PacketQueue) (pkt : AVPacket) (grow_ok : Bool) :
    Int × PacketQueue :=
  let pkt1 := pkt
  let w := av_fifo_write q.pkt_list pkt1 grow_ok
  if w.1 < 0 then (w.1, { q with pkt_list := w.2 })
  else
    (0, { pkt_list := w.2,
          nb_packets := q.nb_packets + 1,
          size := q.size + (pkt1.size + sizeof_MyAVPacketList),
          duration := q.duration + pkt1.duration })

/-- The function `packet_queue_put`. The result is the return code, the queue
and the caller's packet after the call. -/
def packet_queue_put (q : PacketQueue) (pkt : AVPacket) (alloc_ok grow_ok : Bool) :
    Int × PacketQueue × AVPacket :=
  if !alloc_ok then (-1, q, av_packet_unref pkt)
  else
    let m := av_packet_move_ref AVPacket.blank pkt
    let r := packet_queue_put_private q m.1 grow_ok
    (r.1, r.2, m.2)

/-- The function `packet_queue_get`. The result is the return code, the queue
and the caller's output packet after the call; there is no result when the
call waits (`block` set, nothing held). -/
def packet_queue_get (q : PacketQueue) (pkt : AVPacket) (block : Int) :
    Option (Int × PacketQueue × AVPacket) :=
  match av_fifo_read q.pkt_list with
  | some (pkt1, rest) =>
      some (1,
        { pkt_list := rest,
          nb_packets := q.nb_packets - 1,
          size := q.size - (pkt1.size + sizeof_MyAVPacketList),
          duration := q.duration - pkt1.duration },
        (av_packet_move_ref pkt pkt1).1)
  | none => if block = 0 then some (0, q, pkt) else none

/-- The read loop of `packet_queue_flush`: every successful `av_fifo_read`
frees the packet it took out; the loop ends at the first failing read. -/
def packet_queue_flush_loop : List AVPacket → List AVPacket
  | [] => []
  | _ :: rest => packet_queue_flush_loop rest

/-- The function `packet_queue_flush`. -/
def packet_queue_flush (q : PacketQueue) : PacketQueue :=
  { pkt_list := packet_queue_flush_loop q.pkt_list, nb_packets := 0, size := 0, duration := 0 }

/-- One call on a packet queue, with the arguments and allocator outcomes it
is made with. -/
inductive PacketQueueOp where
  | put (pkt : AVPacket) (alloc_ok grow_ok : Bool)
  | get (out : AVPacket) (block : Int)
  | flush
deriving DecidableEq

/-- The queue after one call; a `get` that waits leaves the queue as it is. -/
def PacketQueueOp.apply (q : PacketQueue) : PacketQueueOp → PacketQueue
  | .put pkt alloc_ok grow_ok => (packet_queue_put q pkt alloc_ok grow_ok).2.1
  | .get out block =>
      match packet_queue_get q out block with
      | some r => r.2.1
      | none => q
  | .flush => packet_queue_flush q

/-- The queue after a sequence of calls. -/
def PacketQueue.run (q : PacketQueue) (ops : List PacketQueueOp) : PacketQueue :=
  ops.foldl PacketQueueOp.apply q

/-- The packets a sequence of calls tries to put. -/
def PacketQueueOp.putPackets : List PacketQueueOp → List AVPacket
  | [] => []
  | .put pkt _ _ :: ops => pkt :: PacketQueueOp.putPackets ops
  | _ :: ops => PacketQueueOp.putPackets ops

/-- Successful puts of a list of packets, one after the other. -/
def packet_queue_put_all (q : PacketQueue) : List AVPacket → PacketQueue
  | [] => q
  | p :: ps => packet_queue_put_all (packet_queue_put q p true true).2.1 ps

/-- The return codes of successful-allocation puts of a list of packets. -/
def packet_queue_put_all_rets (q : PacketQueue) : List AVPacket → List Int
  | [] => []
  | p :: ps =>
      (packet_queue_put q p true true).1 ::
        packet_queue_put_all_rets (packet_queue_put q p true true).2.1 ps

/-- A number `n` of `packet_queue_get` calls in a row, each into the caller's
packet as the previous call left it; the result lists the return code and the
output packet of every call that completed, and the final queue. -/
def packet_queue_get_n (block : Int) : Nat → PacketQueue → AVPacket →
    List (Int × AVPacket) × PacketQueue
  | 0, q, _ => ([], q)
  | n + 1, q, out =>
      match packet_queue_get q out block with
      | some (ret, q1, out1) =>
          let r := packet_queue_get_n block n q1 out1
          ((ret, out1) :: r.1, r.2)
      | none => ([], q)

/-- The sum of `size + sizeof(MyAVPacketList)` over a list of packets. -/
def heldBytes (l : List AVPacket) : Int :=
  (l.map (fun p => p.size + sizeof_MyAVPacketList)).sum

/-- The sum of the durations of a list of packets. -/
def heldDuration (l : List AVPacket) : Int :=
  (l.map (fun p => p.duration)).sum

/-- The counters of the queue agree with the packets it holds. -/
def PacketQueue.Consistent (q : PacketQueue) : Prop :=
  q.nb_packets = (q.pkt_list.length : Int) ∧
  q.size = heldBytes q.pkt_list ∧
  q.duration = heldDuration q.pkt_list

/-- A first sample packet. -/
def samplePacketA : AVPacket :=
  { AVPacket.blank with data := [1, 2], size := 2, duration := 40, pts := 0, dts := 0 }

/-- A second sample packet, of another stream. -/
def samplePacketB : AVPacket :=
  { AVPacket.blank with data := [3], size := 1, duration := 20, pts := 40, dts := 40,
                        stream_index := 1 }

/-- A third sample packet. -/
def samplePacketC : AVPacket :=
  { AVPacket.blank with data := [4, 5, 6], size := 3, duration := 40, pts := 60, dts := 60 }

/-- Three packets told apart by payload, size, duration, timestamps and stream. -/
def samplePackets : List AVPacket := [samplePacketA, samplePacketB, samplePacketC]

/-- A sample sequence of calls: three puts, a get, a failed put, a flush, a put. -/
def sampleOps : List PacketQueueOp :=
  [ .put samplePacketA true true, .put samplePacketB true true, .put samplePacketC true true,
    .get AVPacket.blank 0, .put samplePacketA true false, .flush, .put samplePacketB true true ]

/-! ## FrameQueue -/

/-- An `AVRational`. -/
structure AVRational where
  num : Int
  den : Int
deriving DecidableEq

/-- The fields of an `AVFrame` the player touches: the image or the samples,
the geometry and pixel format, the sample aspect ratio, the timestamp, the byte
position of its packet and the repeat count of a picture; the sample count,
sample rate and channel count (`ch_layout.nb_channels`) of an audio frame. -/
structure AVFrame where
  data : List Nat
  width : Int
  height : Int
  format : Int
  sample_aspect_ratio : AVRational
  pts : Int
  pkt_pos : Int
  repeat_pict : Int
  nb_samples : Int := 0
  sample_rate : Int := 0
  nb_channels : Int := 0
deriving DecidableEq

/-- A frame holder with the library defaults: what `av_frame_alloc` returns and
what `av_frame_unref` and the source side of `av_frame_move_ref` leave. -/
def AVFrame.blank : AVFrame :=
  { data := [], width := 0, height := 0, format := -1, sample_aspect_ratio := ⟨0, 1⟩,
    pts := AV_NOPTS_VALUE, pkt_pos := -1, repeat_pict := 0 }

/-- The library call `av_frame_unref(frame)`. -/
def av_frame_unref (_frame : AVFrame) : AVFrame := AVFrame.blank

/-- The library call `av_frame_move_ref(dst, src)`; the result is `(dst, src)`
after the call. -/
def av_frame_move_ref (_dst src : AVFrame) : AVFrame × AVFrame := (src, AVFrame.blank)

/-- The `Frame` record of a slot of the frame queue. The field `frame` is the
content of the frame holder the slot points to. The queue only stores the two
`double` fields, so their type `D` is left open. -/
structure Frame (D : Type) where
  frame : AVFrame
  pts : D
  duration : D
  pos : Int
  width : Int
  height : Int
  format : Int
  sar : AVRational
deriving DecidableEq

/-- The constant `VIDEO_PICTURE_QUEUE_SIZE`. -/
def VIDEO_PICTURE_QUEUE_SIZE : Int := 3

/-- The constant `SAMPLE_QUEUE_SIZE`. -/
def SAMPLE_QUEUE_SIZE : Int := 9

/-- The constant `FRAME_QUEUE_SIZE`, `FFMAX(SAMPLE_QUEUE_SIZE, VIDEO_PICTURE_QUEUE_SIZE)`. -/
def FRAME_QUEUE_SIZE : Int := max SAMPLE_QUEUE_SIZE VIDEO_PICTURE_QUEUE_SIZE

/-- The `FrameQueue` of the player. `queue i` is the slot `queue[i]` of the C
array, which has the slots `0 ≤ i < FRAME_QUEUE_SIZE`. -/
structure FrameQueue (D : Type) where
  queue : Int → Frame D
  rindex : Int
  windex : Int
  size : Int
  abort : Int

section FrameQueueOps

variable {D : Type}

/-- A slot after `memset(fq, 0, ...)` and `av_frame_alloc`. -/
def Frame.zero [Zero D] : Frame D :=
  { frame := AVFrame.blank, pts := 0, duration := 0, pos := 0, width := 0, height := 0,
    format := 0, sar := ⟨0, 0⟩ }

/-- The function `frame_queue_init`: the queue is zeroed, then the mutex, the
condition variable and the frame holders of the first
`VIDEO_PICTURE_QUEUE_SIZE` slots are created; each creation may fail. The
result is the return code and the queue. -/
def frame_queue_init [Zero D] (_max_size : Int) (mutex_ok cond_ok frames_ok : Bool) :
    Int × FrameQueue D :=
  let fq : FrameQueue D :=
    { queue := fun _ => Frame.zero, rindex := 0, windex := 0, size := 0, abort := 0 }
  if !mutex_ok then (AVERROR_ENOMEM, fq)
  else if !cond_ok then (AVERROR_ENOMEM, fq)
  else if !frames_ok then (AVERROR_ENOMEM, fq)
  else (0, fq)

/-- The function `frame_queue_signal`: it only signals the condition. -/
def frame_queue_signal (fq : FrameQueue D) : FrameQueue D := fq

/-- The function `frame_queue_peek`: the slot at `rindex`. -/
def frame_queue_peek (fq : FrameQueue D) : Frame D := fq.queue fq.rindex

/-- The condition of the wait loop of `frame_queue_peek_writable`:
`fq->size >= VIDEO_PICTURE_QUEUE_SIZE && !fq->abort`. -/
def frame_queue_peek_writable_waits (fq : FrameQueue D) : Bool :=
  decide (fq.size ≥ VIDEO_PICTURE_QUEUE_SIZE) && decide (fq.abort = 0)

/-- The function `frame_queue_peek_writable`. While the wait condition holds
the call does not return (no result). The value returned is a pointer to a
slot: `some i` is `&fq->queue[i]` and `none` is `NULL`. -/
def frame_queue_peek_writable (fq : FrameQueue D) : Option (Option Int) :=
  if frame_queue_peek_writable_waits fq then none else some (some fq.windex)

/-- The function `frame_queue_push`. -/
def frame_queue_push (fq : FrameQueue D) : FrameQueue D :=
  { fq with
    windex := if fq.windex + 1 = VIDEO_PICTURE_QUEUE_SIZE then 0 else fq.windex + 1,
    size := fq.size + 1 }

/-- The function `frame_queue_pop`. -/
def frame_queue_pop (fq : FrameQueue D) : FrameQueue D :=
  let vp := fq.queue fq.rindex
  { fq with
    queue := Function.update fq.queue fq.rindex { vp with frame := av_frame_unref vp.frame },
    rindex := if fq.rindex + 1 = VIDEO_PICTURE_QUEUE_SIZE then 0 else fq.rindex + 1,
    size := fq.size - 1 }

/-- The function `frame_queue_abort`. -/
def frame_queue_abort (fq : FrameQueue D) : FrameQueue D :=
  { fq with abort := 1 }

/-- The record `queue_picture` leaves in the slot it fills. -/
def pictureRecord (src_frame : AVFrame) (pts duration : D) (pos : Int) : Frame D :=
  { frame := (av_frame_move_ref AVFrame.blank src_frame).1,
    pts := pts, duration := duration, pos := pos,
    width := src_frame.width, height := src_frame.height, format := src_frame.format,
    sar := src_frame.sample_aspect_ratio }

/-- The function `queue_picture`, on the `pictq` of the state. The result is
the return code, the queue and the caller's frame after the call; there is no
result while `frame_queue_peek_writable` waits. -/
def queue_picture (fq : FrameQueue D) (src_frame : AVFrame) (pts duration : D) (pos : Int) :
    Option (Int × FrameQueue D × AVFrame) :=
  match frame_queue_peek_writable fq with
  | none => none
  | some none => some (-1, fq, src_frame)
  | some (some i) =>
      let vp := fq.queue i
      let vp1 : Frame D :=
        { vp with sar := src_frame.sample_aspect_ratio,
                  width := src_frame.width, height := src_frame.height,
                  format := src_frame.format,
                  pts := pts, duration := duration, pos := pos }
      let m := av_frame_move_ref vp1.frame src_frame
      let fq1 : FrameQueue D :=
        { fq with queue := Function.update fq.queue i { vp1 with frame := m.1 } }
      some (0, frame_queue_push fq1, m.2)

/-- One step of an actor on the frame queue: the video decoder enqueues a
picture with `queue_picture`; the refresh timer, when `pictq.size` is not 0,
takes the slot of `frame_queue_peek`, shows it and calls `frame_queue_pop`;
the closing of the video stream calls `frame_queue_abort`. -/
inductive FrameQueueOp (D : Type) where
  | picture (src_frame : AVFrame) (pts duration : D) (pos : Int)
  | display
  | abort

/-- A frame queue in a run, with what the run has recorded: the slots that
were filled and pushed and not popped since, oldest first, and the frames the
refresh timer took with `frame_queue_peek`, oldest first. -/
structure FrameQueueRun (D : Type) where
  fq : FrameQueue D
  live : List Int
  shown : List (Frame D)

/-- One step of a run; there is no result when the step cannot be taken in
this state: the writer waits, or `pictq.size` is 0 and nothing is shown. -/
def FrameQueueOp.step (s : FrameQueueRun D) : FrameQueueOp D → Option (FrameQueueRun D)
  | .picture src_frame pts duration pos =>
      match queue_picture s.fq src_frame pts duration pos with
      | none => none
      | some r =>
          some { fq := r.2.1,
                 live := if r.1 = 0 then s.live ++ [s.fq.windex] else s.live,
                 shown := s.shown }
  | .display =>
      if s.fq.size = 0 then none
      else
        some { fq := frame_queue_pop s.fq,
               live := s.live.erase s.fq.rindex,
               shown := s.shown ++ [frame_queue_peek s.fq] }
  | .abort => some { s with fq := frame_queue_abort s.fq }

/-- A sequence of steps, each taken from the state the previous one left. -/
def FrameQueueRun.steps (s : FrameQueueRun D) : List (FrameQueueOp D) → Option (FrameQueueRun D)
  | [] => some s
  | op :: ops =>
      match FrameQueueOp.step s op with
      | none => none
      | some s1 => FrameQueueRun.steps s1 ops

/-- The start of a run: the queue after a successful `frame_queue_init`. -/
def FrameQueueRun.start [Zero D] : FrameQueueRun D :=
  { fq := (frame_queue_init VIDEO_PICTURE_QUEUE_SIZE true true true).2, live := [], shown := [] }

/-- The records of the pictures a sequence of steps enqueues, in order. -/
def FrameQueueOp.pictures : List (FrameQueueOp D) → List (Frame D)
  | [] => []
  | .picture src_frame pts duration pos :: ops =>
      pictureRecord src_frame pts duration pos :: FrameQueueOp.pictures ops
  | _ :: ops => FrameQueueOp.pictures ops

/-- Whether a sequence of steps contains no `frame_queue_abort`. -/
def FrameQueueOp.abortFree : List (FrameQueueOp D) → Bool
  | [] => true
  | .abort :: _ => false
  | _ :: ops => FrameQueueOp.abortFree ops

/-- The frame queue of a run holds the frames `pend`, oldest first: no abort
was requested, the indices are in range, `windex` is `size` slots after
`rindex`, the slot `j` places after `rindex` holds `pend[j]`, and the recorded
live slots are the `size` slots from `rindex` on. -/
def RingInv (s : FrameQueueRun D) (pend : List (Frame D)) : Prop :=
  s.fq.abort = 0 ∧ 0 ≤ s.fq.rindex ∧ s.fq.rindex < 3 ∧
  s.fq.windex = (s.fq.rindex + s.fq.size) % 3 ∧
  s.fq.size = (pend.length : Int) ∧ s.fq.size ≤ 3 ∧
  (∀ j : Nat, j < pend.length →
    pend[j]? = some (s.fq.queue ((s.fq.rindex + (j : Int)) % 3))) ∧
  s.live = (List.range pend.length).map (fun j : Nat => (s.fq.rindex + (j : Int)) % 3)

/-- The queue after a successful `frame_queue_init` and three
`frame_queue_push` calls. -/
def frame_queue_filled [Zero D] : FrameQueue D :=
  frame_queue_push (frame_queue_push (frame_queue_push
    (frame_queue_init VIDEO_PICTURE_QUEUE_SIZE true true true).2))

end FrameQueueOps

/-- A decoded sample image, told apart by `n`. -/
def sampleFrame (n : Nat) : AVFrame :=
  { AVFrame.blank with data := [n], width := 640, height := 480, format := 0,
                       sample_aspect_ratio := ⟨1, 1⟩, pts := 40 * n, pkt_pos := 1000 * n }

/-- The step that enqueues the sample image `n`, with timestamps in integer
milliseconds. -/
def samplePicture (n : Nat) : FrameQueueOp Int :=
  .picture (sampleFrame n) (40 * n) 40 (1000 * n)

/-- A run of the two actors without abort: two pictures, one shown, two more
pictures, two shown. -/
def sampleRun : List (FrameQueueOp Int) :=
  [samplePicture 1, samplePicture 2, .display, samplePicture 3, samplePicture 4, .display,
   .display]

/-- A run in which the video stream is closed while the queue is full: three
pictures, `frame_queue_abort`, and the picture the decoder was waiting to
enqueue. -/
def sampleAbortRun : List (FrameQueueOp Int) :=
  [samplePicture 1, samplePicture 2, samplePicture 3, .abort, samplePicture 4]

/-- A full queue of three pictures on which abort was requested. -/
def sampleFullAborted : FrameQueue Int :=
  match (FrameQueueRun.start : FrameQueueRun Int).steps
      [samplePicture 1, samplePicture 2, samplePicture 3, .abort] with
  | some s => s.fq
  | none => (frame_queue_init VIDEO_PICTURE_QUEUE_SIZE true true true).2

/-! ## Values of type `double`

A C `double` is modelled as NaN, one of the two infinities, or a finite value,
which is an exact rational: the rounding of finite results, overflow to an
infinity and the sign of a zero are not modelled. Comparisons with NaN are
false, as in C. -/

/-- A value of the C type `double`. -/
inductive CDouble where
  | nan
  | ninf
  | pinf
  | fin (q : ℚ)
deriving DecidableEq

namespace CDouble

/-- The conversion of an integer to `double`. -/
def ofInt (n : Int) : CDouble := fin (n : ℚ)

/-- The C macro `isnan`. -/
def isnan : CDouble → Bool
  | nan => true
  | _ => false

/-- The unary minus of C on `double`. -/
def neg : CDouble → CDouble
  | nan => nan
  | ninf => pinf
  | pinf => ninf
  | fin q => fin (-q)

/-- The C function `fabs`. -/
def fabs : CDouble → CDouble
  | nan => nan
  | ninf => pinf
  | pinf => pinf
  | fin q => fin |q|

/-- The sum of two `double` values. -/
def add : CDouble → CDouble → CDouble
  | nan, _ => nan
  | _, nan => nan
  | pinf, ninf => nan
  | ninf, pinf => nan
  | pinf, _ => pinf
  | _, pinf => pinf
  | ninf, _ => ninf
  | _, ninf => ninf
  | fin a, fin b => fin (a + b)

/-- The difference of two `double` values. -/
def sub (a b : CDouble) : CDouble := add a (neg b)

/-- The infinity with the sign of `q`, for `q` not 0. -/
def infOfSign (q : ℚ) : CDouble := if 0 < q then pinf else ninf

/-- The product of two `double` values. -/
def mul : CDouble → CDouble → CDouble
  | nan, _ => nan
  | _, nan => nan
  | pinf, pinf => pinf
  | ninf, ninf => pinf
  | pinf, ninf => ninf
  | ninf, pinf => ninf
  | pinf, fin b => if b = 0 then nan else infOfSign b
  | ninf, fin b => if b = 0 then nan else infOfSign (-b)
  | fin a, pinf => if a = 0 then nan else infOfSign a
  | fin a, ninf => if a = 0 then nan else infOfSign (-a)
  | fin a, fin b => fin (a * b)

/-- The quotient of two `double` values; a zero divisor counts as `+0`, which
is what the conversion of the integer 0 gives. -/
def div : CDouble → CDouble → CDouble
  | nan, _ => nan
  | _, nan => nan
  | fin _, pinf => fin 0
  | fin _, ninf => fin 0
  | pinf, fin b => if 0 ≤ b then pinf else ninf
  | ninf, fin b => if 0 ≤ b then ninf else pinf
  | fin a, fin b => if b = 0 then (if a = 0 then nan else infOfSign a) else fin (a / b)
  | _, _ => nan

/-- The comparison `a < b` of C. -/
def lt : CDouble → CDouble → Bool
  | nan, _ => false
  | _, nan => false
  | ninf, ninf => false
  | ninf, _ => true
  | _, ninf => false
  | pinf, _ => false
  | fin _, pinf => true
  | fin a, fin b => decide (a < b)

/-- The comparison `a <= b` of C. -/
def le : CDouble → CDouble → Bool
  | nan, _ => false
  | _, nan => false
  | ninf, _ => true
  | _, pinf => true
  | pinf, _ => false
  | fin _, ninf => false
  | fin a, fin b => decide (a ≤ b)

/-- The comparison `a > b` of C. -/
def gt (a b : CDouble) : Bool := lt b a

/-- The comparison `a >= b` of C. -/
def ge (a b : CDouble) : Bool := le b a

/-- The comparison `a == b` of C: false when one side is NaN. -/
def eq : CDouble → CDouble → Bool
  | nan, _ => false
  | _, nan => false
  | a, b => decide (a = b)

/-- The comparison `a != b` of C: true when one side is NaN. -/
def ne (a b : CDouble) : Bool := !(eq a b)

/-- The rational `q` rounded toward zero. -/
def truncate (q : ℚ) : Int := if 0 ≤ q then ⌊q⌋ else ⌈q⌉

/-- The conversion `(int)x` of a `double` to a 32-bit `int`: the value rounded
toward zero; the conversion is undefined (no result) for NaN, for an infinity
and when the rounded value is outside the range of `int`. -/
def toInt : CDouble → Option Int
  | fin q =>
      if -2147483648 ≤ truncate q ∧ truncate q ≤ 2147483647 then some (truncate q) else none
  | _ => none

end CDouble

instance : Zero CDouble := ⟨CDouble.fin 0⟩

/-! ## The playback state -/

/-- The constant `AV_SYNC_THRESHOLD`, 0.01. -/
def AV_SYNC_THRESHOLD : CDouble := .fin (1 / 100)

/-- The constant `AV_NOSYNC_THRESHOLD`, 10.0. -/
def AV_NOSYNC_THRESHOLD : CDouble := .fin 10

/-- The enumerator `AV_SYNC_AUDIO_MASTER`. -/
def AV_SYNC_AUDIO_MASTER : Int := 0

/-- The enumerator `AV_SYNC_VIDEO_MASTER`. -/
def AV_SYNC_VIDEO_MASTER : Int := 1

/-- The enumerator `AV_SYNC_EXTERNAL_MASTER`. -/
def AV_SYNC_EXTERNAL_MASTER : Int := 2

/-- The constant `MAX_QUEUE_SIZE`, `5 * 1024 * 1024`. -/
def MAX_QUEUE_SIZE : Int := 5 * 1024 * 1024

/-- The constant `SDL_AUDIO_BUFFER_SIZE`. -/
def SDL_AUDIO_BUFFER_SIZE : Int := 1024

/-- The SDL constant `SDL_USEREVENT`. -/
def SDL_USEREVENT : Int := 32768

/-- The constant `FF_REFRESH_EVENT`. -/
def FF_REFRESH_EVENT : Int := SDL_USEREVENT

/-- The constant `FF_QUIT_EVENT`. -/
def FF_QUIT_EVENT : Int := SDL_USEREVENT + 1

/-- The libavutil constant `AV_SAMPLE_FMT_S16`. -/
def AV_SAMPLE_FMT_S16 : Int := 1

/-- The value of `AVERROR(EAGAIN)`. -/
def AVERROR_EAGAIN : Int := -11

/-- The libavutil constant `AVERROR_EOF`. -/
def AVERROR_EOF : Int := -541478725

/-- The fields of an `AVCodecContext` the player reads. -/
structure AVCodecContext where
  sample_rate : Int
  nb_channels : Int
  sample_fmt : Int
  time_base : AVRational
deriving DecidableEq

/-- The `VideoState` of the player, without the file name, the container, the
threads and the scaler. A pointer field that is only tested against `NULL` is
a Boolean (`true`: set); `audio_buf` is the scratch buffer it points to, if
any; the two codec contexts are the values pointed to. -/
structure VideoState where
  av_sync_type : Int
  audio_clock : CDouble
  frame_timer : CDouble
  frame_last_pts : CDouble
  frame_last_delay : CDouble
  video_clock : CDouble
  video_current_pts : CDouble
  video_current_pts_time : Int
  audio_index : Int
  audio_st : Bool
  audio_ctx : AVCodecContext
  audioq : PacketQueue
  audio_buf : Option (List Nat)
  audio_buf_size : Int
  audio_buf_index : Int
  audio_frame : AVFrame
  audio_pkt : AVPacket
  audio_swr_ctx : Bool
  video_index : Int
  video_st : Bool
  video_ctx : AVCodecContext
  videoq : PacketQueue
  video_pkt : AVPacket
  texture : Bool
  pictq : FrameQueue CDouble
  width : Int
  height : Int
  xleft : Int
  ytop : Int
  quit : Int

/-- The state `stream_open` starts from: zeroed by `av_mallocz`, the stream
indices at -1, the three queues initialised, the sync type taken from the
global `av_sync_type`. -/
def VideoState.fresh (av_sync_type : Int) : VideoState :=
  { av_sync_type := av_sync_type,
    audio_clock := 0, frame_timer := 0, frame_last_pts := 0, frame_last_delay := 0,
    video_clock := 0, video_current_pts := 0, video_current_pts_time := 0,
    audio_index := -1, audio_st := false, audio_ctx := ⟨0, 0, 0, ⟨0, 0⟩⟩,
    audioq := (packet_queue_init true true true).2,
    audio_buf := none, audio_buf_size := 0, audio_buf_index := 0,
    audio_frame := AVFrame.blank, audio_pkt := AVPacket.blank, audio_swr_ctx := false,
    video_index := -1, video_st := false, video_ctx := ⟨0, 0, 0, ⟨0, 0⟩⟩,
    videoq := (packet_queue_init true true true).2, video_pkt := AVPacket.blank,
    texture := false,
    pictq := (frame_queue_init VIDEO_PICTURE_QUEUE_SIZE true true true).2,
    width := 0, height := 0, xleft := 0, ytop := 0, quit := 0 }

/-! ## Clocks -/

/-- The function `get_audio_clock`. -/
def get_audio_clock (is : VideoState) : CDouble :=
  let pts := is.audio_clock
  let hw_buf_size := is.audio_buf_size - is.audio_buf_index
  let n := is.audio_ctx.nb_channels * 2
  let bytes_per_sec : Int := if is.audio_st then is.audio_ctx.sample_rate * n else 0
  if bytes_per_sec ≠ 0 then
    CDouble.sub pts (CDouble.div (CDouble.ofInt hw_buf_size) (CDouble.ofInt bytes_per_sec))
  else pts

/-- The function `get_video_clock`; `now` is what `av_gettime` returns. -/
def get_video_clock (is : VideoState) (now : Int) : CDouble :=
  let delta := CDouble.div (CDouble.ofInt (now - is.video_current_pts_time)) (.fin 1000000)
  CDouble.add is.video_current_pts delta

/-- The function `get_external_clock`; `now` is what `av_gettime` returns. -/
def get_external_clock (_is : VideoState) (now : Int) : CDouble :=
  CDouble.div (CDouble.ofInt now) (.fin 1000000)

/-- The function `get_master_clock`; `now` is what `av_gettime` returns. -/
def get_master_clock (is : VideoState) (now : Int) : CDouble :=
  if is.av_sync_type = AV_SYNC_VIDEO_MASTER then get_video_clock is now
  else if is.av_sync_type = AV_SYNC_AUDIO_MASTER then get_audio_clock is
  else get_external_clock is now

/-! ## The refresh timer -/

/-- The globals `default_width`, `default_height`, `screen_width` and
`screen_height`. -/
structure Screen where
  default_width : Int
  default_height : Int
  screen_width : Int
  screen_height : Int
deriving DecidableEq

/-- The function `video_open`, as far as the state goes. -/
def video_open (scr : Screen) (is : VideoState) : VideoState :=
  let w := if scr.screen_width ≠ 0 then scr.screen_width else scr.default_width
  let h := if scr.screen_height ≠ 0 then scr.screen_height else scr.default_height
  { is with width := w, height := h }

/-- The function `video_display`, as far as the state goes: the window is
opened on the first call, the texture is created when there is none
(`texture_ok`: the creation succeeds; when it fails the function returns at
once), the frame at `rindex` is rendered and then popped. -/
def video_display (scr : Screen) (texture_ok : Bool) (is : VideoState) : VideoState :=
  let is1 := if is.width = 0 then video_open scr is else is
  if !is1.texture && !texture_ok then is1
  else
    let is2 := { is1 with texture := true }
    { is2 with pictq := frame_queue_pop is2.pictq }

/-- The nominal delay `video_refresh_timer` computes for the frame with
timestamp `vp_pts`: the distance to the last timestamp (0 when
`frame_last_pts == 0`), replaced by `frame_last_delay` when it is
`<= 0` or `>= 1.0`. -/
def video_refresh_timer_nominal_delay (is : VideoState) (vp_pts : CDouble) : CDouble :=
  let delay := if CDouble.eq is.frame_last_pts (.fin 0) then .fin 0
               else CDouble.sub vp_pts is.frame_last_pts
  if CDouble.le delay (.fin 0) || CDouble.ge delay (.fin 1) then is.frame_last_delay
  else delay

/-- The threshold `sync_threshold` of `video_refresh_timer`:
`(delay > AV_SYNC_THRESHOLD) ? delay : AV_SYNC_THRESHOLD`. -/
def sync_threshold (delay : CDouble) : CDouble :=
  if CDouble.gt delay AV_SYNC_THRESHOLD then delay else AV_SYNC_THRESHOLD

/-- The delay `video_refresh_timer` adds to `frame_timer`: the nominal `delay`,
corrected against the master clock when the sync type is not
`AV_SYNC_VIDEO_MASTER`; `now` is what `av_gettime` returns inside
`get_master_clock`. -/
def video_refresh_timer_sync_delay (is : VideoState) (now : Int) (vp_pts delay : CDouble) :
    CDouble :=
  if is.av_sync_type ≠ AV_SYNC_VIDEO_MASTER then
    let ref_clock := get_master_clock is now
    let diff := CDouble.sub vp_pts ref_clock
    let sync_threshold := sync_threshold delay
    if CDouble.lt (CDouble.fabs diff) AV_NOSYNC_THRESHOLD then
      if CDouble.le diff (CDouble.neg sync_threshold) then .fin 0
      else if CDouble.ge diff sync_threshold then CDouble.mul (.fin 2) delay
      else delay
    else delay
  else delay

/-- The function `video_refresh_timer`. The arguments `t1`, `t2`, `t3` are
what the successive calls of `av_gettime` return (the second one inside
`get_master_clock`). The result is the state and the argument of the one
`schedule_refresh` call, in milliseconds; the argument is `none` when the
conversion `(int)(actual_delay * 1000 + 0.5)` is undefined. -/
def video_refresh_timer (scr : Screen) (texture_ok : Bool) (t1 t2 t3 : Int)
    (is : VideoState) : VideoState × Option Int :=
  if is.video_st then
    if is.pictq.size = 0 then (is, some 1)
    else
      let vp := frame_queue_peek is.pictq
      let is1 := { is with video_current_pts := vp.pts, video_current_pts_time := t1 }
      let delay := video_refresh_timer_nominal_delay is1 vp.pts
      let is2 := { is1 with frame_last_delay := delay, frame_last_pts := vp.pts }
      let delay := video_refresh_timer_sync_delay is2 t2 vp.pts delay
      let is3 := { is2 with frame_timer := CDouble.add is2.frame_timer delay }
      let actual_delay :=
        CDouble.sub is3.frame_timer (CDouble.div (CDouble.ofInt t3) (.fin 1000000))
      let actual_delay :=
        if CDouble.lt actual_delay (.fin (1 / 100)) then .fin (1 / 100) else actual_delay
      (video_display scr texture_ok is3,
        CDouble.toInt (CDouble.add (CDouble.mul actual_delay (.fin 1000)) (.fin (1 / 2))))
  else (is, some 100)


/-- The globals of a 640 by 480 window. -/
def sampleScreen : Screen := ⟨640, 480, 0, 0⟩

/-- The picture queue after `frame_queue_init` and one `queue_picture` of a
picture with timestamp `pts`. -/
def samplePictq (pts : CDouble) : FrameQueue CDouble :=
  match queue_picture (frame_queue_init VIDEO_PICTURE_QUEUE_SIZE true true true).2
      (sampleFrame 1) pts (.fin (1 / 25)) 0 with
  | some r => r.2.1
  | none => (frame_queue_init VIDEO_PICTURE_QUEUE_SIZE true true true).2

/-- A playback state with audio-master sync, both streams open (48 kHz stereo
audio), the scratch audio buffer drained, one picture with timestamp `pts`
queued, and the given last timestamp, last delay, audio clock and frame
timer. -/
def sampleState (pts last_pts last_delay audio_clock frame_timer : CDouble) : VideoState :=
  { VideoState.fresh AV_SYNC_AUDIO_MASTER with
    video_st := true, audio_st := true, audio_ctx := ⟨48000, 2, AV_SAMPLE_FMT_S16, ⟨1, 48000⟩⟩,
    pictq := samplePictq pts,
    frame_last_pts := last_pts, frame_last_delay := last_delay,
    audio_clock := audio_clock, frame_timer := frame_timer }

/-- A state whose queued picture (timestamp 1, 0.040 after the last one) is
0.5 ahead of the audio clock: the master clock is `vp.pts - 0.5`. -/
def sampleStateAhead : VideoState :=
  sampleState (.fin 1) (.fin (24 / 25)) (.fin (1 / 25)) (.fin (1 / 2)) (.fin 100)

/-- A state whose queued picture (timestamp 1, 0.040 after the last one) is
0.5 behind the audio clock: the master clock is `vp.pts + 0.5`. -/
def sampleStateBehind : VideoState :=
  sampleState (.fin 1) (.fin (24 / 25)) (.fin (1 / 25)) (.fin (3 / 2)) (.fin 100)

/-- A state with `frame_last_pts = 0`, `frame_last_delay = 0.1` and a queued
picture with timestamp 0.040. -/
def sampleStateFirst : VideoState :=
  sampleState (.fin (1 / 25)) (.fin 0) (.fin (1 / 10)) (.fin 0) (.fin 100)

/-- A state whose queued picture has no timestamp (NaN, as `decode_thread`
passes for `AV_NOPTS_VALUE`), after a picture with timestamp 0.040. -/
def sampleStateNoPts : VideoState :=
  sampleState .nan (.fin (1 / 25)) (.fin (1 / 25)) (.fin 0) (.fin 100)

/-! ## The audio path -/

/-- The value of `AVERROR(EINVAL)`. -/
def AVERROR_EINVAL : Int := -22

/-- The audio decoder and the resampler of the media library, as the player
calls them; `σ` is the state of the library. `send_packet` is
`avcodec_send_packet` (return code, new state); `receive_frame` is
`avcodec_receive_frame` (return code, content of the frame it was given, new
state); `swr_alloc_ok` tells whether `swr_alloc_set_opts2` yields a context;
`malloc_ok` whether `av_fast_malloc` gets memory; `swr_convert` gives, for a
frame and an output capacity in samples, the return value of `swr_convert` and
the bytes it wrote. -/
structure AudioLib (σ : Type) where
  send_packet : σ → AVPacket → Int × σ
  receive_frame : σ → Int × AVFrame × σ
  swr_alloc_ok : σ → Bool
  malloc_ok : σ → Bool
  swr_convert : σ → AVFrame → Int → Int × List Nat

/-- The library call `av_samples_get_buffer_size(NULL, nb_channels, nb_samples,
AV_SAMPLE_FMT_S16, 0)`: the sample count is rounded up to a multiple of 32;
the range checks against `INT_MAX` are left out. -/
def av_samples_get_buffer_size (nb_channels nb_samples : Int) : Int :=
  if nb_samples ≤ 0 ∨ nb_channels ≤ 0 then AVERROR_EINVAL
  else (nb_samples + 31) / 32 * 32 * 2 * nb_channels

/-- The library call `av_fast_malloc(&buf, &size, min_size)`. When `size` says
the buffer is large enough, the library checks `av_assert0(val || !min_size)`
and keeps the buffer; with `buf = NULL` and `min_size > 0` the assertion fails
and the process is aborted (no result). Otherwise the buffer is replaced by a
larger one (content unspecified, here empty), or by `NULL` with size 0 when
there is no memory or `min_size` is negative (a huge `size_t`). -/
def av_fast_malloc (buf : Option (List Nat)) (size min_size : Int) (malloc_ok : Bool) :
    Option (Option (List Nat) × Int) :=
  if 0 ≤ min_size ∧ min_size ≤ size then
    if buf.isSome = true ∨ min_size = 0 then some (buf, size) else none
  else if malloc_ok && decide (0 ≤ min_size) then
    some (some [], max (min_size + min_size / 16 + 32) min_size)
  else some (none, 0)

section AudioPath

variable {σ : Type}

/-- The part of `audio_decode_frame` that runs once `avcodec_receive_frame`
has filled `is->audio_frame`: the resampler is created when there is none and
the sample format of the codec context is not `AV_SAMPLE_FMT_S16`; with a
resampler the scratch buffer is sized and filled and
`data_size = len2 * nb_channels * 2`; `audio_clock` is set; the frame is
released. `data_size` starts at 0. The result is the return value and the
state; there is no result when `av_fast_malloc` aborts the process. -/
def audio_decode_frame_received (lib : AudioLib σ) (dec : σ) (is : VideoState) :
    Option (Int × VideoState) :=
  let data_size : Int := 0
  let is1 : VideoState :=
    if !is.audio_swr_ctx then
      if is.audio_ctx.sample_fmt ≠ AV_SAMPLE_FMT_S16 then
        { is with audio_swr_ctx := lib.swr_alloc_ok dec }
      else is
    else is
  let r : Option (Int × VideoState) :=
    if is1.audio_swr_ctx then
      let out_count := is1.audio_frame.nb_samples + 256
      let out_size := av_samples_get_buffer_size is1.audio_frame.nb_channels out_count
      match av_fast_malloc is1.audio_buf is1.audio_buf_size out_size (lib.malloc_ok dec) with
      | none => none
      | some m =>
          let c := lib.swr_convert dec is1.audio_frame out_count
          let len2 := c.1
          some (len2 * is1.audio_frame.nb_channels * 2,
            { is1 with audio_buf := m.1.map (fun _ => c.2), audio_buf_size := m.2 })
    else some (data_size, is1)
  match r with
  | none => none
  | some r =>
      let is2 := r.2
      let audio_clock :=
        if !(CDouble.isnan (CDouble.ofInt is2.audio_frame.pts)) then
          CDouble.add (CDouble.ofInt is2.audio_frame.pts)
            (CDouble.div (CDouble.ofInt is2.audio_frame.nb_samples)
              (CDouble.ofInt is2.audio_frame.sample_rate))
        else CDouble.nan
      some (r.1,
        { is2 with audio_clock := audio_clock, audio_frame := av_frame_unref is2.audio_frame })

/-- The loop `for(;;)` of `audio_decode_frame`; `ret` is the local of that name.
Every pass that does not leave the function takes a packet off `audioq`, so
`fuel` passes are enough when `fuel` exceeds the number of packets held. There
is no result when the process is aborted. -/
def audio_decode_frame_loop (lib : AudioLib σ) :
    Nat → Int → σ → VideoState → Option (Int × σ × VideoState)
  | 0, ret, dec, is => some (ret, dec, is)
  | fuel + 1, ret, dec, is =>
      match packet_queue_get is.audioq is.audio_pkt 0 with
      | none => some (ret, dec, is)
      | some (got, q, pkt) =>
          let is1 := { is with audioq := q, audio_pkt := pkt }
          if got ≤ 0 then some (ret, dec, is1)
          else
            let s := lib.send_packet dec is1.audio_pkt
            let is2 := { is1 with audio_pkt := av_packet_unref is1.audio_pkt }
            if s.1 < 0 then some (s.1, s.2, is2)
            else
              let f := lib.receive_frame s.2
              let is3 := { is2 with audio_frame := f.2.1 }
              if f.1 = AVERROR_EAGAIN ∨ f.1 = AVERROR_EOF then
                audio_decode_frame_loop lib fuel f.1 f.2.2 is3
              else if f.1 < 0 then some (f.1, f.2.2, is3)
              else
                match audio_decode_frame_received lib f.2.2 is3 with
                | none => none
                | some r => some (r.1, f.2.2, r.2)

/-- The function `audio_decode_frame`. The result is the return value, the
state of the library and the playback state; there is no result when the
process is aborted. -/
def audio_decode_frame (lib : AudioLib σ) (dec : σ) (is : VideoState) :
    Option (Int × σ × VideoState) :=
  audio_decode_frame_loop lib (is.audioq.pkt_list.length + 1) (-1) dec is

/-- The refill of `sdl_audio_callback` (the body of
`if (is->audio_buf_index >= is->audio_buf_size)`). The result is the value
`audio_decode_frame` returned, the state of the library and the playback
state; there is no result when the process is aborted. -/
def sdl_audio_callback_refill (lib : AudioLib σ) (dec : σ) (is : VideoState) :
    Option (Int × σ × VideoState) :=
  match audio_decode_frame lib dec is with
  | none => none
  | some r =>
      let audio_size := r.1
      let is1 : VideoState :=
        if audio_size < 0 then
          { r.2.2 with audio_buf_size := SDL_AUDIO_BUFFER_SIZE, audio_buf := none }
        else { r.2.2 with audio_buf_size := audio_size }
      some (audio_size, r.2.1, { is1 with audio_buf_index := 0 })

/-- One stretch of bytes `sdl_audio_callback` writes to the device buffer in a
pass of its loop: what `audio_decode_frame` returned in that pass, if it was
called; the value of `audio_buf_index` when the bytes were written; whether
they were copied from the scratch buffer (`memcpy`) or are the zeros of
`memset`; and the bytes. -/
structure AudioChunk where
  decode_ret : Option Int
  index : Int
  copied : Bool
  bytes : List Nat
deriving DecidableEq

/-- The `len1` bytes `memcpy` reads from offset `index` of the scratch buffer;
an offset beyond the bytes the resampler wrote reads as 0. -/
def memcpy_from (buf : List Nat) (index len1 : Int) : List Nat :=
  (List.range len1.toNat).map (fun i => buf.getD (index.toNat + i) 0)

/-- The `len1` zero bytes of `memset(stream, 0, len1)`. -/
def memset_zero (len1 : Int) : List Nat := List.replicate len1.toNat 0

/-- One pass of the loop `while (len > 0)` of `sdl_audio_callback`, entered
with `len > 0`. The result is the state of the library, the playback state,
the value of `len` after the pass and the stretch written to the device
buffer; there is no result when the process is aborted in the refill. -/
def sdl_audio_callback_pass (lib : AudioLib σ) (dec : σ) (is : VideoState) (len : Int) :
    Option (σ × VideoState × Int × AudioChunk) :=
  let refill : Option (Option Int × σ × VideoState) :=
    if is.audio_buf_index ≥ is.audio_buf_size then
      match sdl_audio_callback_refill lib dec is with
      | none => none
      | some r => some (some r.1, r.2.1, r.2.2)
    else some (none, dec, is)
  match refill with
  | none => none
  | some refill =>
      let is1 := refill.2.2
      let len1 := is1.audio_buf_size - is1.audio_buf_index
      let len1 := if len1 > len then len else len1
      let chunk : AudioChunk :=
        match is1.audio_buf with
        | some buf =>
            { decode_ret := refill.1, index := is1.audio_buf_index, copied := true,
              bytes := memcpy_from buf is1.audio_buf_index len1 }
        | none =>
            { decode_ret := refill.1, index := is1.audio_buf_index, copied := false,
              bytes := memset_zero len1 }
      some (refill.2.1, { is1 with audio_buf_index := is1.audio_buf_index + len1 }, len - len1,
        chunk)

/-- The loop `while (len > 0)` of `sdl_audio_callback`, with a bound `fuel` on
the number of passes. The result is the state of the library, the playback
state and the stretches written to the device buffer, in order; there is no
result when the process is aborted in a pass, or when the bound is reached
before `len` is used up. -/
def sdl_audio_callback_loop (lib : AudioLib σ) :
    Nat → σ → VideoState → Int → Option (σ × VideoState × List AudioChunk)
  | fuel, dec, is, len =>
      if len ≤ 0 then some (dec, is, [])
      else
        match fuel with
        | 0 => none
        | fuel + 1 =>
            match sdl_audio_callback_pass lib dec is len with
            | none => none
            | some p =>
                match sdl_audio_callback_loop lib fuel p.1 p.2.1 p.2.2.1 with
                | none => none
                | some (dec1, is2, chunks) => some (dec1, is2, p.2.2.2 :: chunks)

/-- The function `sdl_audio_callback(is, stream, len)`: the loop, with as many
passes as the bytes asked for and the packets held in `audioq` allow at most
(every pass writes a byte or takes a packet off the queue), so that no result
means that the process was aborted. -/
def sdl_audio_callback (lib : AudioLib σ) (dec : σ) (is : VideoState) (len : Int) :
    Option (σ × VideoState × List AudioChunk) :=
  sdl_audio_callback_loop lib (len.toNat + is.audioq.pkt_list.length) dec is len

/-- The bytes written to the device buffer, in order. -/
def AudioChunk.stream (chunks : List AudioChunk) : List Nat :=
  (chunks.map (fun c => c.bytes)).flatten

end AudioPath

/-- A library whose decoder yields, for every packet, one 48 kHz stereo frame
of `nb` samples with timestamp 90000 and sample rate `rate`, and whose
resampler returns `len2` samples and writes the bytes 1 to 8; the state counts
the packets sent. -/
def sampleAudioLib (nb rate len2 : Int) : AudioLib Nat :=
  { send_packet := fun s _ => (0, s + 1),
    receive_frame := fun s =>
      (0, { AVFrame.blank with pts := 90000, nb_samples := nb, sample_rate := rate,
                               nb_channels := 2 }, s),
    swr_alloc_ok := fun _ => true,
    malloc_ok := fun _ => true,
    swr_convert := fun _ _ _ => (len2, [1, 2, 3, 4, 5, 6, 7, 8]) }

/-- A playback state with the audio stream open (stereo, sample format not
signed-16, sample rate `rate`), the scratch buffer drained, and one packet in
`audioq`. -/
def sampleAudioState (rate : Int) : VideoState :=
  { VideoState.fresh AV_SYNC_AUDIO_MASTER with
    audio_st := true, audio_ctx := ⟨rate, 2, 8, ⟨1, 48000⟩⟩,
    audioq := packet_queue_put_all (packet_queue_init true true true).2 [samplePacketA] }

/-! ## The reader -/

/-- What one pass of the main loop of `read_thread` meets: the value of
`is->quit` (written by the event loop) at the top of the pass, the return
value of `av_read_frame` and the packet it filled, the value of
`is->ic->pb->error` after a failed read, and the allocator outcomes of
`packet_queue_put`. In the loop that waits for quit only `quit` is looked
at. -/
structure ReadPass where
  quit : Int
  read_ret : Int
  pkt : AVPacket
  pb_error : Int
  alloc_ok : Bool
  grow_ok : Bool
deriving DecidableEq

/-- Where `read_thread` is after the passes it was given: still in its main
loop; in the loop `while(!is->quit)` after a `break`; or returned, with its
return value and the events it pushed with `SDL_PushEvent`. -/
inductive ReaderStatus where
  | reading
  | waiting
  | returned (ret : Int) (events : List Int)
deriving DecidableEq

/-- The reader after some passes: its status, the playback state and the
number of `av_read_frame` calls made. -/
structure ReaderRun where
  status : ReaderStatus
  is : VideoState
  reads : Nat

/-- The end of `read_thread` from the label `__ERROR` on: the packet is freed
and `FF_QUIT_EVENT` is pushed when `ret != 0`. -/
def read_thread_exit (is : VideoState) (reads : Nat) (ret : Int) : ReaderRun :=
  { status := .returned ret (if ret ≠ 0 then [FF_QUIT_EVENT] else []), is := is, reads := reads }

/-- The loop `while(!is->quit) SDL_Delay(100);` of `read_thread` followed by
`ret = 0` and the exit. -/
def read_thread_wait : VideoState → Nat → List ReadPass → ReaderRun
  | is, reads, [] => { status := .waiting, is := is, reads := reads }
  | is, reads, e :: es =>
      if e.quit ≠ 0 then read_thread_exit { is with quit := e.quit } reads 0
      else read_thread_wait { is with quit := e.quit } reads es

/-- The step 7 of the main loop of `read_thread`: the packet goes to `videoq`,
to `audioq`, or is released. -/
def read_thread_dispatch (is : VideoState) (e : ReadPass) : VideoState :=
  if e.pkt.stream_index = is.video_index then
    { is with videoq := (packet_queue_put is.videoq e.pkt e.alloc_ok e.grow_ok).2.1 }
  else if e.pkt.stream_index = is.audio_index then
    { is with audioq := (packet_queue_put is.audioq e.pkt e.alloc_ok e.grow_ok).2.1 }
  else is

/-- The main loop of `read_thread` and what follows it, over the passes
given. -/
def read_thread_loop : VideoState → Nat → List ReadPass → ReaderRun
  | is, reads, [] => { status := .reading, is := is, reads := reads }
  | is, reads, e :: es =>
      let is := { is with quit := e.quit }
      if is.quit ≠ 0 then read_thread_exit is reads (-1)
      else if is.audioq.size > MAX_QUEUE_SIZE ∨ is.videoq.size > MAX_QUEUE_SIZE then
        read_thread_loop is reads es
      else if e.read_ret < 0 then
        if e.pb_error = 0 then read_thread_loop is (reads + 1) es
        else read_thread_wait is (reads + 1) es
      else read_thread_loop (read_thread_dispatch is e) (reads + 1) es

/-- A playback state with the video stream at index 0, the audio stream at
index 1 and empty queues. -/
def sampleReaderState : VideoState :=
  { VideoState.fresh AV_SYNC_AUDIO_MASTER with video_index := 0, audio_index := 1 }

/-- A pass that reads a packet of `size` bytes of stream `stream`. -/
def sampleRead (stream size : Int) : ReadPass :=
  { quit := 0, read_ret := 0,
    pkt := { AVPacket.blank with size := size, stream_index := stream, duration := 40 },
    pb_error := 0, alloc_ok := true, grow_ok := true }

/-- Five audio packets and then six video packets, each of `1 MiB - 8` bytes,
so that each adds exactly 1 MiB to the `size` of its queue. -/
def sampleReads : List ReadPass :=
  List.replicate 5 (sampleRead 1 1048568) ++ List.replicate 6 (sampleRead 0 1048568)

/-- The enumerator `AVMEDIA_TYPE_VIDEO`. -/
def AVMEDIA_TYPE_VIDEO : Int := 0

/-- The enumerator `AVMEDIA_TYPE_AUDIO`. -/
def AVMEDIA_TYPE_AUDIO : Int := 1

/-- The loop of step 3 of `read_thread` from the index `i` on; the list holds
the `codec_type` of the streams `i`, `i + 1`, ... of the container. The result
is `(video_index, audio_index)` when the loop is left. -/
def read_thread_scan_loop : List Int → Int → Int → Int → Int × Int
  | [], _, video_index, audio_index => (video_index, audio_index)
  | type :: rest, i, video_index, audio_index =>
      let video_index :=
        if type = AVMEDIA_TYPE_VIDEO ∧ video_index < 0 then i else video_index
      let audio_index :=
        if type = AVMEDIA_TYPE_AUDIO ∧ audio_index < 0 then i else audio_index
      if video_index > -1 ∧ audio_index > -1 then (video_index, audio_index)
      else read_thread_scan_loop rest (i + 1) video_index audio_index

/-- The step 3 of `read_thread`: the loop entered with `i = 0` and both indices
at -1. -/
def read_thread_scan (types : List Int) : Int × Int :=
  read_thread_scan_loop types 0 (-1) (-1)

/-- The reader between the opening of the container and its main loop: the two
locals `video_index` and `audio_index`, the stream indices it passed to
`stream_component_open` (in call order), and, when it left through `__ERROR`,
its return value and the events it pushed. -/
structure ReaderStart where
  video_index : Int
  audio_index : Int
  opened : List Int
  exit : Option (Int × List Int)
deriving DecidableEq

/-- The steps 3 to 5 of `read_thread`, for the `codec_type` of the streams of
the opened container. The local `ret` holds what `avformat_open_input`
returned (the result of `avformat_find_stream_info` is not stored in it). -/
def read_thread_start (types : List Int) (ret : Int) : ReaderStart :=
  let s := read_thread_scan types
  let video_index := s.1
  let audio_index := s.2
  if video_index < 0 ∨ audio_index < 0 then
    { video_index := video_index, audio_index := audio_index, opened := [],
      exit := some (ret, if ret ≠ 0 then [FF_QUIT_EVENT] else []) }
  else
    let opened : List Int := if audio_index ≥ 0 then [audio_index] else []
    let opened : List Int := if video_index ≥ 0 then opened ++ [video_index] else opened
    { video_index := video_index, audio_index := audio_index, opened := opened, exit := none }

/-! ## The video decoder -/

/-- The library function `av_q2d`: `a.num / (double) a.den`. -/
def av_q2d (a : AVRational) : CDouble :=
  CDouble.div (CDouble.ofInt a.num) (CDouble.ofInt a.den)

/-- The function `synchronize_video`. The result is the value returned and
the state. -/
def synchronize_video (is : VideoState) (src_frame : AVFrame) (pts : CDouble) :
    CDouble × VideoState :=
  let r : CDouble × VideoState :=
    if CDouble.ne pts (.fin 0) then (pts, { is with video_clock := pts })
    else (is.video_clock, is)
  let pts := r.1
  let is1 := r.2
  let frame_delay := av_q2d is1.video_ctx.time_base
  let frame_delay :=
    CDouble.add frame_delay
      (CDouble.mul (CDouble.ofInt src_frame.repeat_pict) (CDouble.mul frame_delay (.fin (1 / 2))))
  (pts, { is1 with video_clock := CDouble.add is1.video_clock frame_delay })

/-- The body of the inner loop of `decode_thread` for a frame
`avcodec_receive_frame` has delivered: the duration from the guessed frame
rate, the timestamp in seconds (NaN for `AV_NOPTS_VALUE`),
`synchronize_video`, `queue_picture`, `av_frame_unref`. The arguments `tb` and
`frame_rate` are the locals of these names. The result is the state and the
frame holder; there is no result while `queue_picture` waits. -/
def decode_thread_frame (tb frame_rate : AVRational) (is : VideoState) (video_frame : AVFrame) :
    Option (VideoState × AVFrame) :=
  let duration : CDouble :=
    if frame_rate.num ≠ 0 ∧ frame_rate.den ≠ 0 then av_q2d ⟨frame_rate.den, frame_rate.num⟩
    else .fin 0
  let pts : CDouble :=
    if video_frame.pts = AV_NOPTS_VALUE then CDouble.nan
    else CDouble.mul (CDouble.ofInt video_frame.pts) (av_q2d tb)
  let r := synchronize_video is video_frame pts
  let pts := r.1
  let is1 := r.2
  match queue_picture is1.pictq video_frame pts duration video_frame.pkt_pos with
  | none => none
  | some q => some ({ is1 with pictq := q.2.1 }, av_frame_unref q.2.2)

/-- The `case AVMEDIA_TYPE_VIDEO` of `stream_component_open`, as far as the
state modelled goes; `t1` and `t2` are what the two calls of `av_gettime`
return. -/
def stream_component_open_video (is : VideoState) (stream_index : Int) (avctx : AVCodecContext)
    (t1 t2 : Int) : VideoState :=
  { is with video_index := stream_index, video_st := true, video_ctx := avctx,
            frame_timer := CDouble.div (CDouble.ofInt t1) (.fin 1000000),
            frame_last_delay := .fin (40 / 1000),
            video_current_pts_time := t2 }

/-- What one call of `video_refresh_timer` meets: the window globals, the
outcome of the texture creation, the three clock readings, and the playback
state as the other threads have left it. The fields `frame_timer`,
`frame_last_pts` and `frame_last_delay` are written by the refresh timer only
(after `stream_component_open`), so a call finds them as the previous call
left them, whatever `others` holds for them. -/
structure RefreshCall where
  scr : Screen
  texture_ok : Bool
  t1 : Int
  t2 : Int
  t3 : Int
  others : VideoState

/-- The state a call of `video_refresh_timer` starts from, given the state
the previous call left. -/
def RefreshCall.state (c : RefreshCall) (prev : VideoState) : VideoState :=
  { c.others with frame_timer := prev.frame_timer, frame_last_pts := prev.frame_last_pts,
                  frame_last_delay := prev.frame_last_delay }

/-- The state one call of `video_refresh_timer` leaves. -/
def RefreshCall.step (prev : VideoState) (c : RefreshCall) : VideoState :=
  (video_refresh_timer c.scr c.texture_ok c.t1 c.t2 c.t3 (c.state prev)).1

/-- The state after a sequence of calls of `video_refresh_timer`. -/
def video_refresh_timer_run (is : VideoState) (calls : List RefreshCall) : VideoState :=
  calls.foldl RefreshCall.step is

/-- A call of `video_refresh_timer` that finds one picture with timestamp
`pts` queued and the audio clock at `audio_clock`; the wall clock reads 100 s. -/
def sampleCall (pts audio_clock : CDouble) : RefreshCall :=
  { scr := sampleScreen, texture_ok := true, t1 := 100000000, t2 := 100000000, t3 := 100000000,
    others := sampleState pts (.fin 0) (.fin 0) audio_clock (.fin 0) }

/-- The state after `stream_component_open` has opened the video stream of a
fresh player at wall-clock time 100 s. -/
def sampleOpened : VideoState :=
  stream_component_open_video (VideoState.fresh AV_SYNC_AUDIO_MASTER) 0 ⟨0, 0, 0, ⟨1, 25⟩⟩
    100000000 100000000

/-! ## The display rectangle -/

/-- The constant `INT_MIN`. -/
def INT_MIN : Int := -2147483648

/-- The constant `INT64_MIN`. -/
def INT64_MIN : Int := -9223372036854775808

/-- The constant `INT64_MAX`. -/
def INT64_MAX : Int := 9223372036854775807

/-- The library function `av_make_q`. -/
def av_make_q (num den : Int) : AVRational := ⟨num, den⟩

/-- The library function `av_cmp_q`: the sign of `a - b` taken from the sign
bits of `a.num * b.den - b.num * a.den`, `a.den` and `b.den`; 0 for equal
ratios with non-zero denominators; the difference of the sign bits of the
numerators for two infinities; `INT_MIN` when one side is `0/0`. -/
def av_cmp_q (a b : AVRational) : Int :=
  let tmp := a.num * b.den - b.num * a.den
  if tmp ≠ 0 then
    if xor (xor (decide (tmp < 0)) (decide (a.den < 0))) (decide (b.den < 0)) then -1 else 1
  else if b.den ≠ 0 ∧ a.den ≠ 0 then 0
  else if a.num ≠ 0 ∧ b.num ≠ 0 then
    (if a.num < 0 then -1 else 0) - (if b.num < 0 then -1 else 0)
  else INT_MIN

/-- The library function `av_mul_q`: the product in lowest terms with the
sign on the numerator, as `av_reduce` leaves it. The approximation
`av_reduce` makes when a term of the reduced product exceeds `INT_MAX` is not
modelled. -/
def av_mul_q (b c : AVRational) : AVRational :=
  let num := b.num * c.num
  let den := b.den * c.den
  let sign := xor (decide (num < 0)) (decide (den < 0))
  let gcd : Int := Int.gcd num den
  let num := if gcd ≠ 0 then |num| / gcd else num
  let den := if gcd ≠ 0 then |den| / gcd else den
  ⟨if sign then -num else num, den⟩

/-- The library function `av_rescale(a, b, c)`: `a * b / c` rounded to the
nearest integer, halves away from zero; `INT64_MIN` when `c <= 0` or
`b < 0`. -/
def av_rescale (a b c : Int) : Int :=
  if c ≤ 0 ∨ b < 0 then INT64_MIN
  else if a < 0 then -((-a * b + c / 2) / c)
  else (a * b + c / 2) / c

/-- An `SDL_Rect`. -/
structure SDL_Rect where
  x : Int
  y : Int
  w : Int
  h : Int
deriving DecidableEq

/-- The function `calculate_display_rect`; the result is the rectangle written
to `*rect`. The expression `v & ~1` is `v / 2 * 2`. The differences
`scr_width - width` and `scr_height - height` are `int64_t` subtractions: when
one of them leaves the range of `int64_t` (which takes the `INT64_MIN` of
`av_rescale`) the behaviour is undefined and there is no result. The
conversions to `int` are exact. -/
def calculate_display_rect (scr_xleft scr_ytop scr_width scr_height pic_width pic_height : Int)
    (pic_sar : AVRational) : Option SDL_Rect :=
  let aspect_ratio := pic_sar
  let aspect_ratio :=
    if av_cmp_q aspect_ratio (av_make_q 0 1) ≤ 0 then av_make_q 1 1 else aspect_ratio
  let aspect_ratio := av_mul_q aspect_ratio (av_make_q pic_width pic_height)
  let height := scr_height
  let width := av_rescale height aspect_ratio.num aspect_ratio.den / 2 * 2
  let wh : Int × Int :=
    if width > scr_width then
      (scr_width, av_rescale scr_width aspect_ratio.den aspect_ratio.num / 2 * 2)
    else (width, height)
  let width := wh.1
  let height := wh.2
  if scr_width - width < INT64_MIN ∨ INT64_MAX < scr_width - width ∨
     scr_height - height < INT64_MIN ∨ INT64_MAX < scr_height - height then none
  else
    let x := Int.tdiv (scr_width - width) 2
    let y := Int.tdiv (scr_height - height) 2
    some { x := scr_xleft + x, y := scr_ytop + y, w := max width 1, h := max height 1 }

/-! ## Sample states of the decoders and the invariant of the refresh timer -/

/-- The state of a player whose video stream is open, with `video_clock` at
1 s and an empty picture queue. -/
def sampleDecoding : VideoState := { sampleOpened with video_clock := .fin 1 }

/-- The three fields only the refresh timer writes are finite numbers and the
last delay lies strictly between 0 and 1. -/
def RefreshInv (s : VideoState) : Prop :=
  (∃ d : ℚ, s.frame_last_delay = .fin d ∧ 0 < d ∧ d < 1) ∧
  (∃ p : ℚ, s.frame_last_pts = .fin p) ∧ (∃ f : ℚ, s.frame_timer = .fin f)

/-- A library like `sampleAudioLib` whose decoder stamps its frames with the
timestamp `pts`. -/
def sampleAudioLibAt (pts nb rate len2 : Int) : AudioLib Nat :=
  { sampleAudioLib nb rate len2 with
    receive_frame := fun s =>
      (0, { AVFrame.blank with pts := pts, nb_samples := nb, sample_rate := rate,
                               nb_channels := 2 }, s) }

/-- The state `sampleAudioState 48000` with a codec context whose sample
format is already `AV_SAMPLE_FMT_S16`. -/
def sampleAudioStateS16 : VideoState :=
  { sampleAudioState 48000 with audio_ctx := ⟨48000, 2, AV_SAMPLE_FMT_S16, ⟨1, 48000⟩⟩ }

/-- The library `sampleAudioLib` with a decoder that delivers mono frames of
256 samples. -/
def sampleAudioLibMono : AudioLib Nat :=
  { sampleAudioLib 256 48000 256 with
    receive_frame := fun s =>
      (0, { AVFrame.blank with pts := 90000, nb_samples := 256, sample_rate := 48000,
                               nb_channels := 1 }, s) }

/-- The state `sampleAudioState 48000` with nothing in `audioq`. -/
def sampleAudioIdle : VideoState :=
  { sampleAudioState 48000 with audioq := (packet_queue_init true true true).2 }

/-- The state `is` after the reader has put `samplePacketA` into `audioq`. -/
def withAudioPacket (is : VideoState) : VideoState :=
  { is with audioq := (packet_queue_put is.audioq samplePacketA true true).2.1 }

/-! ## The packet queue with `size` as the C `int` it is

The statements `q->size += pkt1.pkt->size + sizeof(pkt1)` and
`q->size -= pkt1.pkt->size + sizeof(pkt1)` form the right-hand side and the
sum in `size_t` and convert the result to `int` when it is stored in
`q->size`. The definitions of this section keep that conversion; they agree
with the definitions of the packet queue above as long as the value stored
lies in the range of `int`. -/

/-- The conversion of a `size_t` value to `int`: the low 32 bits, read as a
two's-complement number. -/
def int_of_size_t (v : Int) : Int := (v + 2147483648) % 4294967296 - 2147483648

namespace Wrapping

/-- The function `packet_queue_put_private`, with the value stored in
`q->size` converted to `int`. -/
def packet_queue_put_private (q : PacketQueue) (pkt : AVPacket) (grow_ok : Bool) :
    Int × PacketQueue :=
  let pkt1 := pkt
  let w := av_fifo_write q.pkt_list pkt1 grow_ok
  if w.1 < 0 then (w.1, { q with pkt_list := w.2 })
  else
    (0, { pkt_list := w.2,
          nb_packets := q.nb_packets + 1,
          size := int_of_size_t (q.size + (pkt1.size + sizeof_MyAVPacketList)),
          duration := q.duration + pkt1.duration })

/-- The function `packet_queue_put`. The result is the return code, the queue
and the caller's packet after the call. -/
def packet_queue_put (q : PacketQueue) (pkt : AVPacket) (alloc_ok grow_ok : Bool) :
    Int × PacketQueue × AVPacket :=
  if !alloc_ok then (-1, q, av_packet_unref pkt)
  else
    let m := av_packet_move_ref AVPacket.blank pkt
    let r := Wrapping.packet_queue_put_private q m.1 grow_ok
    (r.1, r.2, m.2)

/-- The function `packet_queue_get`, with the value stored in `q->size`
converted to `int`. The result is the return code, the queue and the caller's
output packet after the call; there is no result when the call waits. -/
def packet_queue_get (q : PacketQueue) (pkt : AVPacket) (block : Int) :
    Option (Int × PacketQueue × AVPacket) :=
  match av_fifo_read q.pkt_list with
  | some (pkt1, rest) =>
      some (1,
        { pkt_list := rest,
          nb_packets := q.nb_packets - 1,
          size := int_of_size_t (q.size - (pkt1.size + sizeof_MyAVPacketList)),
          duration := q.duration - pkt1.duration },
        (av_packet_move_ref pkt pkt1).1)
  | none => if block = 0 then some (0, q, pkt) else none

/-- The queue after one call; a `get` that waits leaves the queue as it is.
`packet_queue_flush` stores constants only and is the function defined
above. -/
def apply (q : PacketQueue) : PacketQueueOp → PacketQueue
  | .put pkt alloc_ok grow_ok => (Wrapping.packet_queue_put q pkt alloc_ok grow_ok).2.1
  | .get out block =>
      match Wrapping.packet_queue_get q out block with
      | some r => r.2.1
      | none => q
  | .flush => packet_queue_flush q

/-- The queue after a sequence of calls. -/
def run (q : PacketQueue) (ops : List PacketQueueOp) : PacketQueue :=
  ops.foldl Wrapping.apply q

end Wrapping

/-- A packet of `2147483639` bytes: with the 8 bytes of `MyAVPacketList` it
counts `2^31 - 1` bytes in `size`. -/
def sampleHugePacket : AVPacket :=
  { AVPacket.blank with size := 2147483639, duration := 40, pts := 0, dts := 0 }

end Player

/-! # The earlier player (`8-2/simpleplayer2.c`)

The packet queue of the earlier variant. It differs from the one of
`8-3/player.c` in its names and in the loop test of `packet_queue_flush`. -/

namespace SimplePlayer2

open Player

/-- The library call `av_fifo_read(f, &x, 1)` with its return value: 0 and the
oldest element, which is removed, or `AVERROR(EINVAL)` on an empty FIFO, which
is left as it is. The result is the return value, the element read and the
FIFO after the call. -/
def av_fifo_read {α : Type} (f : List α) : Int × Option α × List α :=
  match f with
  | [] => (AVERROR_EINVAL, none, [])
  | x :: rest => (0, some x, rest)

/-- The size of `MyPacketEle`, a struct of one pointer (LP64). -/
def sizeof_MyPacketEle : Int := 8

/-- The `PacketQueue` of the earlier player. -/
structure PacketQueue where
  pkts : List AVPacket
  nb_packets : Int
  size : Int
  duration : Int
deriving DecidableEq

/-- The function `packet_queue_init`. -/
def packet_queue_init (fifo_ok mutex_ok cond_ok : Bool) : Int × PacketQueue :=
  let q : PacketQueue := { pkts := [], nb_packets := 0, size := 0, duration := 0 }
  if !fifo_ok then (AVERROR_ENOMEM, q)
  else if !mutex_ok then (AVERROR_ENOMEM, q)
  else if !cond_ok then (AVERROR_ENOMEM, q)
  else (0, q)

/-- The function `packet_queue_put_priv`. -/
def packet_queue_put_priv (q : PacketQueue) (pkt : AVPacket) (grow_ok : Bool) :
    Int × PacketQueue :=
  let w := Player.av_fifo_write q.pkts pkt grow_ok
  if w.1 < 0 then (w.1, { q with pkts := w.2 })
  else
    (0, { pkts := w.2,
          nb_packets := q.nb_packets + 1,
          size := q.size + (pkt.size + sizeof_MyPacketEle),
          duration := q.duration + pkt.duration })

/-- The function `packet_queue_put`. The result is the return code, the queue
and the caller's packet after the call. -/
def packet_queue_put (q : PacketQueue) (pkt : AVPacket) (alloc_ok grow_ok : Bool) :
    Int × PacketQueue × AVPacket :=
  if !alloc_ok then (-1, q, av_packet_unref pkt)
  else
    let m := av_packet_move_ref AVPacket.blank pkt
    let r := packet_queue_put_priv q m.1 grow_ok
    (r.1, r.2, m.2)

/-- The function `packet_queue_get`. The result is the return code, the queue
and the caller's output packet after the call; there is no result when the
call waits. -/
def packet_queue_get (q : PacketQueue) (pkt : AVPacket) (block : Int) :
    Option (Int × PacketQueue × AVPacket) :=
  let r := av_fifo_read q.pkts
  if r.1 ≥ 0 then
    match r.2.1 with
    | some mypkt =>
        some (1,
          { pkts := r.2.2,
            nb_packets := q.nb_packets - 1,
            size := q.size - (mypkt.size + sizeof_MyPacketEle),
            duration := q.duration - mypkt.duration },
          (av_packet_move_ref pkt mypkt).1)
    | none => none
  else if block = 0 then some (0, q, pkt)
  else none

/-- The loop `while(av_fifo_read(q->pkts, &mypkt, 1) > 0) av_packet_free(...)`
of `packet_queue_flush`. The result is the FIFO when the loop is left and the
packets `av_packet_free` was called on. -/
def packet_queue_flush_loop : List AVPacket → List AVPacket × List AVPacket
  | [] => ((av_fifo_read ([] : List AVPacket)).2.2, [])
  | p :: rest =>
      if (av_fifo_read (p :: rest)).1 > 0 then
        ((packet_queue_flush_loop rest).1, p :: (packet_queue_flush_loop rest).2)
      else ((av_fifo_read (p :: rest)).2.2, [])

/-- The function `packet_queue_flush`. -/
def packet_queue_flush (q : PacketQueue) : PacketQueue :=
  { pkts := (packet_queue_flush_loop q.pkts).1, nb_packets := 0, size := 0, duration := 0 }

/-- Successful puts of a list of packets, one after the other. -/
def packet_queue_put_all (q : PacketQueue) : List AVPacket → PacketQueue
  | [] => q
  | p :: ps => packet_queue_put_all (packet_queue_put q p true true).2.1 ps

/-- A queue that holds the three sample packets. -/
def sampleQueue : PacketQueue :=
  packet_queue_put_all (packet_queue_init true true true).2 samplePackets

end SimplePlayer2

/-! # The cut utility (`5-6/cut.c`) -/

namespace Cut

open Player

/-- The enumerator `AVMEDIA_TYPE_VIDEO`. -/
def AVMEDIA_TYPE_VIDEO : Int := 0

/-- The enumerator `AVMEDIA_TYPE_AUDIO`. -/
def AVMEDIA_TYPE_AUDIO : Int := 1

/-- The enumerator `AVMEDIA_TYPE_SUBTITLE`. -/
def AVMEDIA_TYPE_SUBTITLE : Int := 3

/-- The loop of `main` that fills `stream_map`, over the `codec_type` of the
input streams, entered with the given `stream_idx`; every
`avformat_new_stream` succeeds. The result lists `stream_map[i]` in order. -/
def stream_map_loop : List Int → Int → List Int
  | [], _ => []
  | codec_type :: rest, stream_idx =>
      if codec_type ≠ AVMEDIA_TYPE_AUDIO ∧ codec_type ≠ AVMEDIA_TYPE_VIDEO ∧
         codec_type ≠ AVMEDIA_TYPE_SUBTITLE then
        -1 :: stream_map_loop rest stream_idx
      else stream_idx :: stream_map_loop rest (stream_idx + 1)

/-- The array `stream_map` of `main` as a function of the index. -/
def stream_map (types : List Int) (i : Int) : Int :=
  (stream_map_loop types 0).getD i.toNat 0

/-- The library function `av_rescale_q(a, bq, cq)`. -/
def av_rescale_q (a : Int) (bq cq : AVRational) : Int :=
  av_rescale a (bq.num * cq.den) (cq.num * bq.den)

/-- The library function `av_packet_rescale_ts`. -/
def av_packet_rescale_ts (pkt : AVPacket) (tb_src tb_dst : AVRational) : AVPacket :=
  let pkt := if pkt.pts ≠ AV_NOPTS_VALUE then { pkt with pts := av_rescale_q pkt.pts tb_src tb_dst }
             else pkt
  let pkt := if pkt.dts ≠ AV_NOPTS_VALUE then { pkt with dts := av_rescale_q pkt.dts tb_src tb_dst }
             else pkt
  if pkt.duration > 0 then { pkt with duration := av_rescale_q pkt.duration tb_src tb_dst }
  else pkt

/-- One packet the copy loop hands to `av_interleaved_write_frame`: the packet
right after the start-time subtraction (still with the index of its input
stream), and the packet as it is written. -/
structure Written where
  shifted : AVPacket
  written : AVPacket
deriving DecidableEq

/-- The state of the copy loop of `main`: the two start-time arrays and the
packets written so far, oldest first. -/
structure CopyState where
  dts_start_time : Int → Int
  pts_start_time : Int → Int
  writes : List Written

/-- The state the copy loop starts from: every start time is -1. -/
def CopyState.start : CopyState :=
  { dts_start_time := fun _ => -1, pts_start_time := fun _ => -1, writes := [] }

/-- The first two statements of the body of the copy loop: a start time of
the stream of `pkt` that is still -1 is set to the timestamp of `pkt` when
that is positive. -/
def record_start (s : CopyState) (pkt : AVPacket) : CopyState :=
  let dts_start_time :=
    if s.dts_start_time pkt.stream_index = -1 ∧ pkt.dts > 0 then
      Function.update s.dts_start_time pkt.stream_index pkt.dts
    else s.dts_start_time
  let pts_start_time :=
    if s.pts_start_time pkt.stream_index = -1 ∧ pkt.pts > 0 then
      Function.update s.pts_start_time pkt.stream_index pkt.pts
    else s.pts_start_time
  { s with dts_start_time := dts_start_time, pts_start_time := pts_start_time }

/-- The start-time subtraction of the copy loop: `pkt.pts` and `pkt.dts` are
lowered by the start times of the stream, then `pkt.pts` is raised to
`pkt.dts` when `pkt.dts > pkt.pts`. -/
def shift_packet (s : CopyState) (pkt : AVPacket) : AVPacket :=
  let pkt1 := { pkt with pts := pkt.pts - s.pts_start_time pkt.stream_index }
  let pkt2 := { pkt1 with dts := pkt1.dts - s.dts_start_time pkt1.stream_index }
  if pkt2.dts > pkt2.pts then { pkt2 with pts := pkt2.dts } else pkt2

/-- The end of the body of the copy loop, up to the write: the stream index
is mapped, the timestamps are rescaled from the time base `inStream` to the
time base of `pFmtCtx->streams[pkt.stream_index]` (the input context, at the
mapped index), and `pos` is set to -1. -/
def output_packet (stream_map : Int → Int) (time_base : Int → AVRational)
    (inStream : AVRational) (pkt : AVPacket) : AVPacket :=
  let pkt1 := { pkt with stream_index := stream_map pkt.stream_index }
  let outStream := time_base pkt1.stream_index
  let pkt2 := av_packet_rescale_ts pkt1 inStream outStream
  { pkt2 with pos := -1 }

/-- The copy loop of `main` (step 8) over the packets `av_read_frame` delivers
before it fails; `stream_map` is the array of that name, `time_base` gives
`pFmtCtx->streams[i]->time_base`, `endtime` is the local of that name. -/
def copy_loop (stream_map : Int → Int) (time_base : Int → AVRational) (endtime : CDouble) :
    CopyState → List AVPacket → CopyState
  | s, [] => s
  | s, pkt :: rest =>
      let s1 := record_start s pkt
      let inStream := time_base pkt.stream_index
      if CDouble.gt (CDouble.mul (av_q2d inStream) (CDouble.ofInt pkt.pts)) endtime then s1
      else if stream_map pkt.stream_index < 0 then
        copy_loop stream_map time_base endtime s1 rest
      else
        let shifted := shift_packet s1 pkt
        let written := output_packet stream_map time_base inStream shifted
        copy_loop stream_map time_base endtime
          { s1 with writes := s1.writes ++ [{ shifted := shifted, written := written }] } rest

/-- The first packet written for the input stream `i`, right after the
start-time subtraction. -/
def firstShifted (s : CopyState) (i : Int) : Option AVPacket :=
  (s.writes.find? (fun w => decide (w.shifted.stream_index = i))).map (fun w => w.shifted)

/-- The first packet of an H.264 stream with B-frames read from the start of
an MP4 file: `pts = 0`, `dts = -1024`. -/
def sampleFirstPacket : AVPacket :=
  { AVPacket.blank with data := [1], size := 1, duration := 512, pts := 0, dts := -1024,
                        stream_index := 0 }

end Cut

/-! ## Properties of the packet queue -/

namespace Player

theorem packet_queue_flush_loop_nil (l : List AVPacket) : packet_queue_flush_loop l = [] := by
  induction l with
  | nil => rfl
  | cons _ rest ih => simpa [packet_queue_flush_loop] using ih

theorem heldBytes_append (l : List AVPacket) (p : AVPacket) :
    heldBytes (l ++ [p]) = heldBytes l + (p.size + sizeof_MyAVPacketList) := by
  simp [heldBytes]

theorem heldDuration_append (l : List AVPacket) (p : AVPacket) :
    heldDuration (l ++ [p]) = heldDuration l + p.duration := by
  simp [heldDuration]

theorem packet_queue_put_pkt_list (q : PacketQueue) (p : AVPacket) (alloc_ok grow_ok : Bool) :
    (packet_queue_put q p alloc_ok grow_ok).2.1.pkt_list =
      if alloc_ok && grow_ok then q.pkt_list ++ [p] else q.pkt_list := by
  cases alloc_ok <;> cases grow_ok <;>
    simp [packet_queue_put, packet_queue_put_private, av_fifo_write, av_packet_move_ref,
      AVERROR_ENOMEM]

theorem consistent_put (q : PacketQueue) (p : AVPacket) (alloc_ok grow_ok : Bool)
    (h : q.Consistent) : (packet_queue_put q p alloc_ok grow_ok).2.1.Consistent := by
  obtain ⟨h1, h2, h3⟩ := h
  cases alloc_ok <;> cases grow_ok <;>
    simp [packet_queue_put, packet_queue_put_private, av_fifo_write, av_packet_move_ref,
      AVERROR_ENOMEM, PacketQueue.Consistent, heldBytes_append, heldDuration_append, h1, h2, h3]

theorem consistent_get (q : PacketQueue) (out : AVPacket) (block : Int)
    (h : q.Consistent) : (PacketQueueOp.apply q (.get out block)).Consistent := by
  obtain ⟨h1, h2, h3⟩ := h
  rcases q with ⟨l, n, s, d⟩
  cases l with
  | nil =>
      by_cases hb : block = 0 <;>
        simp_all [PacketQueueOp.apply, packet_queue_get, av_fifo_read, PacketQueue.Consistent]
  | cons p rest =>
      simp only [PacketQueueOp.apply, packet_queue_get, av_fifo_read, PacketQueue.Consistent,
        heldBytes, heldDuration, List.map_cons, List.sum_cons, List.length_cons] at *
      refine ⟨?_, ?_, ?_⟩
      · rw [h1]; push_cast; ring
      · rw [h2]; ring
      · rw [h3]; ring

theorem consistent_flush (q : PacketQueue) : (packet_queue_flush q).Consistent := by
  simp [packet_queue_flush, packet_queue_flush_loop_nil, PacketQueue.Consistent, heldBytes,
    heldDuration]

theorem consistent_apply (q : PacketQueue) (op : PacketQueueOp) (h : q.Consistent) :
    (PacketQueueOp.apply q op).Consistent := by
  cases op with
  | put pkt a g => exact consistent_put q pkt a g h
  | get out block => exact consistent_get q out block h
  | flush => exact consistent_flush q

theorem consistent_run (ops : List PacketQueueOp) (q : PacketQueue) (h : q.Consistent) :
    (q.run ops).Consistent := by
  induction ops generalizing q with
  | nil => exact h
  | cons op ops ih => exact ih _ (consistent_apply q op h)

theorem consistent_init : (packet_queue_init true true true).2.Consistent := by
  simp [packet_queue_init, PacketQueue.Consistent, heldBytes, heldDuration]

theorem int_of_size_t_add (a b : Int) :
    int_of_size_t (int_of_size_t a + b) = int_of_size_t (a + b) := by
  unfold int_of_size_t
  omega

theorem int_of_size_t_sub (a b : Int) :
    int_of_size_t (int_of_size_t a - b) = int_of_size_t (a - b) := by
  unfold int_of_size_t
  omega

theorem int_of_size_t_of_range (a : Int) (h : -2147483648 ≤ a ∧ a ≤ 2147483647) :
    int_of_size_t a = a := by
  unfold int_of_size_t
  omega

theorem wrapping_apply (qc q : PacketQueue) (op : PacketQueueOp)
    (h : qc.pkt_list = q.pkt_list ∧ qc.nb_packets = q.nb_packets ∧
      qc.duration = q.duration ∧ qc.size = int_of_size_t q.size) :
    (Wrapping.apply qc op).pkt_list = (PacketQueueOp.apply q op).pkt_list ∧
    (Wrapping.apply qc op).nb_packets = (PacketQueueOp.apply q op).nb_packets ∧
    (Wrapping.apply qc op).duration = (PacketQueueOp.apply q op).duration ∧
    (Wrapping.apply qc op).size = int_of_size_t (PacketQueueOp.apply q op).size := by
  obtain ⟨h1, h2, h3, h4⟩ := h
  cases op with
  | put pkt a g =>
      cases a <;> cases g <;>
        simp [Wrapping.apply, Wrapping.packet_queue_put, Wrapping.packet_queue_put_private,
          PacketQueueOp.apply, packet_queue_put, packet_queue_put_private, av_fifo_write,
          av_packet_move_ref, AVERROR_ENOMEM, h1, h2, h3, h4, int_of_size_t_add]
  | get out block =>
      rcases q with ⟨l, n, sz, d⟩
      rcases qc with ⟨lc, nc, szc, dc⟩
      simp only at h1 h2 h3 h4
      subst h1 h2 h3 h4
      cases lc with
      | nil =>
          by_cases hb : block = 0 <;>
            simp [Wrapping.apply, Wrapping.packet_queue_get, PacketQueueOp.apply,
              packet_queue_get, av_fifo_read, hb]
      | cons p rest =>
          simp [Wrapping.apply, Wrapping.packet_queue_get, PacketQueueOp.apply,
            packet_queue_get, av_fifo_read, int_of_size_t_sub]
  | flush =>
      simp [Wrapping.apply, PacketQueueOp.apply, packet_queue_flush, int_of_size_t, h1]

theorem wrapping_run (ops : List PacketQueueOp) (qc q : PacketQueue)
    (h : qc.pkt_list = q.pkt_list ∧ qc.nb_packets = q.nb_packets ∧
      qc.duration = q.duration ∧ qc.size = int_of_size_t q.size) :
    (Wrapping.run qc ops).pkt_list = (q.run ops).pkt_list ∧
    (Wrapping.run qc ops).nb_packets = (q.run ops).nb_packets ∧
    (Wrapping.run qc ops).duration = (q.run ops).duration ∧
    (Wrapping.run qc ops).size = int_of_size_t (q.run ops).size := by
  induction ops generalizing qc q with
  | nil => exact h
  | cons op ops ih => exact ih _ _ (wrapping_apply qc q op h)

/-- C1 as stated fails: `q->size` is an `int` and the sum is formed in
`size_t`. After two puts of a packet of 2147483639 bytes the queue holds two
packets whose sizes plus overhead add up to 4294967294, and `size` is -2. -/
theorem packet_queue_size_wraps :
    (Wrapping.run (packet_queue_init true true true).2
      [.put sampleHugePacket true true, .put sampleHugePacket true true]).pkt_list =
      [sampleHugePacket, sampleHugePacket] ∧
    ((Wrapping.run (packet_queue_init true true true).2
      [.put sampleHugePacket true true, .put sampleHugePacket true true]).pkt_list.map
        (fun p => p.size + sizeof_MyAVPacketList)).sum = 4294967294 ∧
    (Wrapping.run (packet_queue_init true true true).2
      [.put sampleHugePacket true true, .put sampleHugePacket true true]).size = -2 := by
  decide

/-- C1, amended: after `packet_queue_init`, whatever sequence of
`packet_queue_put`, `packet_queue_get` and `packet_queue_flush` calls is
applied, `nb_packets` is the number of held packets, `duration` is the sum of
their durations, and `size` is the sum of their sizes plus
`sizeof(MyAVPacketList)` each, converted to `int`; so `size` equals that sum
whenever the sum lies in the range of `int`. -/
theorem packet_queue_counters_are_sums_in_int (ops : List PacketQueueOp) :
    (Wrapping.run (packet_queue_init true true true).2 ops).nb_packets =
        ((Wrapping.run (packet_queue_init true true true).2 ops).pkt_list.length : Int) ∧
    (Wrapping.run (packet_queue_init true true true).2 ops).duration =
        ((Wrapping.run (packet_queue_init true true true).2 ops).pkt_list.map
          (fun p => p.duration)).sum ∧
    (Wrapping.run (packet_queue_init true true true).2 ops).size =
        int_of_size_t
          ((Wrapping.run (packet_queue_init true true true).2 ops).pkt_list.map
            (fun p => p.size + sizeof_MyAVPacketList)).sum ∧
    (-2147483648 ≤ ((Wrapping.run (packet_queue_init true true true).2 ops).pkt_list.map
          (fun p => p.size + sizeof_MyAVPacketList)).sum ∧
      ((Wrapping.run (packet_queue_init true true true).2 ops).pkt_list.map
          (fun p => p.size + sizeof_MyAVPacketList)).sum ≤ 2147483647 →
      (Wrapping.run (packet_queue_init true true true).2 ops).size =
        ((Wrapping.run (packet_queue_init true true true).2 ops).pkt_list.map
          (fun p => p.size + sizeof_MyAVPacketList)).sum) := by
  obtain ⟨r1, r2, r3, r4⟩ := wrapping_run ops (packet_queue_init true true true).2
    (packet_queue_init true true true).2 ⟨rfl, rfl, rfl, by decide⟩
  obtain ⟨c1, c2, c3⟩ := consistent_run ops _ consistent_init
  have hsize : (Wrapping.run (packet_queue_init true true true).2 ops).size =
      int_of_size_t
        ((Wrapping.run (packet_queue_init true true true).2 ops).pkt_list.map
          (fun p => p.size + sizeof_MyAVPacketList)).sum := by
    rw [r4, r1, c2]
    rfl
  refine ⟨?_, ?_, hsize, fun hr => ?_⟩
  · rw [r2, r1, c1]
  · rw [r3, r1, c3]
    rfl
  · rw [hsize]
    exact int_of_size_t_of_range _ hr

theorem packet_queue_counters_are_sums_in_int_witness :
    (Wrapping.run (packet_queue_init true true true).2 sampleOps).size =
      ((Wrapping.run (packet_queue_init true true true).2 sampleOps).pkt_list.map
        (fun p => p.size + sizeof_MyAVPacketList)).sum ∧
    (Wrapping.run (packet_queue_init true true true).2 sampleOps).size = 9 :=
  ⟨(packet_queue_counters_are_sums_in_int sampleOps).2.2.2 (by decide), by decide⟩

theorem packet_queue_put_all_pkt_list (ps : List AVPacket) (q : PacketQueue) :
    (packet_queue_put_all q ps).pkt_list = q.pkt_list ++ ps := by
  induction ps generalizing q with
  | nil => simp [packet_queue_put_all]
  | cons p ps ih =>
      simp [packet_queue_put_all, ih, packet_queue_put_pkt_list]

theorem packet_queue_put_all_rets_ok (ps : List AVPacket) (q : PacketQueue) :
    packet_queue_put_all_rets q ps = List.replicate ps.length 0 := by
  induction ps generalizing q with
  | nil => rfl
  | cons p ps ih =>
      simp [packet_queue_put_all_rets, ih, List.replicate_succ, packet_queue_put,
        packet_queue_put_private, av_fifo_write]

theorem packet_queue_get_n_front (block : Int) (ps rest : List AVPacket) (q : PacketQueue)
    (out : AVPacket) (hq : q.pkt_list = ps ++ rest) :
    (packet_queue_get_n block ps.length q out).1 = ps.map (fun p => (1, p)) ∧
    (packet_queue_get_n block ps.length q out).2.pkt_list = rest := by
  induction ps generalizing q out with
  | nil => simpa [packet_queue_get_n] using hq
  | cons p ps ih =>
      have hstep : packet_queue_get q out block =
          some (1, { pkt_list := ps ++ rest, nb_packets := q.nb_packets - 1,
                     size := q.size - (p.size + sizeof_MyAVPacketList),
                     duration := q.duration - p.duration }, p) := by
        simp [packet_queue_get, av_fifo_read, hq, av_packet_move_ref]
      have h := ih { pkt_list := ps ++ rest, nb_packets := q.nb_packets - 1,
                     size := q.size - (p.size + sizeof_MyAVPacketList),
                     duration := q.duration - p.duration } p rfl
      simp only [List.length_cons, packet_queue_get_n, hstep, List.map_cons]
      exact ⟨by rw [h.1], h.2⟩

/-- C2: packets put successfully, one after the other, into a queue that holds
nothing are handed back by as many `packet_queue_get` calls, each returning 1,
in the order they were put (whatever `block` is and whatever the output packet
held before); afterwards the queue holds nothing again. -/
theorem packet_queue_fifo (q : PacketQueue) (ps : List AVPacket) (out : AVPacket)
    (block : Int) (hq : q.pkt_list = []) :
    packet_queue_put_all_rets q ps = List.replicate ps.length 0 ∧
    (packet_queue_get_n block ps.length (packet_queue_put_all q ps) out).1 =
      ps.map (fun p => (1, p)) ∧
    (packet_queue_get_n block ps.length (packet_queue_put_all q ps) out).2.pkt_list = [] := by
  refine ⟨packet_queue_put_all_rets_ok ps q, ?_⟩
  exact packet_queue_get_n_front block ps [] (packet_queue_put_all q ps) out
    (by simp [packet_queue_put_all_pkt_list, hq])

theorem packet_queue_fifo_witness :
    (packet_queue_init true true true).2.pkt_list = [] ∧
    (packet_queue_get_n 0 samplePackets.length
        (packet_queue_put_all (packet_queue_init true true true).2 samplePackets)
        AVPacket.blank).1 = samplePackets.map (fun p => (1, p)) :=
  ⟨by decide,
   (packet_queue_fifo (packet_queue_init true true true).2 samplePackets AVPacket.blank 0
      (by decide)).2.1⟩

/-- C3: on an empty queue (nothing held, counters 0) a `packet_queue_put` that
returns 0 followed by `packet_queue_get` returns 1, hands back the packet that
was put, every field of it, and leaves the queue empty with the three counters
at 0; the caller's packet was emptied by the put. -/
theorem packet_queue_put_get_roundtrip (p out : AVPacket) (alloc_ok grow_ok : Bool)
    (block : Int)
    (hput : (packet_queue_put ⟨[], 0, 0, 0⟩ p alloc_ok grow_ok).1 = 0) :
    packet_queue_get (packet_queue_put ⟨[], 0, 0, 0⟩ p alloc_ok grow_ok).2.1 out block =
      some (1, ⟨[], 0, 0, 0⟩, p) ∧
    (packet_queue_put ⟨[], 0, 0, 0⟩ p alloc_ok grow_ok).2.2 = AVPacket.blank := by
  cases alloc_ok <;> cases grow_ok <;>
    simp_all [packet_queue_put, packet_queue_put_private, av_fifo_write, av_packet_move_ref,
      AVERROR_ENOMEM, packet_queue_get, av_fifo_read, av_packet_unref]

theorem packet_queue_put_get_roundtrip_witness :
    (packet_queue_put ⟨[], 0, 0, 0⟩
        { AVPacket.blank with data := [7, 8, 9], size := 3, duration := 40, pts := 90,
                              dts := 80, stream_index := 1 } true true).1 = 0 ∧
    packet_queue_get
        (packet_queue_put ⟨[], 0, 0, 0⟩
          { AVPacket.blank with data := [7, 8, 9], size := 3, duration := 40, pts := 90,
                                dts := 80, stream_index := 1 } true true).2.1
        AVPacket.blank 0 =
      some (1, ⟨[], 0, 0, 0⟩,
        { AVPacket.blank with data := [7, 8, 9], size := 3, duration := 40, pts := 90,
                              dts := 80, stream_index := 1 }) :=
  ⟨by decide,
   (packet_queue_put_get_roundtrip
      { AVPacket.blank with data := [7, 8, 9], size := 3, duration := 40, pts := 90,
                            dts := 80, stream_index := 1 }
      AVPacket.blank true true 0 (by decide)).1⟩

/-- C4: after `packet_queue_flush`, from every queue state, `nb_packets`, `size`
and `duration` are 0 and no packet is held: a following `packet_queue_get` with
`block = 0` returns 0 and changes neither the queue nor the output packet. -/
theorem packet_queue_flush_empties (q : PacketQueue) (out : AVPacket) :
    (packet_queue_flush q).nb_packets = 0 ∧
    (packet_queue_flush q).size = 0 ∧
    (packet_queue_flush q).duration = 0 ∧
    (packet_queue_flush q).pkt_list = [] ∧
    packet_queue_get (packet_queue_flush q) out 0 = some (0, packet_queue_flush q, out) := by
  simp [packet_queue_flush, packet_queue_flush_loop_nil, packet_queue_get, av_fifo_read]

/-- C5: `packet_queue_get` with `block = 0` returns 0 on a queue that holds
nothing and then leaves the queue and the output packet as they were; on a queue
whose oldest packet is `p` it returns 1, hands out `p`, removes it, and lowers
`nb_packets` by 1, `size` by `p.size + sizeof(MyAVPacketList)` and `duration` by
`p.duration`, which are the amounts a successful `packet_queue_put` of `p`
adds. -/
theorem packet_queue_get_nonblocking (q : PacketQueue) (out : AVPacket) :
    (q.pkt_list = [] → packet_queue_get q out 0 = some (0, q, out)) ∧
    (∀ p rest, q.pkt_list = p :: rest →
      packet_queue_get q out 0 =
        some (1, { pkt_list := rest,
                   nb_packets := q.nb_packets - 1,
                   size := q.size - (p.size + sizeof_MyAVPacketList),
                   duration := q.duration - p.duration }, p) ∧
      (packet_queue_put q p true true).2.1 =
        { pkt_list := q.pkt_list ++ [p],
          nb_packets := q.nb_packets + 1,
          size := q.size + (p.size + sizeof_MyAVPacketList),
          duration := q.duration + p.duration }) := by
  constructor
  · intro h
    simp [packet_queue_get, av_fifo_read, h]
  · intro p rest h
    simp [packet_queue_get, av_fifo_read, h, av_packet_move_ref, packet_queue_put,
      packet_queue_put_private, av_fifo_write]

theorem packet_queue_get_nonblocking_witness :
    packet_queue_get ⟨[], 0, 0, 0⟩ AVPacket.blank 0 = some (0, ⟨[], 0, 0, 0⟩, AVPacket.blank) ∧
    packet_queue_get (packet_queue_put_all ⟨[], 0, 0, 0⟩ samplePackets) AVPacket.blank 0 =
      some (1, ⟨[samplePacketB, samplePacketC], 2, 20, 60⟩, samplePacketA) :=
  ⟨(packet_queue_get_nonblocking ⟨[], 0, 0, 0⟩ AVPacket.blank).1 rfl,
   ((packet_queue_get_nonblocking (packet_queue_put_all ⟨[], 0, 0, 0⟩ samplePackets)
      AVPacket.blank).2 samplePacketA [samplePacketB, samplePacketC] (by decide)).1⟩

/-- C6 as stated fails: one put of a packet whose `duration` field is negative
(the field is an `int64_t`) leaves the `duration` counter negative. -/
theorem packet_queue_counters_nonneg_fails :
    ¬ ∀ ops : List PacketQueueOp,
        0 ≤ ((packet_queue_init true true true).2.run ops).nb_packets ∧
        0 ≤ ((packet_queue_init true true true).2.run ops).size ∧
        0 ≤ ((packet_queue_init true true true).2.run ops).duration := by
  intro h
  have h1 := (h [.put { AVPacket.blank with size := 4, duration := -1 } true true]).2.2
  revert h1
  decide

theorem held_apply (P : AVPacket → Prop) (q : PacketQueue) (op : PacketQueueOp)
    (hq : ∀ p ∈ q.pkt_list, P p) (hop : ∀ p ∈ PacketQueueOp.putPackets [op], P p) :
    ∀ p ∈ (PacketQueueOp.apply q op).pkt_list, P p := by
  cases op with
  | put pkt a g =>
      intro p hp
      simp only [PacketQueueOp.apply, packet_queue_put_pkt_list] at hp
      split at hp
      · rcases List.mem_append.mp hp with h | h
        · exact hq p h
        · exact hop p (by simpa [PacketQueueOp.putPackets] using h)
      · exact hq p hp
  | get out block =>
      rcases q with ⟨l, n, s, d⟩
      cases l with
      | nil =>
          by_cases hb : block = 0 <;>
            simp [PacketQueueOp.apply, packet_queue_get, av_fifo_read, hb]
      | cons p0 rest =>
          intro p hp
          simp only [PacketQueueOp.apply, packet_queue_get, av_fifo_read] at hp
          exact hq p (List.mem_cons_of_mem _ hp)
  | flush =>
      simp [PacketQueueOp.apply, packet_queue_flush, packet_queue_flush_loop_nil]

theorem putPackets_cons_subset (op : PacketQueueOp) (ops : List PacketQueueOp) (p : AVPacket) :
    (p ∈ PacketQueueOp.putPackets [op] → p ∈ PacketQueueOp.putPackets (op :: ops)) ∧
    (p ∈ PacketQueueOp.putPackets ops → p ∈ PacketQueueOp.putPackets (op :: ops)) := by
  cases op
  · simp only [PacketQueueOp.putPackets, List.mem_cons, List.mem_singleton, List.not_mem_nil,
      or_false]
    tauto
  · simp [PacketQueueOp.putPackets]
  · simp [PacketQueueOp.putPackets]

theorem held_run (P : AVPacket → Prop) (ops : List PacketQueueOp) (q : PacketQueue)
    (hq : ∀ p ∈ q.pkt_list, P p) (hops : ∀ p ∈ PacketQueueOp.putPackets ops, P p) :
    ∀ p ∈ (q.run ops).pkt_list, P p := by
  induction ops generalizing q with
  | nil => exact hq
  | cons op ops ih =>
      apply ih (PacketQueueOp.apply q op)
      · exact held_apply P q op hq
          (fun p hp => hops p ((putPackets_cons_subset op ops p).1 hp))
      · exact fun p hp => hops p ((putPackets_cons_subset op ops p).2 hp)

theorem heldBytes_nonneg (l : List AVPacket) (h : ∀ p ∈ l, 0 ≤ p.size) : 0 ≤ heldBytes l := by
  induction l with
  | nil => simp [heldBytes]
  | cons p l ih =>
      have hp := h p (List.mem_cons_self _ _)
      have hl := ih (fun x hx => h x (List.mem_cons_of_mem _ hx))
      simp only [heldBytes, List.map_cons, List.sum_cons, sizeof_MyAVPacketList] at *
      omega

theorem heldDuration_nonneg (l : List AVPacket) (h : ∀ p ∈ l, 0 ≤ p.duration) :
    0 ≤ heldDuration l := by
  induction l with
  | nil => simp [heldDuration]
  | cons p l ih =>
      have hp := h p (List.mem_cons_self _ _)
      have hl := ih (fun x hx => h x (List.mem_cons_of_mem _ hx))
      simp only [heldDuration, List.map_cons, List.sum_cons] at *
      omega

/-- C6, amended: after `packet_queue_init`, for every sequence of put, get and
flush calls, `nb_packets ≥ 0` after the sequence (hence after each of its
calls); `size ≥ 0` when every packet passed to put has `size ≥ 0`; and
`duration ≥ 0` when every packet passed to put has `duration ≥ 0`. -/
theorem packet_queue_counters_nonneg (ops : List PacketQueueOp) :
    0 ≤ ((packet_queue_init true true true).2.run ops).nb_packets ∧
    ((∀ p ∈ PacketQueueOp.putPackets ops, 0 ≤ p.size) →
      0 ≤ ((packet_queue_init true true true).2.run ops).size) ∧
    ((∀ p ∈ PacketQueueOp.putPackets ops, 0 ≤ p.duration) →
      0 ≤ ((packet_queue_init true true true).2.run ops).duration) := by
  obtain ⟨h1, h2, h3⟩ := consistent_run ops _ consistent_init
  rw [h1, h2, h3]
  refine ⟨Int.ofNat_nonneg _, fun hs => ?_, fun hd => ?_⟩
  · exact heldBytes_nonneg _ (held_run (fun p => 0 ≤ p.size) ops _
      (by simp [packet_queue_init]) hs)
  · exact heldDuration_nonneg _ (held_run (fun p => 0 ≤ p.duration) ops _
      (by simp [packet_queue_init]) hd)

theorem packet_queue_counters_nonneg_witness :
    (∀ p ∈ PacketQueueOp.putPackets sampleOps, 0 ≤ p.size) ∧
    (∀ p ∈ PacketQueueOp.putPackets sampleOps, 0 ≤ p.duration) ∧
    0 ≤ ((packet_queue_init true true true).2.run sampleOps).size ∧
    0 ≤ ((packet_queue_init true true true).2.run sampleOps).duration :=
  ⟨by decide, by decide,
   (packet_queue_counters_nonneg sampleOps).2.1 (by decide),
   (packet_queue_counters_nonneg sampleOps).2.2 (by decide)⟩

/-! ## Properties of the frame queue -/

section FrameQueueProofs

variable {D : Type}

theorem picture_step_eq (s : FrameQueueRun D) (src : AVFrame) (pts dur : D) (pos : Int)
    (ha : s.fq.abort = 0) :
    FrameQueueOp.step s (.picture src pts dur pos) =
      if 3 ≤ s.fq.size then none
      else some
        { fq := { queue := Function.update s.fq.queue s.fq.windex (pictureRecord src pts dur pos),
                  rindex := s.fq.rindex,
                  windex := if s.fq.windex + 1 = 3 then 0 else s.fq.windex + 1,
                  size := s.fq.size + 1,
                  abort := s.fq.abort },
          live := s.live ++ [s.fq.windex],
          shown := s.shown } := by
  by_cases h : 3 ≤ s.fq.size
  · simp [FrameQueueOp.step, queue_picture, frame_queue_peek_writable,
      frame_queue_peek_writable_waits, VIDEO_PICTURE_QUEUE_SIZE, ha, h]
  · simp [FrameQueueOp.step, queue_picture, frame_queue_peek_writable,
      frame_queue_peek_writable_waits, VIDEO_PICTURE_QUEUE_SIZE, ha, h, frame_queue_push,
      pictureRecord, av_frame_move_ref]

theorem ringInv_picture (s s1 : FrameQueueRun D) (pend : List (Frame D)) (src : AVFrame)
    (pts dur : D) (pos : Int) (hinv : RingInv s pend)
    (h : FrameQueueOp.step s (.picture src pts dur pos) = some s1) :
    RingInv s1 (pend ++ [pictureRecord src pts dur pos]) ∧ s1.shown = s.shown := by
  obtain ⟨ha, hr0, hr3, hw, hsz, hle, hslots, hlive⟩ := hinv
  rw [picture_step_eq s src pts dur pos ha] at h
  split at h
  · exact absurd h (by simp)
  · rename_i hlt
    simp only [Option.some.injEq] at h
    subst h
    refine ⟨⟨ha, hr0, hr3, ?_, ?_, ?_, ?_, ?_⟩, rfl⟩
    · simp only; omega
    · simp only [List.length_append, List.length_singleton]; push_cast; omega
    · simp only; omega
    · intro j hj
      simp only [List.length_append, List.length_singleton] at hj
      by_cases hjl : j < pend.length
      · have hne : (s.fq.rindex + (j : Int)) % 3 ≠ s.fq.windex := by omega
        simp only [Function.update_noteq hne]
        rw [List.getElem?_append_left hjl]
        exact hslots j hjl
      · have hje : j = pend.length := by omega
        have heq : (s.fq.rindex + (j : Int)) % 3 = s.fq.windex := by rw [hw, hsz, hje]
        subst hje
        rw [heq]
        simp
    · simp only [List.length_append, List.length_singleton, List.range_succ, List.map_append,
        List.map_cons, List.map_nil]
      rw [hlive, hw, hsz]


theorem display_step_eq (s : FrameQueueRun D) :
    FrameQueueOp.step s (.display : FrameQueueOp D) =
      if s.fq.size = 0 then none
      else some
        { fq := { queue := Function.update s.fq.queue s.fq.rindex
                    { s.fq.queue s.fq.rindex with frame := AVFrame.blank },
                  rindex := if s.fq.rindex + 1 = 3 then 0 else s.fq.rindex + 1,
                  windex := s.fq.windex,
                  size := s.fq.size - 1,
                  abort := s.fq.abort },
          live := s.live.erase s.fq.rindex,
          shown := s.shown ++ [s.fq.queue s.fq.rindex] } := by
  simp [FrameQueueOp.step, frame_queue_pop, frame_queue_peek, av_frame_unref,
    VIDEO_PICTURE_QUEUE_SIZE]

theorem ringInv_display (s s1 : FrameQueueRun D) (pend : List (Frame D))
    (hinv : RingInv s pend) (h : FrameQueueOp.step s (.display : FrameQueueOp D) = some s1) :
    ∃ f rest, pend = f :: rest ∧ RingInv s1 rest ∧ s1.shown = s.shown ++ [f] := by
  obtain ⟨ha, hr0, hr3, hw, hsz, hle, hslots, hlive⟩ := hinv
  rw [display_step_eq s] at h
  split at h
  · exact absurd h (by simp)
  · rename_i hne
    simp only [Option.some.injEq] at h
    subst h
    cases pend with
    | nil => simp at hsz; exact absurd hsz hne
    | cons f rest =>
        have hf : s.fq.queue s.fq.rindex = f := by
          have h0 := hslots 0 (by simp)
          simp only [List.getElem?_cons_zero, Option.some.injEq, Nat.cast_zero, add_zero] at h0
          rw [h0]
          congr 1
          omega
        simp only [List.length_cons] at hsz hslots hlive
        push_cast at hsz
        refine ⟨f, rest, rfl, ⟨ha, ?_, ?_, ?_, ?_, ?_, ?_, ?_⟩, by simp [hf]⟩
        · simp only; split <;> omega
        · simp only; split <;> omega
        · simp only; split <;> omega
        · simp only; omega
        · simp only; omega
        · intro j hj
          have hj1 := hslots (j + 1) (by omega)
          simp only [List.getElem?_cons_succ] at hj1
          have hidx : ((if s.fq.rindex + 1 = 3 then 0 else s.fq.rindex + 1) + (j : Int)) % 3 =
              (s.fq.rindex + ((j + 1 : Nat) : Int)) % 3 := by
            push_cast; split <;> omega
          have hne2 : (s.fq.rindex + ((j + 1 : Nat) : Int)) % 3 ≠ s.fq.rindex := by
            push_cast; omega
          show rest[j]? = some (Function.update s.fq.queue s.fq.rindex _
            (((if s.fq.rindex + 1 = 3 then 0 else s.fq.rindex + 1) + (j : Int)) % 3))
          rw [hidx, Function.update_noteq hne2]
          exact hj1
        · simp only
          rw [hlive, List.range_succ_eq_map]
          have h0 : (s.fq.rindex + ((0 : Nat) : Int)) % 3 = s.fq.rindex := by
            push_cast; omega
          simp only [List.map_cons, List.map_map, h0, List.erase_cons_head]
          apply List.map_congr_left
          intro j _
          simp only [Function.comp, Nat.succ_eq_add_one]
          push_cast; split <;> omega

theorem ringInv_steps (ops : List (FrameQueueOp D)) (s s1 : FrameQueueRun D)
    (pend : List (Frame D)) (hinv : RingInv s pend)
    (hfree : FrameQueueOp.abortFree ops = true) (h : s.steps ops = some s1) :
    ∃ pend1, RingInv s1 pend1 ∧
      s.shown ++ pend ++ FrameQueueOp.pictures ops = s1.shown ++ pend1 := by
  induction ops generalizing s pend with
  | nil =>
      simp only [FrameQueueRun.steps, Option.some.injEq] at h
      subst h
      exact ⟨pend, hinv, by simp [FrameQueueOp.pictures]⟩
  | cons op ops ih =>
      simp only [FrameQueueRun.steps] at h
      cases hstep : FrameQueueOp.step s op with
      | none => simp [hstep] at h
      | some s2 =>
          simp only [hstep] at h
          cases op with
          | picture src pts dur pos =>
              obtain ⟨hinv2, hshown⟩ := ringInv_picture s s2 pend src pts dur pos hinv hstep
              obtain ⟨pend1, hinv1, heq⟩ := ih s2 _ hinv2 (by simpa [FrameQueueOp.abortFree] using hfree) h
              refine ⟨pend1, hinv1, ?_⟩
              rw [← heq, hshown]
              simp [FrameQueueOp.pictures]
          | display =>
              obtain ⟨f, rest, hpend, hinv2, hshown⟩ := ringInv_display s s2 pend hinv hstep
              obtain ⟨pend1, hinv1, heq⟩ := ih s2 _ hinv2 (by simpa [FrameQueueOp.abortFree] using hfree) h
              refine ⟨pend1, hinv1, ?_⟩
              rw [← heq, hshown, hpend]
              simp [FrameQueueOp.pictures]
          | abort => simp [FrameQueueOp.abortFree] at hfree

theorem ringInv_start [Zero D] : RingInv (FrameQueueRun.start : FrameQueueRun D) [] := by
  simp [RingInv, FrameQueueRun.start, frame_queue_init]

theorem frame_queue_invariant_without_abort [Zero D] (ops : List (FrameQueueOp D))
    (s : FrameQueueRun D) (hfree : FrameQueueOp.abortFree ops = true)
    (hrun : (FrameQueueRun.start : FrameQueueRun D).steps ops = some s) :
    0 ≤ s.fq.size ∧ s.fq.size ≤ VIDEO_PICTURE_QUEUE_SIZE ∧
    0 ≤ s.fq.rindex ∧ s.fq.rindex < VIDEO_PICTURE_QUEUE_SIZE ∧
    0 ≤ s.fq.windex ∧ s.fq.windex < VIDEO_PICTURE_QUEUE_SIZE ∧
    s.fq.windex = (s.fq.rindex + s.fq.size) % VIDEO_PICTURE_QUEUE_SIZE ∧
    (s.live.length : Int) = s.fq.size ∧ s.live.Nodup ∧
    (∀ i, frame_queue_peek_writable s.fq = some (some i) → i ∉ s.live) := by
  obtain ⟨pend, ⟨ha, hr0, hr3, hw, hsz, hle, _, hlive⟩, _⟩ :=
    ringInv_steps ops _ s [] ringInv_start hfree hrun
  have hn : pend.length ≤ 3 := by omega
  refine ⟨by omega, by simpa [VIDEO_PICTURE_QUEUE_SIZE] using hle, hr0,
    by simpa [VIDEO_PICTURE_QUEUE_SIZE] using hr3, by omega,
    by simp only [VIDEO_PICTURE_QUEUE_SIZE]; omega,
    by simpa [VIDEO_PICTURE_QUEUE_SIZE] using hw, by simp [hlive, hsz], ?_, ?_⟩
  · rw [hlive]
    refine List.Nodup.map_on ?_ (List.nodup_range _)
    intro x hx y hy hxy
    simp only [List.mem_range] at hx hy
    omega
  · intro i hi
    simp only [frame_queue_peek_writable, frame_queue_peek_writable_waits,
      VIDEO_PICTURE_QUEUE_SIZE, ha] at hi
    split at hi
    · exact absurd hi (by simp)
    · rename_i hnw
      simp only [ge_iff_le, decide_True, Bool.and_true, decide_eq_true_eq] at hnw
      simp only [Option.some.injEq] at hi
      rw [hlive, List.mem_map]
      rintro ⟨j, hj, hji⟩
      simp only [List.mem_range] at hj
      omega

/-- C7 against the code: three pictures fill the queue (slots 0, 1, 2 live,
`rindex = windex = 0`); after `frame_queue_abort` the writer is handed slot 0,
the oldest live slot, and its `frame_queue_push` takes `size` to 4, above
`VIDEO_PICTURE_QUEUE_SIZE`; the first picture is overwritten before it was
shown. -/
theorem frame_queue_abort_overwrites_live_slot :
    ((FrameQueueRun.start : FrameQueueRun Int).steps
        [samplePicture 1, samplePicture 2, samplePicture 3, .abort]).map
      (fun s => (s.fq.size, s.fq.rindex, s.live, frame_queue_peek_writable s.fq,
                 frame_queue_peek s.fq)) =
      some (3, 0, [0, 1, 2], some (some 0), pictureRecord (sampleFrame 1) 40 40 1000) ∧
    ((FrameQueueRun.start : FrameQueueRun Int).steps sampleAbortRun).map
      (fun s => (s.fq.size, s.fq.rindex, s.live, frame_queue_peek s.fq)) =
      some (4, 0, [0, 1, 2, 0], pictureRecord (sampleFrame 4) 160 40 4000) := by
  constructor <;> rfl

theorem frame_queue_peek_writable_of_abort (fq : FrameQueue D) (h : fq.abort ≠ 0) :
    frame_queue_peek_writable fq = some (some fq.windex) := by
  simp [frame_queue_peek_writable, frame_queue_peek_writable_waits, h]

theorem frame_queue_peek_writable_of_space (fq : FrameQueue D)
    (h : fq.size < VIDEO_PICTURE_QUEUE_SIZE) :
    frame_queue_peek_writable fq = some (some fq.windex) := by
  simp [frame_queue_peek_writable, frame_queue_peek_writable_waits, not_le.mpr h]

theorem frame_queue_peek_writable_ne_null (fq : FrameQueue D) :
    frame_queue_peek_writable fq ≠ some none := by
  unfold frame_queue_peek_writable
  split <;> simp

theorem queue_picture_ne_minus_one (fq : FrameQueue D) (src : AVFrame) (pts dur : D)
    (pos : Int) (fq1 : FrameQueue D) (f : AVFrame) :
    queue_picture fq src pts dur pos ≠ some (-1, fq1, f) := by
  intro h
  unfold queue_picture at h
  cases hp : frame_queue_peek_writable fq with
  | none => simp [hp] at h
  | some o =>
      cases o with
      | none => exact frame_queue_peek_writable_ne_null fq hp
      | some i => simp [hp] at h

/-- C8 against the code: on a full queue with the abort flag set,
`frame_queue_peek_writable` returns the slot at `windex` (slot 0, not `NULL`),
and `queue_picture` returns 0, having written the slot and pushed: `size` goes
from 3 to 4 and slot 0 now holds the new picture. -/
theorem queue_picture_ignores_abort :
    sampleFullAborted.abort = 1 ∧ sampleFullAborted.size = 3 ∧
    sampleFullAborted.windex = 0 ∧
    frame_queue_peek_writable sampleFullAborted = some (some 0) ∧
    (queue_picture sampleFullAborted (sampleFrame 4) 160 40 4000).map
      (fun r => (r.1, r.2.1.size, r.2.1.windex, r.2.1.queue 0, r.2.2)) =
      some (0, 4, 1, pictureRecord (sampleFrame 4) 160 40 4000, AVFrame.blank) := by
  decide

/-- C9: after three `frame_queue_push` calls on a freshly initialised queue the
wait condition of `frame_queue_peek_writable` holds, so neither it nor
`queue_picture` returns; after one `frame_queue_pop`, or after
`frame_queue_abort`, the condition is false and `frame_queue_peek_writable`
returns; and the condition is false in every state with
`size < VIDEO_PICTURE_QUEUE_SIZE`. -/
theorem frame_queue_full_blocks_writer [Zero D] :
    frame_queue_peek_writable_waits (frame_queue_filled : FrameQueue D) = true ∧
    frame_queue_peek_writable (frame_queue_filled : FrameQueue D) = none ∧
    (∀ src pts dur pos,
      queue_picture (frame_queue_filled : FrameQueue D) src pts dur pos = none) ∧
    frame_queue_peek_writable_waits (frame_queue_pop (frame_queue_filled : FrameQueue D))
      = false ∧
    (frame_queue_peek_writable (frame_queue_pop (frame_queue_filled : FrameQueue D))).isSome
      = true ∧
    frame_queue_peek_writable_waits (frame_queue_abort (frame_queue_filled : FrameQueue D))
      = false ∧
    (frame_queue_peek_writable (frame_queue_abort (frame_queue_filled : FrameQueue D))).isSome
      = true ∧
    ∀ fq : FrameQueue D, fq.size < VIDEO_PICTURE_QUEUE_SIZE →
      frame_queue_peek_writable_waits fq = false := by
  refine ⟨?_, ?_, ?_, ?_, ?_, ?_, ?_, ?_⟩
  · simp [frame_queue_filled, frame_queue_push, frame_queue_init,
      frame_queue_peek_writable_waits, VIDEO_PICTURE_QUEUE_SIZE]
  · simp [frame_queue_filled, frame_queue_push, frame_queue_init, frame_queue_peek_writable,
      frame_queue_peek_writable_waits, VIDEO_PICTURE_QUEUE_SIZE]
  · intro src pts dur pos
    simp [queue_picture, frame_queue_filled, frame_queue_push, frame_queue_init,
      frame_queue_peek_writable, frame_queue_peek_writable_waits, VIDEO_PICTURE_QUEUE_SIZE]
  · simp [frame_queue_filled, frame_queue_push, frame_queue_pop, frame_queue_init,
      frame_queue_peek_writable_waits, VIDEO_PICTURE_QUEUE_SIZE]
  · simp [frame_queue_filled, frame_queue_push, frame_queue_pop, frame_queue_init,
      frame_queue_peek_writable, frame_queue_peek_writable_waits, VIDEO_PICTURE_QUEUE_SIZE]
  · simp [frame_queue_filled, frame_queue_push, frame_queue_abort, frame_queue_init,
      frame_queue_peek_writable_waits, VIDEO_PICTURE_QUEUE_SIZE]
  · simp [frame_queue_filled, frame_queue_push, frame_queue_abort, frame_queue_init,
      frame_queue_peek_writable, frame_queue_peek_writable_waits, VIDEO_PICTURE_QUEUE_SIZE]
  · intro fq h
    simp [frame_queue_peek_writable_waits, not_le.mpr h]

theorem frame_queue_full_blocks_writer_witness :
    (frame_queue_push (frame_queue_push
        (frame_queue_init VIDEO_PICTURE_QUEUE_SIZE true true true).2 :
          FrameQueue Int)).size < VIDEO_PICTURE_QUEUE_SIZE ∧
    frame_queue_peek_writable_waits (frame_queue_push (frame_queue_push
        (frame_queue_init VIDEO_PICTURE_QUEUE_SIZE true true true).2 : FrameQueue Int))
      = false :=
  ⟨by decide,
   (frame_queue_full_blocks_writer (D := Int)).2.2.2.2.2.2.2 _ (by decide)⟩

/-- C10: in every run from a freshly initialised queue without abort, in which
the decoder enqueues with `queue_picture` (so only when it does not have to
wait) and the refresh timer peeks and pops only when `size` is not 0, the
frames returned by `frame_queue_peek` are, in order, the first of the frames
enqueued: the k-th frame peeked is the k-th frame pushed. -/
theorem frame_queue_shows_in_write_order [Zero D] (ops : List (FrameQueueOp D))
    (s : FrameQueueRun D) (hfree : FrameQueueOp.abortFree ops = true)
    (hrun : (FrameQueueRun.start : FrameQueueRun D).steps ops = some s) :
    s.shown <+: FrameQueueOp.pictures ops ∧
    ∀ k : Nat, k < s.shown.length → s.shown[k]? = (FrameQueueOp.pictures ops)[k]? := by
  obtain ⟨pend, _, heq⟩ := ringInv_steps ops _ s [] ringInv_start hfree hrun
  have heq1 : FrameQueueOp.pictures ops = s.shown ++ pend := by
    simpa [FrameQueueRun.start] using heq
  refine ⟨⟨pend, heq1.symm⟩, ?_⟩
  intro k hk
  rw [heq1, List.getElem?_append_left hk]

theorem frame_queue_shows_in_write_order_witness :
    FrameQueueOp.abortFree sampleRun = true ∧
    ∃ s, (FrameQueueRun.start : FrameQueueRun Int).steps sampleRun = some s ∧
      s.shown.length = 3 ∧ s.shown <+: FrameQueueOp.pictures sampleRun := by
  refine ⟨by decide, ?_⟩
  have hsome : ((FrameQueueRun.start : FrameQueueRun Int).steps sampleRun).isSome = true := by
    decide
  obtain ⟨s, hs⟩ := Option.isSome_iff_exists.mp hsome
  have hlen : ((FrameQueueRun.start : FrameQueueRun Int).steps sampleRun).map
      (fun s => s.shown.length) = some 3 := by decide
  refine ⟨s, hs, ?_, (frame_queue_shows_in_write_order sampleRun s (by decide) hs).1⟩
  simpa [hs] using hlen

end FrameQueueProofs

/-! ## Properties of the clocks and of the refresh timer -/

theorem get_audio_clock_value (is : VideoState) :
    (is.audio_st = true →
      is.audio_ctx.sample_rate * is.audio_ctx.nb_channels * 2 ≠ 0 →
      get_audio_clock is =
        CDouble.sub is.audio_clock
          (CDouble.div (CDouble.ofInt (is.audio_buf_size - is.audio_buf_index))
            (CDouble.ofInt (is.audio_ctx.sample_rate * is.audio_ctx.nb_channels * 2)))) ∧
    (is.audio_ctx.sample_rate * is.audio_ctx.nb_channels * 2 = 0 →
      get_audio_clock is = is.audio_clock) := by
  constructor
  · intro hst hne
    have hne' : is.audio_ctx.sample_rate * (is.audio_ctx.nb_channels * 2) ≠ 0 := by
      rwa [← mul_assoc]
    simp only [get_audio_clock, hst, if_true, ne_eq, hne', not_false_eq_true, mul_assoc]
  · intro hz
    have hz' : is.audio_ctx.sample_rate * (is.audio_ctx.nb_channels * 2) = 0 := by
      rwa [← mul_assoc]
    cases hst : is.audio_st <;> simp [get_audio_clock, hst, hz']

/-- C12: `get_audio_clock` returns
`audio_clock - (audio_buf_size - audio_buf_index) / (sample_rate * channels * 2)`
when the audio stream is set and that byte rate is not 0, and returns
`audio_clock` itself, without dividing, when the byte rate is 0. -/
theorem get_audio_clock_formula (is : VideoState) :
    (is.audio_st = true →
      is.audio_ctx.sample_rate * is.audio_ctx.nb_channels * 2 ≠ 0 →
      get_audio_clock is =
        CDouble.sub is.audio_clock
          (CDouble.div (CDouble.ofInt (is.audio_buf_size - is.audio_buf_index))
            (CDouble.ofInt (is.audio_ctx.sample_rate * is.audio_ctx.nb_channels * 2)))) ∧
    (is.audio_ctx.sample_rate * is.audio_ctx.nb_channels * 2 = 0 →
      get_audio_clock is = is.audio_clock) := by
  exact get_audio_clock_value is

theorem gt_sync_threshold_fin (d : ℚ) :
    CDouble.gt (.fin d) AV_SYNC_THRESHOLD = decide ((1 / 100 : ℚ) < d) := rfl

theorem sync_threshold_fin (d : ℚ) : sync_threshold (.fin d) = .fin (max d (1 / 100)) := by
  unfold sync_threshold
  rw [gt_sync_threshold_fin]
  by_cases h : (1 / 100 : ℚ) < d
  · rw [if_pos (decide_eq_true h), max_eq_left (le_of_lt h)]
  · rw [if_neg (by simpa using h), max_eq_right (not_lt.mp h)]
    rfl

theorem sync_threshold_pos (delay : CDouble) :
    CDouble.lt (.fin 0) (sync_threshold delay) = true := by
  cases delay with
  | nan => simp [sync_threshold, CDouble.gt, CDouble.lt, AV_SYNC_THRESHOLD]
  | ninf => simp [sync_threshold, CDouble.gt, CDouble.lt, AV_SYNC_THRESHOLD]
  | pinf => simp [sync_threshold, CDouble.gt, CDouble.lt, AV_SYNC_THRESHOLD]
  | fin d =>
      rw [sync_threshold_fin]
      simp only [CDouble.lt, decide_eq_true_eq]
      exact lt_of_lt_of_le (by norm_num) (le_max_right d (1 / 100))

theorem not_le_neg_and_ge (diff thr : CDouble) (hthr : CDouble.lt (.fin 0) thr = true) :
    ¬ (CDouble.le diff (CDouble.neg thr) = true ∧ CDouble.ge diff thr = true) := by
  cases thr <;> cases diff <;>
    simp_all [CDouble.le, CDouble.ge, CDouble.neg, CDouble.lt]
  intro h1
  linarith

theorem video_display_sync_fields (scr : Screen) (texture_ok : Bool) (is : VideoState) :
    (video_display scr texture_ok is).frame_timer = is.frame_timer ∧
    (video_display scr texture_ok is).frame_last_delay = is.frame_last_delay ∧
    (video_display scr texture_ok is).frame_last_pts = is.frame_last_pts := by
  unfold video_display video_open
  dsimp only
  split_ifs <;> exact ⟨rfl, rfl, rfl⟩

theorem video_refresh_timer_sync_delay_congr (is is1 : VideoState) (now : Int)
    (vp_pts delay : CDouble) (h1 : is1.av_sync_type = is.av_sync_type)
    (h2 : get_audio_clock is1 = get_audio_clock is) :
    video_refresh_timer_sync_delay is1 now vp_pts delay =
      video_refresh_timer_sync_delay is now vp_pts delay := by
  unfold video_refresh_timer_sync_delay
  by_cases hv : is.av_sync_type = AV_SYNC_VIDEO_MASTER
  · simp [h1, hv]
  · have hm : get_master_clock is1 now = get_master_clock is now := by
      simp [get_master_clock, h1, hv, h2, get_external_clock]
    simp only [h1, hm]

theorem video_refresh_timer_shows (scr : Screen) (texture_ok : Bool) (t1 t2 t3 : Int)
    (is : VideoState) (hst : is.video_st = true) (hsz : is.pictq.size ≠ 0) :
    (video_refresh_timer scr texture_ok t1 t2 t3 is).1.frame_last_delay =
      video_refresh_timer_nominal_delay is (frame_queue_peek is.pictq).pts ∧
    (video_refresh_timer scr texture_ok t1 t2 t3 is).1.frame_last_pts =
      (frame_queue_peek is.pictq).pts ∧
    (video_refresh_timer scr texture_ok t1 t2 t3 is).1.frame_timer =
      CDouble.add is.frame_timer
        (video_refresh_timer_sync_delay is t2 (frame_queue_peek is.pictq).pts
          (video_refresh_timer_nominal_delay is (frame_queue_peek is.pictq).pts)) := by
  have hc := video_refresh_timer_sync_delay_congr is
    { is with video_current_pts := (frame_queue_peek is.pictq).pts,
              video_current_pts_time := t1,
              frame_last_delay :=
                video_refresh_timer_nominal_delay is (frame_queue_peek is.pictq).pts,
              frame_last_pts := (frame_queue_peek is.pictq).pts }
    t2 (frame_queue_peek is.pictq).pts
    (video_refresh_timer_nominal_delay is (frame_queue_peek is.pictq).pts) rfl rfl
  unfold video_refresh_timer
  rw [if_pos hst, if_neg hsz]
  dsimp only
  refine ⟨?_, ?_, ?_⟩
  · rw [(video_display_sync_fields _ _ _).2.1]; rfl
  · rw [(video_display_sync_fields _ _ _).2.2]
  · rw [(video_display_sync_fields _ _ _).1]
    exact congrArg (CDouble.add is.frame_timer) hc

theorem video_refresh_timer_request_eq (scr : Screen) (texture_ok : Bool) (t1 t2 t3 : Int)
    (is : VideoState) (hst : is.video_st = true) (hsz : is.pictq.size ≠ 0) :
    (video_refresh_timer scr texture_ok t1 t2 t3 is).2 =
      CDouble.toInt (CDouble.add (CDouble.mul
        (if CDouble.lt
              (CDouble.sub (video_refresh_timer scr texture_ok t1 t2 t3 is).1.frame_timer
                (CDouble.div (CDouble.ofInt t3) (.fin 1000000)))
              (.fin (1 / 100)) = true
         then .fin (1 / 100)
         else CDouble.sub (video_refresh_timer scr texture_ok t1 t2 t3 is).1.frame_timer
                (CDouble.div (CDouble.ofInt t3) (.fin 1000000)))
        (.fin 1000)) (.fin (1 / 2))) := by
  unfold video_refresh_timer
  rw [if_pos hst, if_neg hsz]
  dsimp only
  rw [(video_display_sync_fields _ _ _).1]

theorem get_audio_clock_formula_witness :
    get_audio_clock
        { sampleState (.fin 1) (.fin 0) (.fin (1 / 25)) (.fin 2) (.fin 0) with
          audio_buf_size := 4096, audio_buf_index := 1024 } =
      CDouble.fin (2 - 3072 / 192000) ∧
    get_audio_clock
        { sampleState (.fin 1) (.fin 0) (.fin (1 / 25)) (.fin 2) (.fin 0) with
          audio_buf_size := 4096, audio_buf_index := 1024,
          audio_ctx := ⟨0, 2, AV_SAMPLE_FMT_S16, ⟨1, 48000⟩⟩ } = CDouble.fin 2 :=
  ⟨((get_audio_clock_formula _).1 rfl (by decide)).trans (by decide!),
   (get_audio_clock_formula _).2 (by decide)⟩

theorem sync_delay_unchanged_of_not (is : VideoState) (now : Int) (vp_pts delay : CDouble)
    (h : ¬ (CDouble.lt (CDouble.fabs (CDouble.sub vp_pts (get_master_clock is now)))
              AV_NOSYNC_THRESHOLD = true ∧
            (CDouble.le (CDouble.sub vp_pts (get_master_clock is now))
                (CDouble.neg (sync_threshold delay)) = true ∨
             CDouble.ge (CDouble.sub vp_pts (get_master_clock is now))
                (sync_threshold delay) = true))) :
    video_refresh_timer_sync_delay is now vp_pts delay = delay := by
  unfold video_refresh_timer_sync_delay
  dsimp only
  split_ifs <;> first | rfl | (exfalso; apply h; tauto)

theorem not_le_neg_of_fabs_lt (diff thr : CDouble)
    (h : CDouble.lt (CDouble.fabs diff) thr = true) :
    CDouble.le diff (CDouble.neg thr) = false ∧ CDouble.ge diff thr = false := by
  cases thr <;> cases diff <;>
    simp_all [CDouble.le, CDouble.ge, CDouble.neg, CDouble.lt, CDouble.fabs]
  rename_i t q
  have h1 := abs_lt.mp h
  exact ⟨by linarith, by linarith⟩

theorem sub_self_cases (p : CDouble) : CDouble.sub p p = .nan ∨ CDouble.sub p p = .fin 0 := by
  cases p <;> simp [CDouble.sub, CDouble.add, CDouble.neg]

/-- C14: the delay `video_refresh_timer` adds to `frame_timer` when it shows a
frame. With a sync type other than `AV_SYNC_VIDEO_MASTER`,
`diff = vp.pts - master clock` and `threshold = max(delay, 0.01)`: it is 0 when
`|diff| < 10` and `diff <= -threshold`; it is `2 * delay` when `|diff| < 10`
and `diff >= threshold`; it is the nominal delay in every other case, among
them `|diff| < threshold`, master clock equal to `vp.pts`, and not
`|diff| < 10`. With `AV_SYNC_VIDEO_MASTER` it is the nominal delay. -/
theorem video_refresh_timer_delay_cases (scr : Screen) (texture_ok : Bool) (t1 t2 t3 : Int)
    (is : VideoState) (hst : is.video_st = true) (hsz : is.pictq.size ≠ 0) :
    (video_refresh_timer scr texture_ok t1 t2 t3 is).1.frame_timer =
      CDouble.add is.frame_timer
        (video_refresh_timer_sync_delay is t2 (frame_queue_peek is.pictq).pts
          (video_refresh_timer_nominal_delay is (frame_queue_peek is.pictq).pts)) ∧
    (∀ d : ℚ, sync_threshold (.fin d) = .fin (max d (1 / 100))) ∧
    (∀ vp_pts delay : CDouble,
      (is.av_sync_type ≠ AV_SYNC_VIDEO_MASTER →
        (CDouble.lt (CDouble.fabs (CDouble.sub vp_pts (get_master_clock is t2)))
            AV_NOSYNC_THRESHOLD = true →
          CDouble.le (CDouble.sub vp_pts (get_master_clock is t2))
            (CDouble.neg (sync_threshold delay)) = true →
          video_refresh_timer_sync_delay is t2 vp_pts delay = .fin 0) ∧
        (CDouble.lt (CDouble.fabs (CDouble.sub vp_pts (get_master_clock is t2)))
            AV_NOSYNC_THRESHOLD = true →
          CDouble.ge (CDouble.sub vp_pts (get_master_clock is t2))
            (sync_threshold delay) = true →
          video_refresh_timer_sync_delay is t2 vp_pts delay = CDouble.mul (.fin 2) delay) ∧
        (¬ (CDouble.lt (CDouble.fabs (CDouble.sub vp_pts (get_master_clock is t2)))
              AV_NOSYNC_THRESHOLD = true ∧
            (CDouble.le (CDouble.sub vp_pts (get_master_clock is t2))
                (CDouble.neg (sync_threshold delay)) = true ∨
             CDouble.ge (CDouble.sub vp_pts (get_master_clock is t2))
                (sync_threshold delay) = true)) →
          video_refresh_timer_sync_delay is t2 vp_pts delay = delay) ∧
        (CDouble.lt (CDouble.fabs (CDouble.sub vp_pts (get_master_clock is t2)))
            (sync_threshold delay) = true →
          video_refresh_timer_sync_delay is t2 vp_pts delay = delay) ∧
        (get_master_clock is t2 = vp_pts →
          video_refresh_timer_sync_delay is t2 vp_pts delay = delay) ∧
        (CDouble.lt (CDouble.fabs (CDouble.sub vp_pts (get_master_clock is t2)))
            AV_NOSYNC_THRESHOLD = false →
          video_refresh_timer_sync_delay is t2 vp_pts delay = delay)) ∧
      (is.av_sync_type = AV_SYNC_VIDEO_MASTER →
        video_refresh_timer_sync_delay is t2 vp_pts delay = delay)) := by
  refine ⟨(video_refresh_timer_shows scr texture_ok t1 t2 t3 is hst hsz).2.2,
    sync_threshold_fin, ?_⟩
  intro vp_pts delay
  constructor
  · intro hne
    refine ⟨?_, ?_, sync_delay_unchanged_of_not is t2 vp_pts delay, ?_, ?_, ?_⟩
    · intro h1 h2
      simp [video_refresh_timer_sync_delay, hne, h1, h2]
    · intro h1 h2
      have h3 : CDouble.le (CDouble.sub vp_pts (get_master_clock is t2))
          (CDouble.neg (sync_threshold delay)) = false := by
        by_contra hc
        exact not_le_neg_and_ge _ _ (sync_threshold_pos delay)
          ⟨by simpa using hc, h2⟩
      simp [video_refresh_timer_sync_delay, hne, h1, h2, h3]
    · intro h
      apply sync_delay_unchanged_of_not
      have := not_le_neg_of_fabs_lt _ _ h
      simp [this.1, this.2]
    · intro h
      apply sync_delay_unchanged_of_not
      rw [h]
      rcases sub_self_cases vp_pts with h0 | h0
      · simp [h0, CDouble.fabs, CDouble.lt]
      · have hp := sync_threshold_pos delay
        have := not_le_neg_of_fabs_lt (.fin 0) (sync_threshold delay)
          (by simpa [CDouble.fabs] using hp)
        simp [h0, this.1, this.2]
    · intro h
      apply sync_delay_unchanged_of_not
      simp [h]
  · intro he
    simp [video_refresh_timer_sync_delay, he]

theorem video_refresh_timer_delay_cases_witness :
    (sampleState (.fin 1) (.fin (24 / 25)) (.fin (1 / 25)) (.fin 1) (.fin 100)).video_st
      = true ∧
    (sampleState (.fin 1) (.fin (24 / 25)) (.fin (1 / 25)) (.fin 1) (.fin 100)).pictq.size
      ≠ 0 ∧
    (video_refresh_timer sampleScreen true 0 0 0
        (sampleState (.fin 1) (.fin (24 / 25)) (.fin (1 / 25)) (.fin 1) (.fin 100))).1.frame_timer
      = .fin (100 + 1 / 25) :=
  ⟨rfl, by decide,
   ((video_refresh_timer_delay_cases sampleScreen true 0 0 0
      (sampleState (.fin 1) (.fin (24 / 25)) (.fin (1 / 25)) (.fin 1) (.fin 100))
      rfl (by decide)).1).trans (by decide!)⟩

/-- C15 as stated fails: with audio-master sync, master clock `vp.pts - 0.5`
and nominal delay 0.040 the threshold is 0.040 and `diff = vp.pts - ref` is
`+0.5`, so the delay becomes 0.080, not 0. -/
theorem video_refresh_timer_ahead_not_zero :
    sampleStateAhead.av_sync_type = AV_SYNC_AUDIO_MASTER ∧
    get_master_clock sampleStateAhead 0 =
      CDouble.sub (frame_queue_peek sampleStateAhead.pictq).pts (.fin (1 / 2)) ∧
    video_refresh_timer_nominal_delay sampleStateAhead
      (frame_queue_peek sampleStateAhead.pictq).pts = .fin (1 / 25) ∧
    video_refresh_timer_sync_delay sampleStateAhead 0
      (frame_queue_peek sampleStateAhead.pictq).pts (.fin (1 / 25)) = .fin (2 / 25) ∧
    video_refresh_timer_sync_delay sampleStateAhead 0
      (frame_queue_peek sampleStateAhead.pictq).pts (.fin (1 / 25)) ≠ .fin 0 ∧
    (video_refresh_timer sampleScreen true 0 0 0 sampleStateAhead).1.frame_timer =
      .fin (100 + 2 / 25) := by
  decide!

/-- C15, amended: with audio-master sync, when the master clock equals
`vp.pts - 0.5` and the nominal delay is 0.040, `video_refresh_timer` uses the
threshold 0.040 and sets the delay to 0.080 (`diff = +0.5`: the picture is
ahead of the clock). -/
theorem video_refresh_timer_ahead_of_clock (scr : Screen) (texture_ok : Bool)
    (t1 t2 t3 : Int) (is : VideoState) (v : ℚ)
    (hst : is.video_st = true) (hsz : is.pictq.size ≠ 0)
    (hsync : is.av_sync_type = AV_SYNC_AUDIO_MASTER)
    (hpts : (frame_queue_peek is.pictq).pts = .fin v)
    (href : get_master_clock is t2 = .fin (v - 1 / 2))
    (hdelay : video_refresh_timer_nominal_delay is (.fin v) = .fin (1 / 25)) :
    sync_threshold (.fin (1 / 25)) = .fin (1 / 25) ∧
    video_refresh_timer_sync_delay is t2 (.fin v) (.fin (1 / 25)) = .fin (2 / 25) ∧
    (video_refresh_timer scr texture_ok t1 t2 t3 is).1.frame_timer =
      CDouble.add is.frame_timer (.fin (2 / 25)) := by
  have hthr : sync_threshold (.fin (1 / 25)) = .fin (1 / 25) := by
    rw [sync_threshold_fin]; norm_num
  have hd : video_refresh_timer_sync_delay is t2 (.fin v) (.fin (1 / 25)) = .fin (2 / 25) := by
    unfold video_refresh_timer_sync_delay
    rw [if_pos (by rw [hsync]; decide)]
    simp only [href, hthr, CDouble.sub, CDouble.neg, CDouble.add, CDouble.fabs, CDouble.lt,
      CDouble.le, CDouble.ge, CDouble.mul, AV_NOSYNC_THRESHOLD]
    have e : v + -(v - 1 / 2) = 1 / 2 := by ring
    rw [e]
    norm_num [abs_lt]
  refine ⟨hthr, hd, ?_⟩
  rw [(video_refresh_timer_shows scr texture_ok t1 t2 t3 is hst hsz).2.2, hpts, hdelay, hd]

theorem video_refresh_timer_ahead_of_clock_witness :
    (video_refresh_timer sampleScreen true 0 0 0 sampleStateAhead).1.frame_timer =
      CDouble.add sampleStateAhead.frame_timer (.fin (2 / 25)) :=
  (video_refresh_timer_ahead_of_clock sampleScreen true 0 0 0 sampleStateAhead 1
    rfl (by decide) rfl (by decide!) (by decide!) (by decide!)).2.2

/-- C16 as stated fails: with audio-master sync, master clock `vp.pts + 0.5`
and nominal delay 0.040, `diff = vp.pts - ref` is `-0.5`, so the delay becomes
0, not 0.080. -/
theorem video_refresh_timer_behind_not_doubled :
    sampleStateBehind.av_sync_type = AV_SYNC_AUDIO_MASTER ∧
    get_master_clock sampleStateBehind 0 =
      CDouble.add (frame_queue_peek sampleStateBehind.pictq).pts (.fin (1 / 2)) ∧
    video_refresh_timer_nominal_delay sampleStateBehind
      (frame_queue_peek sampleStateBehind.pictq).pts = .fin (1 / 25) ∧
    video_refresh_timer_sync_delay sampleStateBehind 0
      (frame_queue_peek sampleStateBehind.pictq).pts (.fin (1 / 25)) = .fin 0 ∧
    video_refresh_timer_sync_delay sampleStateBehind 0
      (frame_queue_peek sampleStateBehind.pictq).pts (.fin (1 / 25)) ≠ .fin (2 / 25) ∧
    (video_refresh_timer sampleScreen true 0 0 0 sampleStateBehind).1.frame_timer =
      .fin 100 := by
  decide!

/-- C16, amended: with audio-master sync, when the master clock equals
`vp.pts + 0.5` and the nominal delay is 0.040, `video_refresh_timer` sets the
delay to 0 (`diff = -0.5`: the picture is late). -/
theorem video_refresh_timer_behind_clock (scr : Screen) (texture_ok : Bool)
    (t1 t2 t3 : Int) (is : VideoState) (v : ℚ)
    (hst : is.video_st = true) (hsz : is.pictq.size ≠ 0)
    (hsync : is.av_sync_type = AV_SYNC_AUDIO_MASTER)
    (hpts : (frame_queue_peek is.pictq).pts = .fin v)
    (href : get_master_clock is t2 = .fin (v + 1 / 2))
    (hdelay : video_refresh_timer_nominal_delay is (.fin v) = .fin (1 / 25)) :
    video_refresh_timer_sync_delay is t2 (.fin v) (.fin (1 / 25)) = .fin 0 ∧
    (video_refresh_timer scr texture_ok t1 t2 t3 is).1.frame_timer =
      CDouble.add is.frame_timer (.fin 0) := by
  have hthr : sync_threshold (.fin (1 / 25)) = .fin (1 / 25) := by
    rw [sync_threshold_fin]; norm_num
  have hd : video_refresh_timer_sync_delay is t2 (.fin v) (.fin (1 / 25)) = .fin 0 := by
    unfold video_refresh_timer_sync_delay
    rw [if_pos (by rw [hsync]; decide)]
    simp only [href, hthr, CDouble.sub, CDouble.neg, CDouble.add, CDouble.fabs, CDouble.lt,
      CDouble.le, CDouble.ge, CDouble.mul, AV_NOSYNC_THRESHOLD]
    have e : v + -(v + 1 / 2) = -(1 / 2) := by ring
    rw [e]
    norm_num [abs_lt]
  refine ⟨hd, ?_⟩
  rw [(video_refresh_timer_shows scr texture_ok t1 t2 t3 is hst hsz).2.2, hpts, hdelay, hd]

theorem video_refresh_timer_behind_clock_witness :
    (video_refresh_timer sampleScreen true 0 0 0 sampleStateBehind).1.frame_timer =
      CDouble.add sampleStateBehind.frame_timer (.fin 0) :=
  (video_refresh_timer_behind_clock sampleScreen true 0 0 0 sampleStateBehind 1
    rfl (by decide) rfl (by decide!) (by decide!) (by decide!)).2

/-- C17 as stated fails: with `frame_last_pts = 0` and a prior
`frame_last_delay` of 0.1, showing a frame with timestamp 0.040 leaves
`frame_last_delay` at 0.1, not 0.040. -/
theorem video_refresh_timer_first_frame_keeps_delay :
    sampleStateFirst.frame_last_pts = .fin 0 ∧
    (frame_queue_peek sampleStateFirst.pictq).pts = .fin (1 / 25) ∧
    (video_refresh_timer sampleScreen true 0 0 0 sampleStateFirst).1.frame_last_delay =
      .fin (1 / 10) ∧
    (video_refresh_timer sampleScreen true 0 0 0 sampleStateFirst).1.frame_last_delay ≠
      .fin (1 / 25) := by
  decide!

/-- C17, amended: given `frame_last_pts = 0`, a `video_refresh_timer` call
that shows a frame (with timestamp 0.040, or any other) leaves
`frame_last_delay` at its prior value, whatever that is, and sets
`frame_last_pts` to the timestamp of the frame. -/
theorem video_refresh_timer_first_frame (scr : Screen) (texture_ok : Bool)
    (t1 t2 t3 : Int) (is : VideoState)
    (hst : is.video_st = true) (hsz : is.pictq.size ≠ 0)
    (hlast : is.frame_last_pts = .fin 0) :
    (video_refresh_timer scr texture_ok t1 t2 t3 is).1.frame_last_delay =
      is.frame_last_delay ∧
    (video_refresh_timer scr texture_ok t1 t2 t3 is).1.frame_last_pts =
      (frame_queue_peek is.pictq).pts := by
  obtain ⟨h1, h2, _⟩ := video_refresh_timer_shows scr texture_ok t1 t2 t3 is hst hsz
  refine ⟨?_, h2⟩
  rw [h1]
  simp [video_refresh_timer_nominal_delay, hlast, CDouble.eq, CDouble.le]

theorem video_refresh_timer_first_frame_witness :
    (video_refresh_timer sampleScreen true 0 0 0
        (sampleState (.fin (1 / 25)) (.fin 0) (.fin (1 / 25)) (.fin 0) (.fin 100))).1.frame_last_delay
      = .fin (1 / 25) ∧
    (video_refresh_timer sampleScreen true 0 0 0
        (sampleState (.fin (1 / 25)) (.fin 0) (.fin (1 / 25)) (.fin 0) (.fin 100))).1.frame_last_pts
      = .fin (1 / 25) :=
  ⟨(video_refresh_timer_first_frame sampleScreen true 0 0 0
      (sampleState (.fin (1 / 25)) (.fin 0) (.fin (1 / 25)) (.fin 0) (.fin 100))
      rfl (by decide) rfl).1,
   ((video_refresh_timer_first_frame sampleScreen true 0 0 0
      (sampleState (.fin (1 / 25)) (.fin 0) (.fin (1 / 25)) (.fin 0) (.fin 100))
      rfl (by decide) rfl).2).trans (by decide!)⟩

/-- C18 as stated fails: when the queued frame has no timestamp (NaN), the
delay, `frame_timer` and the actual delay are NaN, the test
`actual_delay < 0.010` is false, nothing is clamped, and the conversion of the
refresh time to `int` is undefined: there is no refresh time `>= 10`. -/
theorem video_refresh_timer_nan_not_clamped :
    (frame_queue_peek sampleStateNoPts.pictq).pts = .nan ∧
    (video_refresh_timer sampleScreen true 0 0 0 sampleStateNoPts).1.frame_timer = .nan ∧
    (video_refresh_timer sampleScreen true 0 0 0 sampleStateNoPts).2 = none ∧
    ¬ ∃ ms : Int, (video_refresh_timer sampleScreen true 0 0 0 sampleStateNoPts).2 = some ms ∧
        10 ≤ ms := by
  refine ⟨by decide!, by decide!, by decide!, ?_⟩
  rintro ⟨ms, h, _⟩
  have hn : (video_refresh_timer sampleScreen true 0 0 0 sampleStateNoPts).2 = none := by
    decide!
  rw [hn] at h
  exact absurd h (by simp)

theorem toInt_round_of_nonneg (q : ℚ) (h0 : 0 ≤ q) (h1 : q < 2147483648) :
    CDouble.toInt (.fin q) = some ⌊q⌋ := by
  have hf0 : (0 : Int) ≤ ⌊q⌋ := Int.floor_nonneg.mpr h0
  have hf1 : ⌊q⌋ < 2147483648 := Int.floor_lt.mpr (by exact_mod_cast h1)
  simp only [CDouble.toInt, CDouble.truncate, if_pos h0]
  rw [if_pos (by constructor <;> omega)]

/-- C18, amended: whenever `video_refresh_timer` shows a frame, `frame_timer`
is increased by the corrected delay; when `actual = frame_timer - now` is a
finite number `a` with `max(a, 0.010) * 1000 + 0.5 < 2^31`, the next refresh is
armed after `floor(max(a, 0.010) * 1000 + 0.5)` ms, which is `>= 10`; when
`actual` is minus infinity it is armed after 10 ms. -/
theorem video_refresh_timer_request (scr : Screen) (texture_ok : Bool)
    (t1 t2 t3 : Int) (is : VideoState)
    (hst : is.video_st = true) (hsz : is.pictq.size ≠ 0) :
    (video_refresh_timer scr texture_ok t1 t2 t3 is).1.frame_timer =
      CDouble.add is.frame_timer
        (video_refresh_timer_sync_delay is t2 (frame_queue_peek is.pictq).pts
          (video_refresh_timer_nominal_delay is (frame_queue_peek is.pictq).pts)) ∧
    (∀ a : ℚ,
      CDouble.sub (video_refresh_timer scr texture_ok t1 t2 t3 is).1.frame_timer
          (CDouble.div (CDouble.ofInt t3) (.fin 1000000)) = .fin a →
      max a (1 / 100) * 1000 + 1 / 2 < 2147483648 →
      (video_refresh_timer scr texture_ok t1 t2 t3 is).2 =
          some ⌊max a (1 / 100) * 1000 + 1 / 2⌋ ∧
        10 ≤ ⌊max a (1 / 100) * 1000 + 1 / 2⌋) ∧
    (CDouble.sub (video_refresh_timer scr texture_ok t1 t2 t3 is).1.frame_timer
          (CDouble.div (CDouble.ofInt t3) (.fin 1000000)) = .ninf →
      (video_refresh_timer scr texture_ok t1 t2 t3 is).2 = some 10) := by
  refine ⟨(video_refresh_timer_shows scr texture_ok t1 t2 t3 is hst hsz).2.2, ?_, ?_⟩
  · intro a ha hlt
    have hmax : (1 / 100 : ℚ) ≤ max a (1 / 100) := le_max_right _ _
    have hq : (10 : ℚ) ≤ max a (1 / 100) * 1000 + 1 / 2 := by linarith
    have hclamp : (if CDouble.lt (.fin a) (.fin (1 / 100)) = true then CDouble.fin (1 / 100)
        else CDouble.fin a) = CDouble.fin (max a (1 / 100)) := by
      by_cases hc : a < 1 / 100
      · rw [if_pos (by simpa [CDouble.lt] using hc), max_eq_right (le_of_lt hc)]
      · rw [if_neg (by simpa [CDouble.lt] using hc), max_eq_left (not_lt.mp hc)]
    rw [video_refresh_timer_request_eq scr texture_ok t1 t2 t3 is hst hsz, ha, hclamp]
    simp only [CDouble.mul, CDouble.add]
    rw [toInt_round_of_nonneg _ (by linarith) hlt]
    exact ⟨rfl, Int.le_floor.mpr (by exact_mod_cast hq)⟩
  · intro ha
    rw [video_refresh_timer_request_eq scr texture_ok t1 t2 t3 is hst hsz, ha]
    decide!

theorem video_refresh_timer_request_witness :
    (video_refresh_timer sampleScreen true 0 0 0 sampleStateBehind).2 = some 100000 ∧
    (video_refresh_timer sampleScreen true 0 0 200000000 sampleStateBehind).2 = some 10 :=
  ⟨(((video_refresh_timer_request sampleScreen true 0 0 0 sampleStateBehind
        rfl (by decide)).2.1 100 (by decide!) (by norm_num)).1).trans
      (congrArg some (by norm_num)),
   (((video_refresh_timer_request sampleScreen true 0 0 200000000 sampleStateBehind
        rfl (by decide)).2.1 (-100) (by decide!) (by norm_num)).1).trans
      (congrArg some (by norm_num))⟩

/-! ## Properties of the audio path -/

section AudioProofs

variable {σ : Type}

theorem audio_decode_frame_received_audioq (lib : AudioLib σ) (dec : σ) (is : VideoState)
    (r : Int × VideoState) (h : audio_decode_frame_received lib dec is = some r) :
    r.2.audioq = is.audioq := by
  unfold audio_decode_frame_received at h
  dsimp only at h
  split at h
  · exact absurd h (by simp)
  · rename_i r0 hr0
    simp only [Option.some.injEq] at h
    subst h
    dsimp only
    split_ifs at hr0
    all_goals first
      | (split at hr0
         · exact absurd hr0 (by simp)
         · simp only [Option.some.injEq] at hr0
           subst hr0
           rfl)
      | (simp only [Option.some.injEq] at hr0
         subst hr0
         rfl)

theorem audio_decode_frame_loop_audioq (lib : AudioLib σ) (fuel : Nat) (ret : Int) (dec : σ)
    (is : VideoState) (r : Int × σ × VideoState)
    (h : audio_decode_frame_loop lib fuel ret dec is = some r) :
    r.2.2.audioq.pkt_list.length ≤ is.audioq.pkt_list.length ∧
    (ret < 0 → 0 ≤ r.1 → r.2.2.audioq.pkt_list.length < is.audioq.pkt_list.length) := by
  induction fuel generalizing ret dec is with
  | zero =>
      simp only [audio_decode_frame_loop, Option.some.injEq] at h
      subst h
      exact ⟨le_refl _, fun h1 h2 => absurd h2 (by simp only; omega)⟩
  | succ fuel ih =>
      cases hq : is.audioq.pkt_list with
      | nil =>
          simp only [audio_decode_frame_loop, packet_queue_get, av_fifo_read, hq, if_true,
            le_refl, Option.some.injEq] at h
          subst h
          refine ⟨by simp [hq], fun h1 h2 => absurd h2 (by simp only; omega)⟩
      | cons p rest =>
          have h10 : ¬ ((1 : Int) ≤ 0) := by decide
          simp only [audio_decode_frame_loop, packet_queue_get, av_fifo_read, hq, h10,
            if_false] at h
          split_ifs at h with h1 h2 h3
          · simp only [Option.some.injEq] at h
            subst h
            exact ⟨by simp, fun _ hh => absurd hh (by simp only; omega)⟩
          · have hi := ih _ _ _ h
            simp only [List.length_cons] at hi ⊢
            exact ⟨by omega, fun _ _ => by omega⟩
          · simp only [Option.some.injEq] at h
            subst h
            exact ⟨by simp, fun _ hh => absurd hh (by simp only; omega)⟩
          · split at h
            · exact absurd h (by simp)
            · rename_i r0 hr0
              simp only [Option.some.injEq] at h
              subst h
              have := audio_decode_frame_received_audioq lib _ _ r0 hr0
              simp only [this, List.length_cons]
              exact ⟨by omega, fun _ _ => by omega⟩

theorem audio_decode_frame_loop_fuel (lib : AudioLib σ) (fuel : Nat) (ret : Int) (dec : σ)
    (is : VideoState) (h : is.audioq.pkt_list.length < fuel) :
    audio_decode_frame_loop lib fuel ret dec is =
      audio_decode_frame_loop lib (is.audioq.pkt_list.length + 1) ret dec is := by
  induction fuel generalizing ret dec is with
  | zero => omega
  | succ fuel ih =>
      cases hq : is.audioq.pkt_list with
      | nil =>
          simp [audio_decode_frame_loop, packet_queue_get, av_fifo_read, hq]
      | cons p rest =>
          rw [hq] at h
          simp only [List.length_cons] at h
          have h10 : ¬ ((1 : Int) ≤ 0) := by decide
          simp only [List.length_cons, audio_decode_frame_loop, packet_queue_get,
            av_fifo_read, hq, h10, if_false]
          split_ifs with h1 h2 h3
          · rfl
          · rw [ih _ _ _ (by simpa using (by omega : rest.length < fuel))]
            rfl
          · rfl
          · rfl

theorem sdl_audio_callback_refill_spec (lib : AudioLib σ) (dec : σ) (is : VideoState)
    (r : Int × σ × VideoState) (h : sdl_audio_callback_refill lib dec is = some r) :
    r.2.2.audio_buf_index = 0 ∧
    (r.1 < 0 → r.2.2.audio_buf_size = SDL_AUDIO_BUFFER_SIZE ∧ r.2.2.audio_buf = none) ∧
    (0 ≤ r.1 → r.2.2.audio_buf_size = r.1 ∧
      r.2.2.audioq.pkt_list.length < is.audioq.pkt_list.length) ∧
    r.2.2.audioq.pkt_list.length ≤ is.audioq.pkt_list.length := by
  unfold sdl_audio_callback_refill at h
  split at h
  · exact absurd h (by simp)
  · rename_i r0 hr0
    have hl := audio_decode_frame_loop_audioq lib _ (-1) dec is r0 hr0
    simp only [Option.some.injEq] at h
    subst h
    dsimp only
    refine ⟨rfl, ?_, ?_, ?_⟩
    · intro hneg
      rw [if_pos hneg]
      exact ⟨rfl, rfl⟩
    · intro hpos
      rw [if_neg (by omega)]
      exact ⟨rfl, hl.2 (by decide) hpos⟩
    · split_ifs <;> exact hl.1

theorem memcpy_from_length (buf : List Nat) (index len1 : Int) :
    (memcpy_from buf index len1).length = len1.toNat := by
  simp [memcpy_from]

theorem memset_zero_spec (len1 : Int) :
    (memset_zero len1).length = len1.toNat ∧ ∀ b ∈ memset_zero len1, b = 0 := by
  simp only [memset_zero, List.length_replicate, true_and]
  intro b hb
  exact (List.mem_replicate.mp hb).2

theorem sdl_audio_callback_pass_spec (lib : AudioLib σ) (dec : σ) (is : VideoState) (len : Int)
    (hlen : 0 < len) (p : σ × VideoState × Int × AudioChunk)
    (h : sdl_audio_callback_pass lib dec is len = some p) :
    (p.2.2.1.toNat + p.2.2.2.bytes.length = len.toNat) ∧
    (p.2.2.1.toNat + p.2.1.audioq.pkt_list.length < len.toNat + is.audioq.pkt_list.length) ∧
    (p.2.2.2.copied = false → ∀ b ∈ p.2.2.2.bytes, b = 0) ∧
    (∀ r, p.2.2.2.decode_ret = some r → r < 0 →
      p.2.2.2.index = 0 ∧ p.2.2.2.copied = false) := by
  unfold sdl_audio_callback_pass at h
  by_cases hidx : is.audio_buf_index ≥ is.audio_buf_size
  · simp only [if_pos hidx] at h
    cases hre : sdl_audio_callback_refill lib dec is with
    | none => simp [hre] at h
    | some r =>
        obtain ⟨hr0, hrneg, hrpos, hrle⟩ := sdl_audio_callback_refill_spec lib dec is r hre
        simp only [hre, Option.some.injEq] at h
        subst h
        by_cases hneg : r.1 < 0
        · obtain ⟨hsz, hbuf⟩ := hrneg hneg
          simp only [hr0, hsz, hbuf, sub_zero, SDL_AUDIO_BUFFER_SIZE]
          have hms := memset_zero_spec (if (1024 : Int) > len then len else 1024)
          refine ⟨?_, ?_, fun _ => hms.2, fun _ _ _ => by simp⟩
          · rw [hms.1]; split_ifs <;> omega
          · split_ifs <;> omega
        · obtain ⟨hsz, hq⟩ := hrpos (by omega)
          simp only [hr0, hsz, sub_zero]
          cases hb : r.2.2.audio_buf with
          | none =>
              have hms := memset_zero_spec (if r.1 > len then len else r.1)
              simp only []
              refine ⟨?_, ?_, fun _ => hms.2, fun r1 hr1 hlt => ?_⟩
              · rw [hms.1]; split_ifs <;> omega
              · split_ifs <;> omega
              · simp only [Option.some.injEq] at hr1
                omega
          | some buf =>
              simp only []
              refine ⟨?_, ?_, fun hc => absurd hc (by simp), fun r1 hr1 hlt => ?_⟩
              · rw [memcpy_from_length]; split_ifs <;> omega
              · split_ifs <;> omega
              · simp only [Option.some.injEq] at hr1
                omega
  · simp only [if_neg hidx, Option.some.injEq] at h
    subst h
    cases hb : is.audio_buf with
    | none =>
        have hms := memset_zero_spec
          (if is.audio_buf_size - is.audio_buf_index > len then len
            else is.audio_buf_size - is.audio_buf_index)
        simp only []
        refine ⟨?_, ?_, fun _ => hms.2, fun r hr _ => absurd hr (by simp)⟩
        · rw [hms.1]; split_ifs <;> omega
        · split_ifs <;> omega
    | some buf =>
        simp only []
        refine ⟨?_, ?_, fun hc => absurd hc (by simp), fun r hr _ => absurd hr (by simp)⟩
        · rw [memcpy_from_length]; split_ifs <;> omega
        · split_ifs <;> omega

theorem sdl_audio_callback_loop_enough (lib : AudioLib σ) (fuel : Nat) (dec : σ)
    (is : VideoState) (len : Int) (hfuel : len.toNat + is.audioq.pkt_list.length ≤ fuel)
    (extra : Nat) :
    sdl_audio_callback_loop lib (fuel + extra) dec is len =
      sdl_audio_callback_loop lib fuel dec is len := by
  induction fuel generalizing dec is len with
  | zero =>
      have hle : len ≤ 0 := by omega
      unfold sdl_audio_callback_loop
      rw [if_pos hle, if_pos hle]
  | succ fuel ih =>
      by_cases hle : len ≤ 0
      · unfold sdl_audio_callback_loop
        rw [if_pos hle, if_pos hle]
      · rw [Nat.add_right_comm]
        rw [sdl_audio_callback_loop, sdl_audio_callback_loop, if_neg hle, if_neg hle]
        cases hp : sdl_audio_callback_pass lib dec is len with
        | none => rfl
        | some p =>
            obtain ⟨_, hmeasure, _, _⟩ :=
              sdl_audio_callback_pass_spec lib dec is len (by omega) p hp
            dsimp only
            rw [ih p.1 p.2.1 p.2.2.1 (by omega)]

theorem sdl_audio_callback_loop_spec (lib : AudioLib σ) (fuel : Nat) (dec : σ) (is : VideoState)
    (len : Int) (r : σ × VideoState × List AudioChunk)
    (h : sdl_audio_callback_loop lib fuel dec is len = some r) :
    (AudioChunk.stream r.2.2).length = len.toNat ∧
    ∀ c ∈ r.2.2,
      (c.copied = false → ∀ b ∈ c.bytes, b = 0) ∧
      (∀ ret, c.decode_ret = some ret → ret < 0 → c.index = 0 ∧ c.copied = false) := by
  induction fuel generalizing dec is len r with
  | zero =>
      unfold sdl_audio_callback_loop at h
      by_cases hle : len ≤ 0
      · rw [if_pos hle] at h
        simp only [Option.some.injEq] at h
        subst h
        refine ⟨?_, by simp⟩
        simp [AudioChunk.stream]
        omega
      · rw [if_neg hle] at h
        exact absurd h (by simp)
  | succ fuel ih =>
      rw [sdl_audio_callback_loop] at h
      by_cases hle : len ≤ 0
      · rw [if_pos hle] at h
        simp only [Option.some.injEq] at h
        subst h
        refine ⟨?_, by simp⟩
        simp [AudioChunk.stream]
        omega
      · rw [if_neg hle] at h
        cases hp : sdl_audio_callback_pass lib dec is len with
        | none => simp [hp] at h
        | some p =>
            obtain ⟨hbytes, _, hzero, hidx⟩ :=
              sdl_audio_callback_pass_spec lib dec is len (by omega) p hp
            simp only [hp] at h
            cases hrec : sdl_audio_callback_loop lib fuel p.1 p.2.1 p.2.2.1 with
            | none => simp [hrec] at h
            | some r1 =>
                obtain ⟨hlen1, hall1⟩ := ih p.1 p.2.1 p.2.2.1 r1 hrec
                simp only [hrec, Option.some.injEq] at h
                subst h
                refine ⟨?_, ?_⟩
                · simp only [AudioChunk.stream, List.map_cons, List.flatten_cons,
                    List.length_append] at hlen1 ⊢
                  rw [hlen1]
                  omega
                · intro c hc
                  rcases List.mem_cons.mp hc with hc | hc
                  · subst hc
                    exact ⟨hzero, hidx⟩
                  · exact hall1 c hc

theorem sdl_audio_callback_returns_filled (lib : AudioLib σ) (dec : σ) (is : VideoState)
    (len : Int) (hlen : 0 < len) :
    (∀ extra : Nat,
      sdl_audio_callback_loop lib (len.toNat + is.audioq.pkt_list.length + extra) dec is len =
        sdl_audio_callback lib dec is len) ∧
    ∀ r, sdl_audio_callback lib dec is len = some r →
      ((AudioChunk.stream r.2.2).length : Int) = len ∧
      ∀ c ∈ r.2.2,
        (c.copied = false → ∀ b ∈ c.bytes, b = 0) ∧
        (∀ ret, c.decode_ret = some ret → ret < 0 → c.index = 0 ∧ c.copied = false) := by
  refine ⟨fun extra => sdl_audio_callback_loop_enough lib _ dec is len (le_refl _) extra, ?_⟩
  intro r hr
  obtain ⟨h1, h2⟩ := sdl_audio_callback_loop_spec lib _ dec is len r hr
  refine ⟨?_, h2⟩
  rw [h1]
  omega

end AudioProofs

/-- C11 against the code: a callback that finds `audioq` empty plays 1024
bytes of silence and leaves `audio_buf = NULL` with `audio_buf_size = 1024`;
when the next packet then decodes to a mono frame of 256 samples, the scratch
buffer asked for is `(256 + 256) * 2 = 1024` bytes, `av_fast_malloc` is called
with a `NULL` buffer and `0 < min_size <= size`, its assertion fails and the
process is aborted in the first pass of the callback: no byte is written. -/
theorem sdl_audio_callback_aborts_after_underrun :
    (sdl_audio_callback sampleAudioLibMono 0 sampleAudioIdle 1024).map
        (fun r => (r.2.1.audio_buf, r.2.1.audio_buf_size, r.2.1.audio_buf_index)) =
      some (none, 1024, 1024) ∧
    (sdl_audio_callback sampleAudioLibMono 0 sampleAudioIdle 1024).map
        (fun r => r.2.2.map (fun c => (c.decode_ret, c.copied, c.bytes.length))) =
      some [(some (-1), false, 1024)] ∧
    av_samples_get_buffer_size 1 (256 + 256) = 1024 ∧
    av_fast_malloc none 1024 1024 true = none ∧
    ((sdl_audio_callback sampleAudioLibMono 0 sampleAudioIdle 1024).bind
        (fun r => audio_decode_frame sampleAudioLibMono r.1 (withAudioPacket r.2.1))).isSome
      = false ∧
    ((sdl_audio_callback sampleAudioLibMono 0 sampleAudioIdle 1024).bind
        (fun r => sdl_audio_callback_pass sampleAudioLibMono r.1 (withAudioPacket r.2.1) 4)).isSome
      = false ∧
    ((sdl_audio_callback sampleAudioLibMono 0 sampleAudioIdle 1024).bind
        (fun r => sdl_audio_callback sampleAudioLibMono r.1 (withAudioPacket r.2.1) 4)).isSome
      = false := by
  refine ⟨by decide!, by decide!, by decide!, by decide!, by decide!, by decide!, by decide!⟩

/-- C13 against the code: right after the refill from a frame of 1024 stereo
samples at 48 kHz (`audio_decode_frame` returned 4096, so
`audio_buf_size = 4096` and `audio_buf_index = 0`), `get_audio_clock` returns
the integer `pts` of the frame as it is: 90000 for a frame that, in a stream
with time base 1/48000, lies at 1.875 s, and `-9223372036854775808` for a
frame without a pts. -/
theorem get_audio_clock_after_refill_raw_pts :
    (sdl_audio_callback_refill (sampleAudioLibAt 90000 1024 48000 1024) 0
        (sampleAudioState 48000)).map
        (fun r => (r.1, r.2.2.audio_buf_size, r.2.2.audio_buf_index, get_audio_clock r.2.2)) =
      some (4096, 4096, 0, .fin 90000) ∧
    CDouble.mul (CDouble.ofInt 90000) (av_q2d ⟨1, 48000⟩) = .fin (15 / 8) ∧
    (sdl_audio_callback_refill (sampleAudioLibAt AV_NOPTS_VALUE 1024 48000 1024) 0
        (sampleAudioState 48000)).map
        (fun r => (r.1, r.2.2.audio_buf_size, r.2.2.audio_buf_index, get_audio_clock r.2.2)) =
      some (4096, 4096, 0, .fin (-9223372036854775808)) := by
  refine ⟨by decide!, by decide!, by decide!⟩

/-! ## Properties of the reader -/

theorem read_thread_exit_fields (is : VideoState) (reads : Nat) (ret : Int) :
    (read_thread_exit is reads ret).is.audioq = is.audioq ∧
    (read_thread_exit is reads ret).is.videoq = is.videoq := ⟨rfl, rfl⟩

theorem read_thread_wait_spec (es : List ReadPass) (is : VideoState) (reads : Nat) :
    ((read_thread_wait is reads es).status = .waiting ∨
      (read_thread_wait is reads es).status = .returned 0 []) ∧
    (read_thread_wait is reads es).is.audioq = is.audioq ∧
    (read_thread_wait is reads es).is.videoq = is.videoq ∧
    (read_thread_wait is reads es).reads = reads := by
  induction es generalizing is with
  | nil => exact ⟨Or.inl rfl, rfl, rfl, rfl⟩
  | cons e es ih =>
      unfold read_thread_wait
      split_ifs with h
      · exact ⟨Or.inr rfl, rfl, rfl, rfl⟩
      · exact ih _

theorem packet_queue_put_size_le (q : PacketQueue) (p : AVPacket) (a g : Bool) (bound : Int)
    (hp : p.size ≤ bound) (hb : 0 ≤ bound + sizeof_MyAVPacketList) :
    (packet_queue_put q p a g).2.1.size ≤ q.size + (bound + sizeof_MyAVPacketList) := by
  cases a <;> cases g <;>
    simp [packet_queue_put, packet_queue_put_private, av_fifo_write, av_packet_move_ref,
      AVERROR_ENOMEM] <;> omega

theorem read_thread_dispatch_sizes (is : VideoState) (e : ReadPass) (bound : Int)
    (hp : e.pkt.size ≤ bound) (hb : 0 ≤ bound + sizeof_MyAVPacketList)
    (ha : is.audioq.size ≤ MAX_QUEUE_SIZE) (hv : is.videoq.size ≤ MAX_QUEUE_SIZE) :
    ((read_thread_dispatch is e).audioq.size ≤ MAX_QUEUE_SIZE ∧
      (read_thread_dispatch is e).videoq.size ≤
        MAX_QUEUE_SIZE + (bound + sizeof_MyAVPacketList)) ∨
    ((read_thread_dispatch is e).audioq.size ≤
        MAX_QUEUE_SIZE + (bound + sizeof_MyAVPacketList) ∧
      (read_thread_dispatch is e).videoq.size ≤ MAX_QUEUE_SIZE) := by
  unfold read_thread_dispatch
  split_ifs
  · left
    have := packet_queue_put_size_le is.videoq e.pkt e.alloc_ok e.grow_ok bound hp hb
    exact ⟨ha, by simp only; omega⟩
  · right
    have := packet_queue_put_size_le is.audioq e.pkt e.alloc_ok e.grow_ok bound hp hb
    exact ⟨by simp only; omega, hv⟩
  · left
    exact ⟨ha, by omega⟩

theorem read_thread_loop_sizes (es : List ReadPass) (is : VideoState) (reads : Nat)
    (bound : Int) (hes : ∀ e ∈ es, e.pkt.size ≤ bound)
    (hb : 0 ≤ bound + sizeof_MyAVPacketList)
    (h : (is.audioq.size ≤ MAX_QUEUE_SIZE ∧
          is.videoq.size ≤ MAX_QUEUE_SIZE + (bound + sizeof_MyAVPacketList)) ∨
         (is.audioq.size ≤ MAX_QUEUE_SIZE + (bound + sizeof_MyAVPacketList) ∧
          is.videoq.size ≤ MAX_QUEUE_SIZE)) :
    ((read_thread_loop is reads es).is.audioq.size ≤ MAX_QUEUE_SIZE ∧
      (read_thread_loop is reads es).is.videoq.size ≤
        MAX_QUEUE_SIZE + (bound + sizeof_MyAVPacketList)) ∨
    ((read_thread_loop is reads es).is.audioq.size ≤
        MAX_QUEUE_SIZE + (bound + sizeof_MyAVPacketList) ∧
      (read_thread_loop is reads es).is.videoq.size ≤ MAX_QUEUE_SIZE) := by
  induction es generalizing is reads with
  | nil => exact h
  | cons e es ih =>
      have hes' : ∀ x ∈ es, x.pkt.size ≤ bound := fun x hx => hes x (List.mem_cons_of_mem _ hx)
      have he : e.pkt.size ≤ bound := hes e (List.mem_cons_self _ _)
      unfold read_thread_loop
      dsimp only
      split_ifs with h1 h2 h3 h4
      · exact h
      · exact ih _ _ hes' h
      · exact ih _ _ hes' h
      · obtain ⟨_, hw1, hw2, _⟩ := read_thread_wait_spec es { is with quit := e.quit } (reads + 1)
        rw [hw1, hw2]
        exact h
      · apply ih _ _ hes'
        have h2' : is.audioq.size ≤ MAX_QUEUE_SIZE ∧ is.videoq.size ≤ MAX_QUEUE_SIZE := by
          constructor
          · by_contra hc
            exact h2 (Or.inl (lt_of_not_le hc))
          · by_contra hc
            exact h2 (Or.inr (lt_of_not_le hc))
        exact read_thread_dispatch_sizes { is with quit := e.quit } e bound he hb h2'.1 h2'.2

/-- C19 as stated fails: five audio packets and then six video packets, each
adding 1 MiB to its queue, are all read (neither queue exceeds
`MAX_QUEUE_SIZE` on its own before the last one), and the total of the two
`size` counters is 11 MiB, above `MAX_QUEUE_SIZE` plus one packet. -/
theorem read_thread_total_exceeds :
    (read_thread_loop sampleReaderState 0 sampleReads).reads = 11 ∧
    (read_thread_loop sampleReaderState 0 sampleReads).is.audioq.size = 5242880 ∧
    (read_thread_loop sampleReaderState 0 sampleReads).is.videoq.size = 6291456 ∧
    ¬ ((read_thread_loop sampleReaderState 0 sampleReads).is.audioq.size +
        (read_thread_loop sampleReaderState 0 sampleReads).is.videoq.size ≤
      MAX_QUEUE_SIZE + (1048568 + sizeof_MyAVPacketList)) := by
  decide

/-- C19, amended: in the main loop of `read_thread` a pass that finds
`audioq.size` or `videoq.size` above `MAX_QUEUE_SIZE` reads no packet and
changes no queue; so, with nothing taken off the queues, for every sequence of
passes whose packets have `size <= bound`, starting with both queues at most
`MAX_QUEUE_SIZE`, each queue stays at most
`MAX_QUEUE_SIZE + bound + sizeof(MyAVPacketList)`, at most one of them is above
`MAX_QUEUE_SIZE`, and the total stays at most
`2 * MAX_QUEUE_SIZE + bound + sizeof(MyAVPacketList)`. -/
theorem read_thread_backpressure (es : List ReadPass) (is : VideoState) (reads : Nat)
    (bound : Int) (hes : ∀ e ∈ es, e.pkt.size ≤ bound)
    (hb : 0 ≤ bound + sizeof_MyAVPacketList)
    (ha : is.audioq.size ≤ MAX_QUEUE_SIZE) (hv : is.videoq.size ≤ MAX_QUEUE_SIZE) :
    (∀ (is1 : VideoState) (n : Nat) (e : ReadPass) (rest : List ReadPass), e.quit = 0 →
      (is1.audioq.size > MAX_QUEUE_SIZE ∨ is1.videoq.size > MAX_QUEUE_SIZE) →
      read_thread_loop is1 n (e :: rest) = read_thread_loop { is1 with quit := 0 } n rest) ∧
    (read_thread_loop is reads es).is.audioq.size ≤
      MAX_QUEUE_SIZE + (bound + sizeof_MyAVPacketList) ∧
    (read_thread_loop is reads es).is.videoq.size ≤
      MAX_QUEUE_SIZE + (bound + sizeof_MyAVPacketList) ∧
    ((read_thread_loop is reads es).is.audioq.size ≤ MAX_QUEUE_SIZE ∨
      (read_thread_loop is reads es).is.videoq.size ≤ MAX_QUEUE_SIZE) ∧
    (read_thread_loop is reads es).is.audioq.size +
        (read_thread_loop is reads es).is.videoq.size ≤
      2 * MAX_QUEUE_SIZE + (bound + sizeof_MyAVPacketList) := by
  have hinv := read_thread_loop_sizes es is reads bound hes hb (Or.inl ⟨ha, by omega⟩)
  refine ⟨?_, ?_, ?_, ?_, ?_⟩
  · intro is1 n e rest hq hsz
    rw [read_thread_loop]
    simp only [hq, ne_eq, not_true_eq_false, if_false]
    rw [if_pos hsz]
  · rcases hinv with h | h <;> omega
  · rcases hinv with h | h <;> omega
  · rcases hinv with h | h
    · exact Or.inl h.1
    · exact Or.inr h.2
  · rcases hinv with h | h <;> omega

theorem read_thread_backpressure_witness :
    (∀ e ∈ sampleReads, e.pkt.size ≤ 1048568) ∧
    (read_thread_loop sampleReaderState 0 sampleReads).is.audioq.size +
        (read_thread_loop sampleReaderState 0 sampleReads).is.videoq.size ≤
      2 * MAX_QUEUE_SIZE + (1048568 + sizeof_MyAVPacketList) :=
  ⟨by decide,
   (read_thread_backpressure sampleReads sampleReaderState 0 1048568 (by decide) (by decide)
      (by decide) (by decide)).2.2.2.2⟩

theorem read_thread_scan_step (x t : Int) (rest : List Int) (i v : Int) (hi : 0 ≤ i) :
    (if 0 ≤ (if t = x ∧ v < 0 then i else v) then (if t = x ∧ v < 0 then i else v)
      else if x ∈ rest then i + 1 + (rest.indexOf x : Int) else -1) =
    (if 0 ≤ v then v
      else if x ∈ t :: rest then i + ((t :: rest).indexOf x : Int) else -1) := by
  by_cases hv : 0 ≤ v
  · have hv2 : ¬ (v < 0) := by omega
    simp only [hv2, and_false, if_false, if_pos hv]
  · have hv2 : v < 0 := by omega
    by_cases ht : t = x
    · subst ht
      simp only [hv2, and_self, if_true, if_pos hi, if_neg hv, List.mem_cons, true_or,
        List.indexOf_cons_self]
      simp
    · have hxt : ¬ (x = t) := fun h => ht h.symm
      simp only [ht, false_and, if_false, if_neg hv, List.mem_cons, hxt, false_or,
        List.indexOf_cons_ne _ ht]
      split_ifs
      · push_cast; omega
      · rfl

theorem read_thread_scan_loop_spec (types : List Int) :
    ∀ (i v a : Int), 0 ≤ i → -1 ≤ v → -1 ≤ a →
      (read_thread_scan_loop types i v a).1 =
          (if 0 ≤ v then v
           else if AVMEDIA_TYPE_VIDEO ∈ types then i + (types.indexOf AVMEDIA_TYPE_VIDEO : Int)
           else -1) ∧
      (read_thread_scan_loop types i v a).2 =
          (if 0 ≤ a then a
           else if AVMEDIA_TYPE_AUDIO ∈ types then i + (types.indexOf AVMEDIA_TYPE_AUDIO : Int)
           else -1) := by
  induction types with
  | nil =>
      intro i v a _ hv ha
      simp only [read_thread_scan_loop, List.not_mem_nil, if_false]
      constructor
      · split_ifs <;> omega
      · split_ifs <;> omega
  | cons t rest ih =>
      intro i v a hi hv ha
      have hV := read_thread_scan_step AVMEDIA_TYPE_VIDEO t rest i v hi
      have hA := read_thread_scan_step AVMEDIA_TYPE_AUDIO t rest i a hi
      have hv1 : -1 ≤ (if t = AVMEDIA_TYPE_VIDEO ∧ v < 0 then i else v) := by
        split_ifs <;> omega
      have ha1 : -1 ≤ (if t = AVMEDIA_TYPE_AUDIO ∧ a < 0 then i else a) := by
        split_ifs <;> omega
      unfold read_thread_scan_loop
      dsimp only
      generalize (if t = AVMEDIA_TYPE_VIDEO ∧ v < 0 then i else v) = v1 at hV hv1 ⊢
      generalize (if t = AVMEDIA_TYPE_AUDIO ∧ a < 0 then i else a) = a1 at hA ha1 ⊢
      rw [← hV, ← hA]
      by_cases hb : v1 > -1 ∧ a1 > -1
      · rw [if_pos hb, if_pos (by omega), if_pos (by omega)]
        exact ⟨rfl, rfl⟩
      · rw [if_neg hb]
        have h := ih (i + 1) v1 a1 (by omega) hv1 ha1
        rw [h.1, h.2]
        exact ⟨rfl, rfl⟩

theorem read_thread_start_scan (types : List Int) (ret : Int) :
    (read_thread_start types ret).video_index =
        (if AVMEDIA_TYPE_VIDEO ∈ types then (types.indexOf AVMEDIA_TYPE_VIDEO : Int) else -1) ∧
    (read_thread_start types ret).audio_index =
        (if AVMEDIA_TYPE_AUDIO ∈ types then (types.indexOf AVMEDIA_TYPE_AUDIO : Int) else -1) ∧
    ((read_thread_start types ret).exit.isSome = true ↔
        (AVMEDIA_TYPE_VIDEO ∉ types ∨ AVMEDIA_TYPE_AUDIO ∉ types)) ∧
    ((read_thread_start types ret).exit.isSome = true →
        (read_thread_start types ret).opened = []) ∧
    ((read_thread_start types ret).exit = none →
        (read_thread_start types ret).opened =
          [(read_thread_start types ret).audio_index,
           (read_thread_start types ret).video_index]) := by
  have h := read_thread_scan_loop_spec types 0 (-1) (-1) (le_refl 0) (le_refl _) (le_refl _)
  simp only [show ¬ ((0 : Int) ≤ -1) from by omega, if_false, zero_add] at h
  have hv : (read_thread_scan types).1 =
      (if AVMEDIA_TYPE_VIDEO ∈ types then (types.indexOf AVMEDIA_TYPE_VIDEO : Int) else -1) := h.1
  have ha : (read_thread_scan types).2 =
      (if AVMEDIA_TYPE_AUDIO ∈ types then (types.indexOf AVMEDIA_TYPE_AUDIO : Int) else -1) := h.2
  unfold read_thread_start
  dsimp only
  by_cases hc : (read_thread_scan types).1 < 0 ∨ (read_thread_scan types).2 < 0
  · rw [if_pos hc]
    refine ⟨hv, ha, ?_, fun _ => rfl, fun h2 => by simp at h2⟩
    simp only [Option.isSome_some, true_iff]
    rw [hv, ha] at hc
    rcases hc with hc | hc
    · left
      intro hm
      rw [if_pos hm] at hc
      omega
    · right
      intro hm
      rw [if_pos hm] at hc
      omega
  · rw [if_neg hc]
    have hc1 : (read_thread_scan types).1 ≥ 0 := by omega
    have hc2 : (read_thread_scan types).2 ≥ 0 := by omega
    refine ⟨hv, ha, ?_, fun h2 => by simp at h2, fun _ => ?_⟩
    · simp only [Option.isSome_none, Bool.false_eq_true, false_iff, not_or, not_not]
      rw [hv] at hc1
      rw [ha] at hc2
      constructor
      · by_contra hm
        rw [if_neg hm] at hc1
        omega
      · by_contra hm
        rw [if_neg hm] at hc2
        omega
    · rw [if_pos hc2, if_pos hc1]
      rfl

/-- C21 against the code: the scan records the lowest video and the lowest
audio index, and when one of them is missing `read_thread` logs an error and
jumps to `__ERROR` without opening a decoder; but `ret` still holds the 0
that `avformat_open_input` returned, so the function returns 0 and pushes no
`FF_QUIT_EVENT`: the reader ends as after a normal run, it does not fail. -/
theorem read_thread_start_missing_stream (types : List Int)
    (h : AVMEDIA_TYPE_VIDEO ∉ types ∨ AVMEDIA_TYPE_AUDIO ∉ types) :
    (read_thread_start types 0).video_index =
        (if AVMEDIA_TYPE_VIDEO ∈ types then (types.indexOf AVMEDIA_TYPE_VIDEO : Int) else -1) ∧
    (read_thread_start types 0).audio_index =
        (if AVMEDIA_TYPE_AUDIO ∈ types then (types.indexOf AVMEDIA_TYPE_AUDIO : Int) else -1) ∧
    (read_thread_start types 0).opened = [] ∧
    (read_thread_start types 0).exit = some (0, []) := by
  obtain ⟨h1, h2, h3, h4, _⟩ := read_thread_start_scan types 0
  have hsome := h3.mpr h
  refine ⟨h1, h2, h4 hsome, ?_⟩
  unfold read_thread_start at hsome ⊢
  dsimp only at hsome ⊢
  by_cases hc : (read_thread_scan types).1 < 0 ∨ (read_thread_scan types).2 < 0
  · rw [if_pos hc]
    simp
  · rw [if_neg hc] at hsome
    simp at hsome

theorem read_thread_start_missing_stream_witness :
    (read_thread_start [ AVMEDIA_TYPE_AUDIO, 3, AVMEDIA_TYPE_AUDIO] 0).video_index = -1 ∧
    (read_thread_start [ AVMEDIA_TYPE_AUDIO, 3, AVMEDIA_TYPE_AUDIO] 0).audio_index = 0 ∧
    (read_thread_start [ AVMEDIA_TYPE_AUDIO, 3, AVMEDIA_TYPE_AUDIO] 0).opened = [] ∧
    (read_thread_start [ AVMEDIA_TYPE_AUDIO, 3, AVMEDIA_TYPE_AUDIO] 0).exit = some (0, []) :=
  ⟨(read_thread_start_missing_stream [ AVMEDIA_TYPE_AUDIO, 3, AVMEDIA_TYPE_AUDIO]
      (by decide)).1.trans (by decide),
   (read_thread_start_missing_stream [ AVMEDIA_TYPE_AUDIO, 3, AVMEDIA_TYPE_AUDIO]
      (by decide)).2.1.trans (by decide),
   (read_thread_start_missing_stream [ AVMEDIA_TYPE_AUDIO, 3, AVMEDIA_TYPE_AUDIO]
      (by decide)).2.2.1,
   (read_thread_start_missing_stream [ AVMEDIA_TYPE_AUDIO, 3, AVMEDIA_TYPE_AUDIO]
      (by decide)).2.2.2⟩

/-! ## Properties of the video decoder -/

theorem av_q2d_fin (a : AVRational) (h : a.den ≠ 0) :
    av_q2d a = .fin ((a.num : ℚ) / (a.den : ℚ)) := by
  have h2 : ((a.den : Int) : ℚ) ≠ 0 := by exact_mod_cast h
  simp [av_q2d, CDouble.div, CDouble.ofInt, h2]

/-- C26: `synchronize_video` returns `pts` and sets `video_clock` to
`pts + frame_delay` when `pts != 0`; it returns the previous `video_clock` and
advances `video_clock` by `frame_delay` when `pts == 0`; every other field of
the state is kept. Here `frame_delay` is
`time_base + repeat_pict * (time_base * 0.5)`, which for a time base with a
non-zero denominator is the number `time_base * (1 + 0.5 * repeat_pict)`. -/
theorem synchronize_video_spec (is : VideoState) (src_frame : AVFrame) (pts : CDouble) :
    (CDouble.ne pts (.fin 0) = true →
      synchronize_video is src_frame pts =
        (pts,
          { is with
            video_clock :=
              CDouble.add pts
                (CDouble.add (av_q2d is.video_ctx.time_base)
                  (CDouble.mul (CDouble.ofInt src_frame.repeat_pict)
                    (CDouble.mul (av_q2d is.video_ctx.time_base) (.fin (1 / 2))))) })) ∧
    (CDouble.eq pts (.fin 0) = true →
      synchronize_video is src_frame pts =
        (is.video_clock,
          { is with
            video_clock :=
              CDouble.add is.video_clock
                (CDouble.add (av_q2d is.video_ctx.time_base)
                  (CDouble.mul (CDouble.ofInt src_frame.repeat_pict)
                    (CDouble.mul (av_q2d is.video_ctx.time_base) (.fin (1 / 2))))) })) ∧
    (is.video_ctx.time_base.den ≠ 0 →
      CDouble.add (av_q2d is.video_ctx.time_base)
          (CDouble.mul (CDouble.ofInt src_frame.repeat_pict)
            (CDouble.mul (av_q2d is.video_ctx.time_base) (.fin (1 / 2)))) =
        .fin (((is.video_ctx.time_base.num : ℚ) / (is.video_ctx.time_base.den : ℚ)) *
              (1 + (1 / 2) * (src_frame.repeat_pict : ℚ)))) := by
  refine ⟨fun h => ?_, fun h => ?_, fun h => ?_⟩
  · unfold synchronize_video
    simp only [h, if_true]
  · have h2 : CDouble.ne pts (.fin 0) = false := by simp [CDouble.ne, h]
    unfold synchronize_video
    simp only [h2, Bool.false_eq_true, if_false]
  · rw [av_q2d_fin _ h]
    simp only [CDouble.mul, CDouble.add, CDouble.ofInt]
    congr 1
    ring

theorem synchronize_video_spec_witness :
    synchronize_video sampleOpened (sampleFrame 1) (.fin 2) =
        (.fin 2,
          { sampleOpened with
            video_clock :=
              CDouble.add (.fin 2)
                (CDouble.add (av_q2d sampleOpened.video_ctx.time_base)
                  (CDouble.mul (CDouble.ofInt (sampleFrame 1).repeat_pict)
                    (CDouble.mul (av_q2d sampleOpened.video_ctx.time_base)
                      (.fin (1 / 2))))) }) ∧
    (synchronize_video sampleOpened (sampleFrame 1) (.fin 0)).1 = .fin 0 ∧
    (synchronize_video sampleOpened (sampleFrame 1) (.fin 2)).2.video_clock = .fin (51 / 25) :=
  ⟨(synchronize_video_spec sampleOpened (sampleFrame 1) (.fin 2)).1 (by decide!),
   (congrArg Prod.fst
      ((synchronize_video_spec sampleOpened (sampleFrame 1) (.fin 0)).2.1 (by decide!))).trans
     (by decide!),
   by decide!⟩

theorem synchronize_video_nan (is : VideoState) (src_frame : AVFrame) :
    synchronize_video is src_frame .nan = (.nan, { is with video_clock := .nan }) := by
  unfold synchronize_video
  simp [CDouble.ne, CDouble.eq, CDouble.add]

/-- C27 fails: for a decoded frame without a pts (`AV_NOPTS_VALUE`),
`decode_thread` hands NaN to `synchronize_video`, NaN counts as a pts that is
not 0, so the record enqueued carries NaN as its pts, not the predicted
`video_clock`, and `video_clock` is NaN afterwards, whatever it was. -/
theorem decode_thread_frame_nopts (tb frame_rate : AVRational) (is : VideoState)
    (video_frame : AVFrame) (r : VideoState × AVFrame)
    (hpts : video_frame.pts = AV_NOPTS_VALUE)
    (h : decode_thread_frame tb frame_rate is video_frame = some r) :
    r.1.video_clock = .nan ∧ (r.1.pictq.queue is.pictq.windex).pts = .nan := by
  unfold decode_thread_frame at h
  simp only [hpts, if_true, synchronize_video_nan] at h
  unfold queue_picture frame_queue_peek_writable at h
  by_cases hw : frame_queue_peek_writable_waits is.pictq = true
  · simp [hw] at h
  · simp only [hw, Bool.false_eq_true, if_false, Option.some.injEq] at h
    subst h
    simp [frame_queue_push]

theorem decode_thread_frame_nopts_witness :
    ((decode_thread_frame ⟨1, 25⟩ ⟨25, 1⟩ sampleDecoding
        { sampleFrame 1 with pts := AV_NOPTS_VALUE }).map
      (fun r => (r.1.video_clock, (r.1.pictq.queue sampleDecoding.pictq.windex).pts))) =
      some (.nan, .nan) ∧
    sampleDecoding.video_clock = .fin 1 := by
  have h : ∃ r, decode_thread_frame ⟨1, 25⟩ ⟨25, 1⟩ sampleDecoding
      { sampleFrame 1 with pts := AV_NOPTS_VALUE } = some r := by
    simp [decode_thread_frame, queue_picture, frame_queue_peek_writable,
      frame_queue_peek_writable_waits, sampleDecoding, sampleOpened, stream_component_open_video,
      VideoState.fresh, frame_queue_init, VIDEO_PICTURE_QUEUE_SIZE, synchronize_video_nan]
  obtain ⟨r, hr⟩ := h
  have h2 := decode_thread_frame_nopts ⟨1, 25⟩ ⟨25, 1⟩ sampleDecoding
    { sampleFrame 1 with pts := AV_NOPTS_VALUE } r rfl hr
  refine ⟨?_, rfl⟩
  rw [hr]
  simp only [Option.map_some']
  rw [h2.1, h2.2]

/-! ## Properties of the nominal delay over runs of the refresh timer -/

theorem video_refresh_timer_nominal_delay_fin (is : VideoState) (d p q : ℚ)
    (hd : is.frame_last_delay = .fin d) (hd0 : 0 < d) (hd1 : d < 1)
    (hp : is.frame_last_pts = .fin p) :
    ∃ e : ℚ, video_refresh_timer_nominal_delay is (.fin q) = .fin e ∧ 0 < e ∧ e < 1 := by
  unfold video_refresh_timer_nominal_delay
  rw [hp, hd]
  by_cases hp0 : p = 0
  · subst hp0
    refine ⟨d, ?_, hd0, hd1⟩
    simp [CDouble.eq, CDouble.le, CDouble.ge]
  · have he : CDouble.eq (.fin p) (.fin 0) = false := by
      simp [CDouble.eq, hp0]
    simp only [he, Bool.false_eq_true, if_false, CDouble.sub, CDouble.neg, CDouble.add,
      CDouble.le, CDouble.ge, Bool.or_eq_true, decide_eq_true_eq]
    by_cases hc : q + -p ≤ 0 ∨ 1 ≤ q + -p
    · rw [if_pos hc]
      exact ⟨d, rfl, hd0, hd1⟩
    · rw [if_neg hc]
      push_neg at hc
      exact ⟨q + -p, rfl, hc.1, hc.2⟩

theorem video_refresh_timer_sync_delay_choice (is : VideoState) (now : Int)
    (vp_pts delay : CDouble) :
    video_refresh_timer_sync_delay is now vp_pts delay = .fin 0 ∨
    video_refresh_timer_sync_delay is now vp_pts delay = delay ∨
    video_refresh_timer_sync_delay is now vp_pts delay = CDouble.mul (.fin 2) delay := by
  unfold video_refresh_timer_sync_delay
  dsimp only
  split_ifs
  · exact Or.inl rfl
  · exact Or.inr (Or.inr rfl)
  · exact Or.inr (Or.inl rfl)
  · exact Or.inr (Or.inl rfl)
  · exact Or.inr (Or.inl rfl)

theorem refreshCall_step_inv (s : VideoState) (c : RefreshCall) (hs : RefreshInv s)
    (hq : ∃ q : ℚ, (frame_queue_peek c.others.pictq).pts = .fin q) :
    RefreshInv (RefreshCall.step s c) ∧
    ∃ d f : ℚ, (RefreshCall.step s c).frame_last_delay = .fin d ∧ s.frame_timer = .fin f ∧
      ((RefreshCall.step s c).frame_timer = .fin (f + 0) ∨
       (RefreshCall.step s c).frame_timer = .fin (f + d) ∨
       (RefreshCall.step s c).frame_timer = .fin (f + 2 * d)) := by
  obtain ⟨⟨d, hd, hd0, hd1⟩, ⟨p, hp⟩, ⟨f, hf⟩⟩ := hs
  obtain ⟨q, hq⟩ := hq
  have hsd : (c.state s).frame_last_delay = .fin d := hd
  have hsp : (c.state s).frame_last_pts = .fin p := hp
  have hsf : (c.state s).frame_timer = .fin f := hf
  have hpq : (frame_queue_peek (c.state s).pictq).pts = .fin q := hq
  by_cases hshow : (c.state s).video_st = true ∧ (c.state s).pictq.size ≠ 0
  · obtain ⟨h1, h2, h3⟩ :=
      video_refresh_timer_shows c.scr c.texture_ok c.t1 c.t2 c.t3 (c.state s) hshow.1 hshow.2
    rw [hpq] at h1 h2 h3
    obtain ⟨e, he, he0, he1⟩ := video_refresh_timer_nominal_delay_fin (c.state s) d p q hsd hd0 hd1 hsp
    rw [he] at h1 h3
    rw [hsf] at h3
    have h1s : (RefreshCall.step s c).frame_last_delay = .fin e := h1
    have h2s : (RefreshCall.step s c).frame_last_pts = .fin q := h2
    have h3s : (RefreshCall.step s c).frame_timer =
        CDouble.add (.fin f) (video_refresh_timer_sync_delay (c.state s) c.t2 (.fin q) (.fin e)) :=
      h3
    have hcases : (RefreshCall.step s c).frame_timer = .fin (f + 0) ∨
        (RefreshCall.step s c).frame_timer = .fin (f + e) ∨
        (RefreshCall.step s c).frame_timer = .fin (f + 2 * e) := by
      rcases video_refresh_timer_sync_delay_choice (c.state s) c.t2 (.fin q) (.fin e) with h | h | h
      · left; rw [h3s, h]; rfl
      · right; left; rw [h3s, h]; rfl
      · right; right; rw [h3s, h]; rfl
    refine ⟨⟨⟨e, h1s, he0, he1⟩, ⟨q, h2s⟩, ?_⟩, e, f, h1s, hf, hcases⟩
    rcases hcases with h | h | h <;> exact ⟨_, h⟩
  · have hsame : RefreshCall.step s c = c.state s := by
      unfold RefreshCall.step video_refresh_timer
      by_cases hst : (c.state s).video_st = true
      · have hsz : (c.state s).pictq.size = 0 := by
          by_contra hne
          exact hshow ⟨hst, hne⟩
        rw [if_pos hst, if_pos hsz]
      · rw [if_neg hst]
    rw [hsame]
    refine ⟨⟨⟨d, hsd, hd0, hd1⟩, ⟨p, hsp⟩, ⟨f, hsf⟩⟩, d, f, hsd, hf, Or.inl ?_⟩
    rw [hsf, add_zero]

theorem video_refresh_timer_run_inv (calls : List RefreshCall) :
    ∀ s : VideoState, RefreshInv s →
      (∀ c ∈ calls, ∃ q : ℚ, (frame_queue_peek c.others.pictq).pts = .fin q) →
      RefreshInv (video_refresh_timer_run s calls) := by
  induction calls with
  | nil => intro s hs _; exact hs
  | cons c cs ih =>
      intro s hs hq
      have h1 := (refreshCall_step_inv s c hs (hq c (List.mem_cons_self _ _))).1
      exact ih (RefreshCall.step s c) h1 (fun c2 hc2 => hq c2 (List.mem_cons_of_mem _ hc2))

theorem stream_component_open_video_inv (is : VideoState) (stream_index : Int)
    (avctx : AVCodecContext) (t1 t2 : Int) (h0 : is.frame_last_pts = .fin 0) :
    RefreshInv (stream_component_open_video is stream_index avctx t1 t2) := by
  refine ⟨⟨40 / 1000, rfl, by norm_num, by norm_num⟩, ⟨0, h0⟩, ⟨(t1 : ℚ) / 1000000, ?_⟩⟩
  simp [stream_component_open_video, CDouble.div, CDouble.ofInt]

/-- C30: starting from the state `stream_component_open` leaves for the video
stream (`frame_last_delay = 0.040`, `frame_last_pts` still 0), after every
sequence of `video_refresh_timer` calls in which the queued frames have finite
timestamps, `frame_last_delay` is a number strictly between 0 and 1; and in
every call of the sequence `frame_timer` grows by 0, by the `frame_last_delay`
the call stores, or by twice that, so it does not decrease. -/
theorem video_refresh_timer_run_delay (is : VideoState) (stream_index : Int)
    (avctx : AVCodecContext) (t1 t2 : Int) (calls : List RefreshCall)
    (h0 : is.frame_last_pts = .fin 0)
    (hq : ∀ c ∈ calls, ∃ q : ℚ, (frame_queue_peek c.others.pictq).pts = .fin q) :
    (∃ d : ℚ,
      (video_refresh_timer_run (stream_component_open_video is stream_index avctx t1 t2)
        calls).frame_last_delay = .fin d ∧ 0 < d ∧ d < 1) ∧
    (∀ (pre post : List RefreshCall) (c : RefreshCall), calls = pre ++ c :: post →
      ∃ d f : ℚ,
        (RefreshCall.step
          (video_refresh_timer_run (stream_component_open_video is stream_index avctx t1 t2) pre)
          c).frame_last_delay = .fin d ∧
        (video_refresh_timer_run (stream_component_open_video is stream_index avctx t1 t2)
          pre).frame_timer = .fin f ∧
        ((RefreshCall.step
            (video_refresh_timer_run (stream_component_open_video is stream_index avctx t1 t2) pre)
            c).frame_timer = .fin (f + 0) ∨
         (RefreshCall.step
            (video_refresh_timer_run (stream_component_open_video is stream_index avctx t1 t2) pre)
            c).frame_timer = .fin (f + d) ∨
         (RefreshCall.step
            (video_refresh_timer_run (stream_component_open_video is stream_index avctx t1 t2) pre)
            c).frame_timer = .fin (f + 2 * d)) ∧
        0 < d ∧ d < 1 ∧
        CDouble.le
          (video_refresh_timer_run (stream_component_open_video is stream_index avctx t1 t2)
            pre).frame_timer
          (RefreshCall.step
            (video_refresh_timer_run (stream_component_open_video is stream_index avctx t1 t2) pre)
            c).frame_timer = true) := by
  have hstart := stream_component_open_video_inv is stream_index avctx t1 t2 h0
  refine ⟨(video_refresh_timer_run_inv calls _ hstart hq).1, ?_⟩
  intro pre post c hsplit
  have hpre : ∀ c2 ∈ pre, ∃ q : ℚ, (frame_queue_peek c2.others.pictq).pts = .fin q := by
    intro c2 hc2
    exact hq c2 (by rw [hsplit]; exact List.mem_append_left _ hc2)
  have hc : ∃ q : ℚ, (frame_queue_peek c.others.pictq).pts = .fin q :=
    hq c (by rw [hsplit]; exact List.mem_append_right _ (List.mem_cons_self _ _))
  have hinv := video_refresh_timer_run_inv pre _ hstart hpre
  obtain ⟨hinv2, d, f, hd, hf, hcases⟩ := refreshCall_step_inv _ c hinv hc
  obtain ⟨⟨d2, hd2, hd0, hd1⟩, _, _⟩ := hinv2
  have hdd : d2 = d := by
    rw [hd] at hd2
    exact (CDouble.fin.inj hd2).symm
  subst hdd
  refine ⟨d2, f, hd, hf, hcases, hd0, hd1, ?_⟩
  rw [hf]
  rcases hcases with h | h | h <;> rw [h] <;> simp only [CDouble.le, decide_eq_true_eq] <;>
    linarith

theorem video_refresh_timer_run_delay_witness :
    ∃ d : ℚ,
      (video_refresh_timer_run
        (stream_component_open_video (VideoState.fresh AV_SYNC_AUDIO_MASTER) 0
          ⟨0, 0, 0, ⟨1, 25⟩⟩ 100000000 100000000)
        [sampleCall (.fin 0) (.fin 0), sampleCall (.fin (1 / 50)) (.fin 0)]).frame_last_delay
        = .fin d ∧ 0 < d ∧ d < 1 :=
  (video_refresh_timer_run_delay (VideoState.fresh AV_SYNC_AUDIO_MASTER) 0
    ⟨0, 0, 0, ⟨1, 25⟩⟩ 100000000 100000000
    [sampleCall (.fin 0) (.fin 0), sampleCall (.fin (1 / 50)) (.fin 0)] rfl
    (by
      intro c hc
      simp only [List.mem_cons, List.mem_singleton, List.not_mem_nil, or_false] at hc
      rcases hc with rfl | rfl
      · exact ⟨0, by decide!⟩
      · exact ⟨1 / 50, by decide!⟩)).1

/-- C28 as stated fails: the delay is taken as 0 whenever `frame_last_pts` is
0, not only on the first displayed frame. After the first frame shown had
timestamp 0, the second frame (timestamp 0.020) meets `frame_last_pts = 0`
again: `vp.pts - frame_last_pts` is 0.020, between 0 and 1, yet the value
stored in `frame_last_delay` is the previous 0.040. -/
theorem video_refresh_timer_second_frame_keeps_delay :
    (RefreshCall.step sampleOpened (sampleCall (.fin 0) (.fin 0))).frame_last_pts = .fin 0 ∧
    (RefreshCall.step sampleOpened (sampleCall (.fin 0) (.fin 0))).frame_last_delay
      = .fin (1 / 25) ∧
    CDouble.sub (frame_queue_peek (sampleCall (.fin (1 / 50)) (.fin 0)).others.pictq).pts
      (RefreshCall.step sampleOpened (sampleCall (.fin 0) (.fin 0))).frame_last_pts
      = .fin (1 / 50) ∧
    (video_refresh_timer_run sampleOpened
      [sampleCall (.fin 0) (.fin 0), sampleCall (.fin (1 / 50)) (.fin 0)]).frame_last_delay
      = .fin (1 / 25) ∧
    (video_refresh_timer_run sampleOpened
      [sampleCall (.fin 0) (.fin 0), sampleCall (.fin (1 / 50)) (.fin 0)]).frame_last_pts
      = .fin (1 / 50) := by
  decide!

/-- C28, amended: in a `video_refresh_timer` call that shows a frame, the
nominal delay is `vp.pts - frame_last_pts`, taken as 0 whenever
`frame_last_pts == 0` (on the first displayed frame and after every frame
with timestamp 0); when that value is `<= 0` or `>= 1` it is replaced by the
previous `frame_last_delay`; the result is stored in `frame_last_delay`, and
`frame_last_pts` is set to `vp.pts`. -/
theorem video_refresh_timer_nominal (scr : Screen) (texture_ok : Bool) (t1 t2 t3 : Int)
    (is : VideoState) (hst : is.video_st = true) (hsz : is.pictq.size ≠ 0) :
    ((CDouble.eq is.frame_last_pts (.fin 0) = true →
        (video_refresh_timer scr texture_ok t1 t2 t3 is).1.frame_last_delay =
          is.frame_last_delay) ∧
     (CDouble.eq is.frame_last_pts (.fin 0) = false →
        (video_refresh_timer scr texture_ok t1 t2 t3 is).1.frame_last_delay =
          (if CDouble.le (CDouble.sub (frame_queue_peek is.pictq).pts is.frame_last_pts)
                (.fin 0) = true ∨
              CDouble.ge (CDouble.sub (frame_queue_peek is.pictq).pts is.frame_last_pts)
                (.fin 1) = true
           then is.frame_last_delay
           else CDouble.sub (frame_queue_peek is.pictq).pts is.frame_last_pts))) ∧
    (video_refresh_timer scr texture_ok t1 t2 t3 is).1.frame_last_pts =
      (frame_queue_peek is.pictq).pts := by
  obtain ⟨h1, h2, _⟩ := video_refresh_timer_shows scr texture_ok t1 t2 t3 is hst hsz
  refine ⟨⟨fun h => ?_, fun h => ?_⟩, h2⟩
  · rw [h1]
    simp [video_refresh_timer_nominal_delay, h, CDouble.le]
  · rw [h1]
    simp only [video_refresh_timer_nominal_delay, h, Bool.false_eq_true, if_false,
      Bool.or_eq_true]

theorem video_refresh_timer_nominal_witness :
    (video_refresh_timer sampleScreen true 0 0 0 sampleStateAhead).1.frame_last_delay =
      .fin (1 / 25) ∧
    (video_refresh_timer sampleScreen true 0 0 0 sampleStateAhead).1.frame_last_pts = .fin 1 :=
  ⟨(((video_refresh_timer_nominal sampleScreen true 0 0 0 sampleStateAhead rfl
        (by decide)).1.2 (by decide!)).trans (by decide!)),
   ((video_refresh_timer_nominal sampleScreen true 0 0 0 sampleStateAhead rfl
        (by decide)).2).trans (by decide!)⟩

/-! ## Properties of the display rectangle -/

theorem av_rescale_of_nonneg (a b c : Int) (ha : 0 ≤ a) (hb : 0 ≤ b) (hc : 0 < c) :
    av_rescale a b c = (a * b + c / 2) / c ∧ 0 ≤ (a * b + c / 2) / c := by
  constructor
  · unfold av_rescale
    rw [if_neg (by omega), if_neg (by omega)]
  · apply Int.ediv_nonneg
    · have h1 : 0 ≤ a * b := Int.mul_nonneg ha hb
      omega
    · omega

theorem av_mul_q_pos (b c : AVRational)
    (hb : (0 < b.num ∧ 0 < b.den) ∨ (b.num < 0 ∧ b.den < 0))
    (hcn : 0 < c.num) (hcd : 0 < c.den) :
    0 < (av_mul_q b c).num ∧ 0 < (av_mul_q b c).den := by
  have hn0 : b.num * c.num ≠ 0 := by
    rcases hb with h | h
    · exact ne_of_gt (Int.mul_pos h.1 hcn)
    · exact ne_of_lt (Int.mul_neg_of_neg_of_pos h.1 hcn)
  have hd0 : b.den * c.den ≠ 0 := by
    rcases hb with h | h
    · exact ne_of_gt (Int.mul_pos h.2 hcd)
    · exact ne_of_lt (Int.mul_neg_of_neg_of_pos h.2 hcd)
  have hsign : xor (decide (b.num * c.num < 0)) (decide (b.den * c.den < 0)) = false := by
    rcases hb with h | h
    · have h1 : ¬ (b.num * c.num < 0) := not_lt.mpr (le_of_lt (Int.mul_pos h.1 hcn))
      have h2 : ¬ (b.den * c.den < 0) := not_lt.mpr (le_of_lt (Int.mul_pos h.2 hcd))
      simp [h1, h2]
    · have h1 : b.num * c.num < 0 := Int.mul_neg_of_neg_of_pos h.1 hcn
      have h2 : b.den * c.den < 0 := Int.mul_neg_of_neg_of_pos h.2 hcd
      simp [h1, h2]
  have hg : ((Int.gcd (b.num * c.num) (b.den * c.den) : Nat) : Int) ≠ 0 := by
    intro h
    have h2 : Int.gcd (b.num * c.num) (b.den * c.den) = 0 := by exact_mod_cast h
    exact hn0 (Int.gcd_eq_zero_iff.mp h2).1
  have hgn : ((Int.gcd (b.num * c.num) (b.den * c.den) : Nat) : Int) ∣ |b.num * c.num| :=
    (dvd_abs _ _).mpr Int.gcd_dvd_left
  have hgd : ((Int.gcd (b.num * c.num) (b.den * c.den) : Nat) : Int) ∣ |b.den * c.den| :=
    (dvd_abs _ _).mpr Int.gcd_dvd_right
  unfold av_mul_q
  simp only [hsign, Bool.false_eq_true, if_false, if_pos hg]
  exact ⟨Int.ediv_pos_of_pos_of_dvd (abs_pos.mpr hn0) (Int.ofNat_nonneg _) hgn,
         Int.ediv_pos_of_pos_of_dvd (abs_pos.mpr hd0) (Int.ofNat_nonneg _) hgd⟩

theorem av_cmp_q_zero_pos (a : AVRational) (h : ¬ (av_cmp_q a (av_make_q 0 1) ≤ 0))
    (hden : a.den ≠ 0) :
    (0 < a.num ∧ 0 < a.den) ∨ (a.num < 0 ∧ a.den < 0) := by
  unfold av_cmp_q av_make_q at h
  simp only [mul_one, zero_mul, sub_zero] at h
  by_cases hn : a.num = 0
  · simp [hn, hden] at h
  · rw [if_pos hn] at h
    rcases lt_or_gt_of_ne hn with hn1 | hn1 <;> rcases lt_or_gt_of_ne hden with hd1 | hd1
    · exact Or.inr ⟨hn1, hd1⟩
    · have hd2 : ¬ (a.den < 0) := by omega
      simp [hn1, hd2] at h
    · have hn2 : ¬ (a.num < 0) := by omega
      simp [hn2, hd1] at h
    · exact Or.inl ⟨hn1, hd1⟩

theorem calculate_display_rect_aspect (pic_width pic_height : Int) (pic_sar : AVRational)
    (hpw : 1 ≤ pic_width) (hph : 1 ≤ pic_height)
    (hsar : ¬ (0 < pic_sar.num ∧ pic_sar.den = 0)) :
    0 < (av_mul_q (if av_cmp_q pic_sar (av_make_q 0 1) ≤ 0 then av_make_q 1 1 else pic_sar)
          (av_make_q pic_width pic_height)).num ∧
    0 < (av_mul_q (if av_cmp_q pic_sar (av_make_q 0 1) ≤ 0 then av_make_q 1 1 else pic_sar)
          (av_make_q pic_width pic_height)).den := by
  by_cases hc : av_cmp_q pic_sar (av_make_q 0 1) ≤ 0
  · rw [if_pos hc]
    exact av_mul_q_pos _ _ (Or.inl ⟨by decide, by decide⟩) (by simpa [av_make_q] using hpw)
      (by simpa [av_make_q] using hph)
  · rw [if_neg hc]
    have hden : pic_sar.den ≠ 0 := by
      intro hd
      apply hsar
      refine ⟨?_, hd⟩
      unfold av_cmp_q av_make_q at hc
      simp only [mul_one, zero_mul, sub_zero, hd] at hc
      by_cases hn : pic_sar.num = 0
      · simp [hn, INT_MIN] at hc
      · rcases lt_or_gt_of_ne hn with hn1 | hn1
        · simp [hn, hn1] at hc
        · exact hn1
    exact av_mul_q_pos _ _ (av_cmp_q_zero_pos _ hc hden) (by simpa [av_make_q] using hpw)
      (by simpa [av_make_q] using hph)

theorem calculate_display_rect_core (W H n d : Int) (hW : 1 ≤ W) (hH : 1 ≤ H)
    (hn : 0 < n) (hd : 0 < d) :
    0 ≤ av_rescale H n d / 2 * 2 ∧
    (W < av_rescale H n d / 2 * 2 →
      0 ≤ av_rescale W d n / 2 * 2 ∧ av_rescale W d n / 2 * 2 ≤ H) := by
  obtain ⟨e1, p1⟩ := av_rescale_of_nonneg H n d (by omega) (le_of_lt hn) hd
  obtain ⟨e2, p2⟩ := av_rescale_of_nonneg W d n (by omega) (le_of_lt hd) hn
  rw [e1, e2]
  have hle1 : (H * n + d / 2) / d * d ≤ H * n + d / 2 := Int.ediv_mul_le _ (ne_of_gt hd)
  refine ⟨by omega, fun hlt => ⟨by omega, ?_⟩⟩
  have hW1 : W + 1 ≤ (H * n + d / 2) / d := by omega
  have h3 : (W + 1) * d ≤ (H * n + d / 2) / d * d := Int.mul_le_mul_of_nonneg_right hW1 (le_of_lt hd)
  have h4 : W * d + d ≤ H * n + d / 2 := by
    have : (W + 1) * d = W * d + d := by ring
    linarith
  have hd2 : d / 2 ≤ d := by omega
  have hn2 : n / 2 < n := by omega
  have h5 : (W * d + n / 2) / n < H + 1 := by
    apply Int.ediv_lt_of_lt_mul hn
    have : (H + 1) * n = H * n + n := by ring
    linarith
  omega

/-- C22 as stated fails: for the sample aspect ratio 1/0 (positive, with
denominator 0) `av_rescale` returns `INT64_MIN` and the subtraction
`scr_width - width` leaves the range of `int64_t`; the call has no defined
result, hence no rectangle inside the screen area. -/
theorem calculate_display_rect_zero_den :
    ¬ (av_cmp_q ⟨1, 0⟩ (av_make_q 0 1) ≤ 0) ∧
    av_mul_q ⟨1, 0⟩ (av_make_q 640 480) = ⟨1, 0⟩ ∧
    av_rescale 480 1 0 = INT64_MIN ∧
    INT64_MAX < 640 - INT64_MIN / 2 * 2 ∧
    calculate_display_rect 0 0 640 480 640 480 ⟨1, 0⟩ = none := by
  decide

/-- C22, amended: for every screen area with `scr_width >= 1` and
`scr_height >= 1`, every picture with `pic_width >= 1` and `pic_height >= 1`
and every sample aspect ratio other than a positive numerator over the
denominator 0, `calculate_display_rect` yields a rectangle with
`1 <= w <= scr_width` and `1 <= h <= scr_height` that lies inside the screen
area and is centred in it: the margins left and right of it, and above and
below it, differ by at most one pixel. -/
theorem calculate_display_rect_inside
    (scr_xleft scr_ytop scr_width scr_height pic_width pic_height : Int) (pic_sar : AVRational)
    (hsw : 1 ≤ scr_width) (hsh : 1 ≤ scr_height) (hpw : 1 ≤ pic_width) (hph : 1 ≤ pic_height)
    (hswi : scr_width ≤ 2147483647) (hshi : scr_height ≤ 2147483647)
    (hsar : ¬ (0 < pic_sar.num ∧ pic_sar.den = 0)) :
    ∃ r : SDL_Rect,
      calculate_display_rect scr_xleft scr_ytop scr_width scr_height pic_width pic_height
        pic_sar = some r ∧
      1 ≤ r.w ∧ r.w ≤ scr_width ∧ 1 ≤ r.h ∧ r.h ≤ scr_height ∧
      scr_xleft ≤ r.x ∧ r.x + r.w ≤ scr_xleft + scr_width ∧
      scr_ytop ≤ r.y ∧ r.y + r.h ≤ scr_ytop + scr_height ∧
      |(r.x - scr_xleft) - (scr_xleft + scr_width - (r.x + r.w))| ≤ 1 ∧
      |(r.y - scr_ytop) - (scr_ytop + scr_height - (r.y + r.h))| ≤ 1 := by
  obtain ⟨hn, hd⟩ := calculate_display_rect_aspect pic_width pic_height pic_sar hpw hph hsar
  unfold calculate_display_rect
  dsimp only
  generalize (av_mul_q (if av_cmp_q pic_sar (av_make_q 0 1) ≤ 0 then av_make_q 1 1 else pic_sar)
          (av_make_q pic_width pic_height)) = ar at hn hd ⊢
  obtain ⟨h0, h1⟩ := calculate_display_rect_core scr_width scr_height ar.num ar.den hsw hsh hn hd
  generalize av_rescale scr_height ar.num ar.den / 2 * 2 = w0 at h0 h1 ⊢
  by_cases hgt : w0 > scr_width
  · obtain ⟨h2, h3⟩ := h1 hgt
    rw [if_pos hgt]
    dsimp only
    rw [if_neg (by simp only [INT64_MIN, INT64_MAX]; omega)]
    refine ⟨_, rfl, ?_⟩
    dsimp only
    rw [Int.tdiv_eq_ediv (by omega) (by omega), Int.tdiv_eq_ediv (by omega) (by omega)]
    simp only [abs_le]
    omega
  · rw [if_neg hgt]
    dsimp only
    rw [if_neg (by simp only [INT64_MIN, INT64_MAX]; omega)]
    refine ⟨_, rfl, ?_⟩
    dsimp only
    rw [Int.tdiv_eq_ediv (by omega) (by omega), Int.tdiv_eq_ediv (by omega) (by omega)]
    simp only [abs_le]
    omega

theorem calculate_display_rect_inside_witness :
    ∃ r : SDL_Rect,
      calculate_display_rect 0 0 640 480 640 480 ⟨1, 1⟩ = some r ∧
      1 ≤ r.w ∧ r.w ≤ 640 ∧ 1 ≤ r.h ∧ r.h ≤ 480 ∧
      0 ≤ r.x ∧ r.x + r.w ≤ 0 + 640 ∧
      0 ≤ r.y ∧ r.y + r.h ≤ 0 + 480 ∧
      |(r.x - 0) - (0 + 640 - (r.x + r.w))| ≤ 1 ∧
      |(r.y - 0) - (0 + 480 - (r.y + r.h))| ≤ 1 :=
  calculate_display_rect_inside 0 0 640 480 640 480 ⟨1, 1⟩ (by decide) (by decide) (by decide)
    (by decide) (by decide) (by decide) (by decide)

/-! ## Properties of the decoded audio frame -/

/-- C24 against the code: `audio_decode_frame` adds `nb_samples / sample_rate`
to the integer `pts` of the frame as it is, in time-base units: a frame with
`pts = 90000` of 1024 samples at 48 kHz gives `audio_clock = 90000 + 1024/48000`
whatever the time base; and for a frame without a pts (`AV_NOPTS_VALUE`) the
test `isnan` on the integer is false, so `audio_clock` is
`-9223372036854775808 + 1024/48000`, not NaN. -/
theorem audio_decode_frame_clock_raw_pts :
    (audio_decode_frame (sampleAudioLibAt 90000 1024 48000 1024) 0
        (sampleAudioState 48000)).map (fun r => (r.1, r.2.2.audio_clock)) =
      some (4096, .fin (90000 + 1024 / 48000)) ∧
    (audio_decode_frame (sampleAudioLibAt AV_NOPTS_VALUE 1024 48000 1024) 0
        (sampleAudioState 48000)).map (fun r => (r.1, r.2.2.audio_clock)) =
      some (4096, .fin (-9223372036854775808 + 1024 / 48000)) ∧
    (audio_decode_frame (sampleAudioLibAt AV_NOPTS_VALUE 1024 48000 1024) 0
        (sampleAudioState 48000)).map (fun r => CDouble.isnan r.2.2.audio_clock) =
      some false := by
  refine ⟨by decide!, by decide!, by decide!⟩

/-- C25 against the code: when the sample format of the codec context is
already `AV_SAMPLE_FMT_S16`, no resampler is created, the block that fills the
scratch buffer is skipped, and `audio_decode_frame` returns its initial
`data_size = 0` for a frame of 1024 stereo samples (4096 bytes), leaving the
scratch buffer `NULL`; with another sample format the same frame gives
`1024 * 2 * 2 = 4096`. -/
theorem audio_decode_frame_s16_returns_zero :
    sampleAudioStateS16.audio_ctx.sample_fmt = AV_SAMPLE_FMT_S16 ∧
    (audio_decode_frame (sampleAudioLib 1024 48000 1024) 0 sampleAudioStateS16).map
        (fun r => (r.1, r.2.1, r.2.2.audio_swr_ctx, r.2.2.audio_buf)) =
      some (0, 1, false, none) ∧
    (audio_decode_frame (sampleAudioLib 1024 48000 1024) 0 (sampleAudioState 48000)).map
        (fun r => r.1) = some (1024 * 2 * 2) := by
  refine ⟨by decide!, by decide!, by decide!⟩

end Player

/-! ## Properties of the packet queue of the earlier player -/

namespace SimplePlayer2

open Player

theorem packet_queue_flush_loop_tail (l : List AVPacket) :
    packet_queue_flush_loop l = (l.tail, []) := by
  cases l with
  | nil => rfl
  | cons p rest =>
      unfold packet_queue_flush_loop
      rw [if_neg (by simp [av_fifo_read])]
      rfl

/-- C29 against the code: in `8-2/simpleplayer2.c` the loop of
`packet_queue_flush` tests `av_fifo_read(...) > 0`, and a successful read
returns 0: the first read takes one packet out of the FIFO, the loop body
never runs (no packet is freed), and every other packet stays held. For every
queue the FIFO after the flush is the tail of the FIFO before it. With three
packets held, two remain while the counters are 0, and a following
non-blocking `packet_queue_get` returns 1 and leaves `nb_packets = -1`. -/
theorem packet_queue_flush_keeps_packets :
    (∀ q : PacketQueue, (packet_queue_flush q).pkts = q.pkts.tail ∧
      (packet_queue_flush_loop q.pkts).2 = []) ∧
    sampleQueue.pkts = [samplePacketA, samplePacketB, samplePacketC] ∧
    packet_queue_flush sampleQueue =
      { pkts := [samplePacketB, samplePacketC], nb_packets := 0, size := 0, duration := 0 } ∧
    packet_queue_get (packet_queue_flush sampleQueue) AVPacket.blank 0 =
      some (1, { pkts := [samplePacketC], nb_packets := -1, size := -9, duration := -20 },
            samplePacketB) := by
  refine ⟨fun q => ?_, by decide, by decide, by decide⟩
  unfold packet_queue_flush
  rw [packet_queue_flush_loop_tail]
  exact ⟨rfl, rfl⟩

end SimplePlayer2

/-! ## Properties of the cut utility -/

namespace Cut

open Player

theorem record_start_writes (s : CopyState) (pkt : AVPacket) :
    (record_start s pkt).writes = s.writes := rfl

theorem record_start_other (s : CopyState) (pkt : AVPacket) (i : Int)
    (h : pkt.stream_index ≠ i) :
    (record_start s pkt).dts_start_time i = s.dts_start_time i ∧
    (record_start s pkt).pts_start_time i = s.pts_start_time i := by
  unfold record_start
  dsimp only
  have h2 : i ≠ pkt.stream_index := fun e => h e.symm
  constructor
  · split_ifs
    · exact Function.update_noteq h2 _ _
    · rfl
  · split_ifs
    · exact Function.update_noteq h2 _ _
    · rfl

theorem record_start_same (s : CopyState) (pkt : AVPacket)
    (hd : s.dts_start_time pkt.stream_index = -1) (hp : s.pts_start_time pkt.stream_index = -1) :
    (record_start s pkt).dts_start_time pkt.stream_index = (if pkt.dts > 0 then pkt.dts else -1) ∧
    (record_start s pkt).pts_start_time pkt.stream_index = (if pkt.pts > 0 then pkt.pts else -1) := by
  unfold record_start
  dsimp only
  constructor
  · by_cases h : pkt.dts > 0
    · rw [if_pos ⟨hd, h⟩, if_pos h, Function.update_same]
    · rw [if_neg (fun c => h c.2), if_neg h, hd]
  · by_cases h : pkt.pts > 0
    · rw [if_pos ⟨hp, h⟩, if_pos h, Function.update_same]
    · rw [if_neg (fun c => h c.2), if_neg h, hp]

theorem shift_packet_index (s : CopyState) (pkt : AVPacket) :
    (shift_packet s pkt).stream_index = pkt.stream_index := by
  unfold shift_packet
  dsimp only
  split_ifs <;> rfl

theorem shift_packet_fields (s : CopyState) (pkt : AVPacket) :
    (shift_packet s pkt).dts = pkt.dts - s.dts_start_time pkt.stream_index ∧
    (shift_packet s pkt).pts =
      max (pkt.pts - s.pts_start_time pkt.stream_index)
        (pkt.dts - s.dts_start_time pkt.stream_index) := by
  unfold shift_packet
  dsimp only
  split_ifs with h
  · exact ⟨rfl, by simp only; omega⟩
  · exact ⟨rfl, by simp only; omega⟩

theorem copy_loop_writes (stream_map : Int → Int) (time_base : Int → AVRational)
    (endtime : CDouble) (pkts : List AVPacket) :
    ∀ s : CopyState, ∃ more : List Written,
      (copy_loop stream_map time_base endtime s pkts).writes = s.writes ++ more ∧
      ∀ w ∈ more, 0 ≤ stream_map w.shifted.stream_index := by
  induction pkts with
  | nil => intro s; exact ⟨[], by simp [copy_loop], by simp⟩
  | cons q rest ih =>
      intro s
      unfold copy_loop
      dsimp only
      by_cases h1 : CDouble.gt (CDouble.mul (av_q2d (time_base q.stream_index))
          (CDouble.ofInt q.pts)) endtime = true
      · rw [if_pos h1]
        exact ⟨[], by simp [record_start_writes], by simp⟩
      · rw [if_neg h1]
        by_cases h2 : stream_map q.stream_index < 0
        · rw [if_pos h2]
          exact ih _
        · rw [if_neg h2]
          obtain ⟨more, hm, hall⟩ := ih
            { dts_start_time := (record_start s q).dts_start_time,
              pts_start_time := (record_start s q).pts_start_time,
              writes := (record_start s q).writes ++
                [{ shifted := shift_packet (record_start s q) q,
                   written := output_packet stream_map time_base (time_base q.stream_index)
                     (shift_packet (record_start s q) q) }] }
          rw [hm]
          refine ⟨{ shifted := shift_packet (record_start s q) q,
                    written := output_packet stream_map time_base (time_base q.stream_index)
                      (shift_packet (record_start s q) q) } :: more,
            by simp [record_start_writes], ?_⟩
          intro w hw
          rcases List.mem_cons.mp hw with rfl | hw
          · simp only [shift_packet_index]
            omega
          · exact hall w hw

theorem copy_loop_first (stream_map : Int → Int) (time_base : Int → AVRational)
    (endtime : CDouble) (i : Int) (p w : AVPacket) (pkts : List AVPacket) :
    ∀ s : CopyState, s.dts_start_time i = -1 → s.pts_start_time i = -1 →
      firstShifted s i = none →
      pkts.find? (fun q => decide (q.stream_index = i)) = some p →
      firstShifted (copy_loop stream_map time_base endtime s pkts) i = some w →
      w.dts = p.dts - (if p.dts > 0 then p.dts else -1) ∧
      w.pts = max (p.pts - (if p.pts > 0 then p.pts else -1))
                  (p.dts - (if p.dts > 0 then p.dts else -1)) := by
  induction pkts with
  | nil => intro s _ _ _ hf; simp at hf
  | cons q rest ih =>
      intro s hd hp hnone hf hw
      have hnone2 : s.writes.find? (fun w => decide (w.shifted.stream_index = i)) = none := by
        unfold firstShifted at hnone
        simpa using hnone
      unfold copy_loop at hw
      dsimp only at hw
      by_cases h1 : CDouble.gt (CDouble.mul (av_q2d (time_base q.stream_index))
          (CDouble.ofInt q.pts)) endtime = true
      · rw [if_pos h1] at hw
        exfalso
        have : firstShifted (record_start s q) i = none := hnone
        rw [this] at hw
        exact absurd hw (by simp)
      · rw [if_neg h1] at hw
        by_cases hqi : q.stream_index = i
        · have hpq : q = p := by
            rw [List.find?_cons_of_pos _ (by simpa using hqi)] at hf
            exact Option.some.inj hf
          subst hpq
          subst hqi
          by_cases h2 : stream_map q.stream_index < 0
          · rw [if_pos h2] at hw
            exfalso
            obtain ⟨more, hm, hall⟩ :=
              copy_loop_writes stream_map time_base endtime rest (record_start s q)
            unfold firstShifted at hw
            rw [hm, record_start_writes, List.find?_append, hnone2] at hw
            have hmore : more.find? (fun w => decide (w.shifted.stream_index = q.stream_index))
                = none := by
              rw [List.find?_eq_none]
              intro x hx hxe
              have := hall x hx
              simp only [decide_eq_true_eq] at hxe
              rw [hxe] at this
              omega
            rw [hmore] at hw
            exact absurd hw (by simp)
          · rw [if_neg h2] at hw
            obtain ⟨more, hm, _⟩ :=
              copy_loop_writes stream_map time_base endtime rest
                { dts_start_time := (record_start s q).dts_start_time,
                  pts_start_time := (record_start s q).pts_start_time,
                  writes := (record_start s q).writes ++
                    [{ shifted := shift_packet (record_start s q) q,
                       written := output_packet stream_map time_base (time_base q.stream_index)
                         (shift_packet (record_start s q) q) }] }
            unfold firstShifted at hw
            rw [hm] at hw
            rw [record_start_writes, List.find?_append, List.find?_append, hnone2,
              List.find?_cons_of_pos _ (by simp [shift_packet_index])] at hw
            simp only [Option.or, Option.map_some', Option.some.injEq] at hw
            subst hw
            obtain ⟨e1, e2⟩ := record_start_same s q hd hp
            obtain ⟨f1, f2⟩ := shift_packet_fields (record_start s q) q
            rw [f1, f2, e1, e2]
            exact ⟨rfl, rfl⟩
        · rw [List.find?_cons_of_neg _ (by simpa using hqi)] at hf
          obtain ⟨o1, o2⟩ := record_start_other s q i hqi
          by_cases h2 : stream_map q.stream_index < 0
          · rw [if_pos h2] at hw
            exact ih (record_start s q) (o1.trans hd) (o2.trans hp) hnone hf hw
          · rw [if_neg h2] at hw
            refine ih
              { dts_start_time := (record_start s q).dts_start_time,
                pts_start_time := (record_start s q).pts_start_time,
                writes := (record_start s q).writes ++
                  [{ shifted := shift_packet (record_start s q) q,
                     written := output_packet stream_map time_base (time_base q.stream_index)
                       (shift_packet (record_start s q) q) }] }
              (o1.trans hd) (o2.trans hp) ?_ hf hw
            unfold firstShifted
            rw [record_start_writes, List.find?_append, hnone2,
              List.find?_cons_of_neg _ (by simpa [shift_packet_index] using hqi)]
            rfl

/-- C23 as stated fails: when the first packet of a stream has `pts = 0` and
`dts = -1024` (the start of an MP4 file with B-frames), neither start time is
recorded (both stay -1), and the first packet written has `pts = 1` and
`dts = -1023` after the start-time subtraction. -/
theorem copy_loop_first_dts_negative :
    (firstShifted
        (copy_loop (stream_map [AVMEDIA_TYPE_VIDEO]) (fun _ => ⟨1, 12800⟩) (.fin 10)
          CopyState.start [sampleFirstPacket]) 0).map (fun p => (p.pts, p.dts)) =
      some (1, -1023) := by
  decide!

/-- C23, amended: for every packet sequence read after the seek, the first
packet written for a stream has, after the start-time subtraction,
`dts = 0` when the first packet read of that stream has `dts > 0` and
`dts + 1` otherwise (the start time stays -1), and `pts` is the larger of that
and the value computed likewise from `pts`; hence both are `>= 0` when the
first packet read of the stream has `dts >= -1`. -/
theorem copy_loop_first_written (stream_map : Int → Int) (time_base : Int → AVRational)
    (endtime : CDouble) (pkts : List AVPacket) (i : Int) (p w : AVPacket)
    (hfirst : pkts.find? (fun q => decide (q.stream_index = i)) = some p)
    (hw : firstShifted (copy_loop stream_map time_base endtime CopyState.start pkts) i = some w) :
    w.dts = (if p.dts > 0 then 0 else p.dts + 1) ∧
    w.pts = max (if p.pts > 0 then 0 else p.pts + 1) w.dts ∧
    (-1 ≤ p.dts → 0 ≤ w.pts ∧ 0 ≤ w.dts) := by
  obtain ⟨h1, h2⟩ := copy_loop_first stream_map time_base endtime i p w pkts CopyState.start
    rfl rfl rfl hfirst hw
  have e1 : w.dts = (if p.dts > 0 then 0 else p.dts + 1) := by
    rw [h1]; split_ifs <;> omega
  have e2 : w.pts = max (if p.pts > 0 then 0 else p.pts + 1) w.dts := by
    rw [h2, h1]; split_ifs <;> omega
  refine ⟨e1, e2, fun hge => ?_⟩
  have h3 : 0 ≤ w.dts := by rw [e1]; split_ifs <;> omega
  exact ⟨by rw [e2]; omega, h3⟩

theorem copy_loop_first_written_witness :
    firstShifted
        (copy_loop (stream_map [AVMEDIA_TYPE_VIDEO]) (fun _ => ⟨1, 12800⟩) (.fin 10)
          CopyState.start [{ sampleFirstPacket with pts := 2048, dts := 1024 }]) 0 =
      some { sampleFirstPacket with pts := 0, dts := 0 } ∧
    (0 : Int) ≤ ({ sampleFirstPacket with pts := 0, dts := 0 } : AVPacket).pts ∧
    (0 : Int) ≤ ({ sampleFirstPacket with pts := 0, dts := 0 } : AVPacket).dts :=
  ⟨by decide!,
   (copy_loop_first_written (stream_map [AVMEDIA_TYPE_VIDEO]) (fun _ => ⟨1, 12800⟩) (.fin 10)
      [{ sampleFirstPacket with pts := 2048, dts := 1024 }] 0
      { sampleFirstPacket with pts := 2048, dts := 1024 }
      { sampleFirstPacket with pts := 0, dts := 0 } rfl (by decide!)).2.2 (by decide)⟩

end Cut
